import Mathlib

/-!
# Verification of the lexical-list restructuring engine

Shallow embedding of `src/packages/lexical-list/src/formatList.ts` from the
Electro-Jam-Instruments/lexical repository, together with the parts of the
surrounding editor (the generic container/tree API, the selection abstraction,
and the small list-package utilities) that the engine consumes.  The container
model and the selection abstraction are external collaborators of the engine
(spec §1/§6) and are not part of the provided sources; they are modelled from
the specification, as documented on each such definition.

The document tree is represented as a key-indexed arena (`EditorState.nodes`),
matching the spec's design note: "give every node a stable integer key, store
the tree as parent/child index arrays".  Every mutating primitive of the
container model (`append`, `insertBefore`, `insertAfter`, `replace`, `remove`,
`splice`) is an explicit state transformer, and the engine functions from
`formatList.ts` are transcribed on top of them in state-passing style.
-/

namespace LexList

/-- The three list types of the lexical-list package:
`"number" | "bullet" | "check"` (spec: ordered / unordered / checklist). -/
inductive ListType where
  | number
  | bullet
  | check
deriving DecidableEq, Repr

/-- Payload of a node, by node class.  `listData` carries the list type and
the `start` ordinal offset; `itemData` carries the ordinal `value` and the
tri-state `checked` field (`none` = undefined). -/
inductive NodeData where
  | rootData
  | paragraphData
  | listData (listType : ListType) (start : Int)
  | itemData (value : Int) (checked : Option Bool)
  | textData (content : String)
deriving DecidableEq, Repr

/-- Modelled from the spec: a node of the container model.  Parent/child links
are stored by key; `format`/`indent`/`textFormat`/`textStyle` are the
formatting attributes read and written by the engine. -/
structure Node where
  data : NodeData
  parent : Option Nat := none
  children : List Nat := []
  format : Nat := 0
  indent : Nat := 0
  textFormat : Nat := 0
  textStyle : String := ""
deriving DecidableEq, Repr

/-- Modelled from the spec: a selection point — node key + offset +
granularity (`isElement = true` for element-child-index points, `false` for
text-offset points). -/
structure SelPoint where
  key : Nat
  offset : Nat
  isElement : Bool
deriving DecidableEq, Repr

/-- Modelled from the spec: the selection abstraction.  `selNodes` is the list
of nodes touched by the selection, in document order (the value that
`selection.getNodes()` reports); it is part of the model because range
resolution lives in the external selection layer.  `isRange` distinguishes
range selections from other selection kinds; `backward` tells which of
anchor/focus is the start point. -/
structure RangeSel where
  anchor : SelPoint
  focus : SelPoint
  selNodes : List Nat
  isRange : Bool := true
  backward : Bool := false
  fmt : Nat := 0
  style : String := ""
deriving DecidableEq, Repr

/-- Modelled from the spec: the editor state seen by the engine — the node
arena, a fresh-key counter, the single selection object, and the list of
keys marked dirty (for downstream re-render). -/
structure EditorState where
  nodes : List (Nat × Node)
  nextKey : Nat
  selection : Option RangeSel := none
  dirty : List Nat := []
deriving DecidableEq, Repr

/-- Key lookup in the arena (first match). -/
def look : List (Nat × Node) → Nat → Option Node
  | [], _ => none
  | (a, n) :: t, k => if a = k then some n else look t k

/-- Update the binding of an existing key in the arena. -/
def updA : List (Nat × Node) → Nat → Node → List (Nat × Node)
  | [], _, _ => []
  | (a, n) :: t, k, v => if a = k then (a, v) :: t else (a, n) :: updA t k v

def EditorState.get (s : EditorState) (k : Nat) : Option Node :=
  look s.nodes k

def EditorState.set (s : EditorState) (k : Nat) (n : Node) : EditorState :=
  { s with nodes := updA s.nodes k n }

/-- Allocate a fresh node, returning its key. -/
def EditorState.alloc (s : EditorState) (n : Node) : EditorState × Nat :=
  ({ s with nodes := (s.nextKey, n) :: s.nodes, nextKey := s.nextKey + 1 },
   s.nextKey)

/-! ## Tree queries (container model, spec §6) -/

def parentK (s : EditorState) (k : Nat) : Option Nat :=
  (s.get k).bind Node.parent

def childrenK (s : EditorState) (k : Nat) : List Nat :=
  ((s.get k).map Node.children).getD []

def dataK (s : EditorState) (k : Nat) : Option NodeData :=
  (s.get k).map Node.data

def isListK (s : EditorState) (k : Nat) : Bool :=
  match dataK s k with
  | some (.listData _ _) => true
  | _ => false

def isItemK (s : EditorState) (k : Nat) : Bool :=
  match dataK s k with
  | some (.itemData _ _) => true
  | _ => false

def isTextK (s : EditorState) (k : Nat) : Bool :=
  match dataK s k with
  | some (.textData _) => true
  | _ => false

def isRootK (s : EditorState) (k : Nat) : Bool :=
  match dataK s k with
  | some .rootData => true
  | _ => false

/-- `$isElementNode`: root, paragraph, list and list-item nodes are elements. -/
def isElementK (s : EditorState) (k : Nat) : Bool :=
  match dataK s k with
  | some (.textData _) => false
  | some _ => true
  | none => false

/-- `$isLeafNode`: in this model the only leaf class is the text node. -/
def isLeafK (s : EditorState) (k : Nat) : Bool :=
  isTextK s k

/-- Modelled from the spec: `$isRootOrShadowRoot`.  Shadow roots are not
modelled separately; the document root is the only root-like node. -/
def isRootOrShadowRootK (s : EditorState) (k : Option Nat) : Bool :=
  match k with
  | some k => isRootK s k
  | none => false

def getFirstChildK (s : EditorState) (k : Nat) : Option Nat :=
  (childrenK s k).head?

def getLastChildK (s : EditorState) (k : Nat) : Option Nat :=
  (childrenK s k).getLast?

def isEmptyK (s : EditorState) (k : Nat) : Bool :=
  childrenK s k = []

def getChildrenSizeK (s : EditorState) (k : Nat) : Nat :=
  (childrenK s k).length

/-- The sibling immediately after `k` in a list of child keys. -/
def nextAfter : List Nat → Nat → Option Nat
  | [], _ => none
  | a :: t, k => if a = k then t.head? else nextAfter t k

/-- The sibling immediately before `k` in a list of child keys. -/
def prevBefore : List Nat → Nat → Option Nat
  | [], _ => none
  | a :: t, k => if a = k then none else
      match prevBefore t k with
      | some r => some r
      | none => if t.contains k then some a else none

def getNextSiblingK (s : EditorState) (k : Nat) : Option Nat :=
  match parentK s k with
  | none => none
  | some p => nextAfter (childrenK s p) k

def getPreviousSiblingK (s : EditorState) (k : Nat) : Option Nat :=
  match parentK s k with
  | none => none
  | some p => prevBefore (childrenK s p) k

/-- Modelled from the spec: `getPreviousSiblings` — all earlier siblings in
document order. -/
def getPreviousSiblingsK (s : EditorState) (k : Nat) : List Nat :=
  match parentK s k with
  | none => []
  | some p => (childrenK s p).takeWhile (fun c => c ≠ k)

/-- Modelled from the spec: `getNextSiblings` — all later siblings in
document order. -/
def getNextSiblingsK (s : EditorState) (k : Nat) : List Nat :=
  match parentK s k with
  | none => []
  | some p => ((childrenK s p).dropWhile (fun c => c ≠ k)).tail

/-! ## Tree mutation (container model, spec §6) -/

/-- Modelled from the spec: detach a node from its parent (the first half of
every move operation, and `node.remove()` itself). -/
def detach (s : EditorState) (k : Nat) : EditorState :=
  match s.get k with
  | none => s
  | some n =>
    match n.parent with
    | none => s
    | some p =>
      let s1 :=
        match s.get p with
        | some pn =>
            s.set p { pn with children := pn.children.filter (fun c => c ≠ k) }
        | none => s
      match s1.get k with
      | some n1 => s1.set k { n1 with parent := none }
      | none => s1

/-- `node.remove()`: detach the node; its subtree stays with the detached
node (it is no longer reachable from the root). -/
def removeK (s : EditorState) (k : Nat) : EditorState :=
  detach s k

/-- `parent.append(child)`: removes the child from its old parent, then
attaches it at the end of `p`'s children. -/
def appendChildK (s : EditorState) (p k : Nat) : EditorState :=
  let s1 := detach s k
  match s1.get p, s1.get k with
  | some pn, some kn =>
      (s1.set p { pn with children := pn.children ++ [k] }).set k
        { kn with parent := some p }
  | _, _ => s1

/-- Insert key `k` immediately before key `r` in a child list. -/
def insertBeforeList : List Nat → Nat → Nat → List Nat
  | [], _, _ => []
  | a :: t, r, k => if a = r then k :: a :: t else a :: insertBeforeList t r k

/-- Insert key `k` immediately after key `r` in a child list. -/
def insertAfterList : List Nat → Nat → Nat → List Nat
  | [], _, _ => []
  | a :: t, r, k => if a = r then a :: k :: t else a :: insertAfterList t r k

/-- `ref.insertBefore(k)`: move node `k` so that it sits immediately before
`ref` under `ref`'s parent. -/
def insertBeforeK (s : EditorState) (ref k : Nat) : EditorState :=
  match parentK s ref with
  | none => s
  | some p =>
    let s1 := detach s k
    match s1.get p, s1.get k with
    | some pn, some kn =>
        (s1.set p { pn with children := insertBeforeList pn.children ref k }).set
          k { kn with parent := some p }
    | _, _ => s1

/-- `ref.insertAfter(k)`: move node `k` so that it sits immediately after
`ref` under `ref`'s parent. -/
def insertAfterK (s : EditorState) (ref k : Nat) : EditorState :=
  match parentK s ref with
  | none => s
  | some p =>
    let s1 := detach s k
    match s1.get p, s1.get k with
    | some pn, some kn =>
        (s1.set p { pn with children := insertAfterList pn.children ref k }).set
          k { kn with parent := some p }
    | _, _ => s1

/-- `old.replace(new)`: the replacement takes the old node's slot in the old
node's parent; the old node is detached (destroyed). -/
def replaceK (s : EditorState) (old new : Nat) : EditorState :=
  match parentK s old with
  | none => s
  | some p =>
    let s1 := detach s new
    match s1.get p, s1.get new with
    | some pn, some nn =>
        let s2 :=
          (s1.set p { pn with children := insertAfterList pn.children old new }).set
            new { nn with parent := some p }
        detach s2 old
    | _, _ => s1

/-- `node.splice(childrenSize, 0, ks)` — the `append` helper of
`formatList.ts`: appends every node of `ks` (moving each out of its old
parent), left to right. -/
def appendManyK (s : EditorState) (p : Nat) (ks : List Nat) : EditorState :=
  ks.foldl (fun st k => appendChildK st p k) s

/-! ## Attribute accessors -/

def setFormatK (s : EditorState) (k : Nat) (f : Nat) : EditorState :=
  match s.get k with
  | some n => s.set k { n with format := f }
  | none => s

def setIndentK (s : EditorState) (k : Nat) (i : Nat) : EditorState :=
  match s.get k with
  | some n => s.set k { n with indent := i }
  | none => s

def setTextFormatK (s : EditorState) (k : Nat) (f : Nat) : EditorState :=
  match s.get k with
  | some n => s.set k { n with textFormat := f }
  | none => s

def setTextStyleK (s : EditorState) (k : Nat) (st : String) : EditorState :=
  match s.get k with
  | some n => s.set k { n with textStyle := st }
  | none => s

def getFormatK (s : EditorState) (k : Nat) : Nat :=
  ((s.get k).map Node.format).getD 0

def getIndentK (s : EditorState) (k : Nat) : Nat :=
  ((s.get k).map Node.indent).getD 0

def getTextFormatK (s : EditorState) (k : Nat) : Nat :=
  ((s.get k).map Node.textFormat).getD 0

def getTextStyleK (s : EditorState) (k : Nat) : String :=
  ((s.get k).map Node.textStyle).getD ""

/-- `ListNode.getListType()` (defaulting is irrelevant: only called on lists). -/
def getListTypeK (s : EditorState) (k : Nat) : Option ListType :=
  match dataK s k with
  | some (.listData t _) => some t
  | _ => none

/-- `ListNode.getStart()`. -/
def getStartK (s : EditorState) (k : Nat) : Int :=
  match dataK s k with
  | some (.listData _ st) => st
  | _ => 1

/-- `ListItemNode.getValue()`. -/
def getValueK (s : EditorState) (k : Nat) : Int :=
  match dataK s k with
  | some (.itemData v _) => v
  | _ => 1

/-- `ListItemNode.getChecked()` / the `__checked` field. -/
def getCheckedK (s : EditorState) (k : Nat) : Option Bool :=
  match dataK s k with
  | some (.itemData _ c) => c
  | _ => none

/-- `ListItemNode.setValue(v)`. -/
def setValueK (s : EditorState) (k : Nat) (v : Int) : EditorState :=
  match s.get k with
  | some n =>
    match n.data with
    | .itemData _ c => s.set k { n with data := .itemData v c }
    | _ => s
  | none => s

/-- `ListItemNode.setChecked(c)`. -/
def setCheckedK (s : EditorState) (k : Nat) (c : Option Bool) : EditorState :=
  match s.get k with
  | some n =>
    match n.data with
    | .itemData v _ => s.set k { n with data := .itemData v c }
    | _ => s
  | none => s

/-- `node.markDirty()`: records the key for downstream re-render. -/
def markDirtyK (s : EditorState) (k : Nat) : EditorState :=
  { s with dirty := s.dirty ++ [k] }

/-- `node.getTextContent().trim() === ''`: whitespace-only check. -/
def isWhitespaceTextK (s : EditorState) (k : Nat) : Bool :=
  match dataK s k with
  | some (.textData c) => c.trim = ""
  | _ => false

/-! ## Node creation -/

def createParagraphK (s : EditorState) : EditorState × Nat :=
  s.alloc { data := .paragraphData }

/-- `$createListItemNode()`: fresh item, value 1, checked undefined. -/
def createListItemK (s : EditorState) : EditorState × Nat :=
  s.alloc { data := .itemData 1 none }

/-- `$createListNode(listType)`: fresh list, start 1. -/
def createListK (s : EditorState) (t : ListType) : EditorState × Nat :=
  s.alloc { data := .listData t 1 }

/-! ## List-package utilities

These live in the list package's `utils` module, which is not among the
provided sources; they are modelled from the specification. -/

/-- Modelled from the spec: `isNestedListNode` — an Item that directly
contains a nested List as its first child ("the Item already directly
contains a nested List", spec §4.4/§4.5). -/
def isNestedListNodeK (s : EditorState) (k : Nat) : Bool :=
  isItemK s k &&
    (match getFirstChildK s k with
     | some c => isListK s c
     | none => false)

/-- `isNestedListNode` applied to a possibly-null sibling. -/
def isNestedListNodeOptK (s : EditorState) (k : Option Nat) : Bool :=
  match k with
  | some k => isNestedListNodeK s k
  | none => false

/-- Climb from `cur` to the root, remembering the highest List seen
(`best`).  Fuel-bounded ascent. -/
def topListLoop (s : EditorState) : Nat → Nat → Nat → Nat
  | 0, best, _ => best
  | fuel + 1, best, cur =>
    match parentK s cur with
    | none => best
    | some p => topListLoop s fuel (if isListK s p then p else best) p

/-- Modelled from the spec: `$getTopListNode` — "nearest-Item-then-top-List
resolution" (spec §4.2): the topmost List ancestor of a list item.  Returns
`none` when the item's parent is not a List (the upstream invariant
failure). -/
def getTopListNodeK (s : EditorState) (k : Nat) : Option Nat :=
  match parentK s k with
  | some p =>
      if isListK s p then some (topListLoop s s.nodes.length p p) else none
  | none => none

/-- Modelled from the spec: `$getAllListItems` — every Item of the list in
document order, descending into nested Lists instead of reporting the
wrapper Item that carries them ("no Item is unwrapped twice even if
nested", spec §4.2). -/
def getAllListItemsK (s : EditorState) : Nat → Nat → List Nat
  | 0, _ => []
  | fuel + 1, listKey =>
    (childrenK s listKey).flatMap (fun c =>
      if isItemK s c then
        match getFirstChildK s c with
        | some fc =>
            if isListK s fc then getAllListItemsK s fuel fc else [c]
        | none => [c]
      else [])

/-- Ascend from `cur` while it has no siblings (and is a List or Item),
returning the highest such ancestor. -/
def removeHighestLoop (s : EditorState) : Nat → Nat → Nat
  | 0, cur => cur
  | fuel + 1, cur =>
    if (getNextSiblingK s cur).isNone && (getPreviousSiblingK s cur).isNone then
      match parentK s cur with
      | none => cur
      | some p =>
          if isItemK s cur || isListK s cur then removeHighestLoop s fuel p
          else cur
    else cur

/-- Modelled from the spec: `$removeHighestEmptyListParent` — "don't leave
hanging nested empty lists": removes the highest ancestor that would be
left childless. -/
def removeHighestEmptyListParentK (s : EditorState) (k : Nat) : EditorState :=
  removeK s (removeHighestLoop s s.nodes.length k)

/-- Modelled from the spec: `$getNearestNodeOfType(node, ListItemNode)` from
the external utils package — the nearest ancestor (or self) that is a list
item. -/
def getNearestItemK (s : EditorState) : Nat → Nat → Option Nat
  | 0, _ => none
  | fuel + 1, k =>
    if isItemK s k then some k
    else
      match parentK s k with
      | some p => getNearestItemK s fuel p
      | none => none

/-! ## Selection operations -/

/-- `selection.isCollapsed()`: anchor and focus coincide. -/
def RangeSel.isCollapsed (sel : RangeSel) : Bool :=
  sel.anchor = sel.focus

/-- `selection.getStartEndPoints()`: start point first (anchor unless the
selection is backward). -/
def RangeSel.startPoint (sel : RangeSel) : SelPoint :=
  if sel.backward then sel.focus else sel.anchor

/-- Modelled from the spec: collapse the selection to an element point at
offset 0 of node `k` (`node.select()` / `selectStart()` on an empty
element). -/
def selectNodeStart (s : EditorState) (k : Nat) : EditorState :=
  { s with
    selection := some
      { anchor := { key := k, offset := 0, isElement := true }
        focus := { key := k, offset := 0, isElement := true }
        selNodes := [k]
        fmt := ((s.selection).map RangeSel.fmt).getD 0
        style := ((s.selection).map RangeSel.style).getD "" } }

/-! ## The engine: transcription of `formatList.ts`

Everything below this point is transcribed from
`src/packages/lexical-list/src/formatList.ts`; functions that can raise an
`invariant` failure return `Option` (`none` = the invariant fired and the
transaction must be rolled back). -/

/-- `$isListNode(x) && t === x.getListType()` on a possibly-null sibling. -/
def sameTypeListOptK (s : EditorState) (t : ListType) (k : Option Nat) : Bool :=
  match k with
  | some k => isListK s k && decide (getListTypeK s k = some t)
  | none => false

def isItemOptK (s : EditorState) (k : Option Nat) : Bool :=
  match k with
  | some k => isItemK s k
  | none => false

/-- `$isSelectingEmptyListItem` (formatList.ts lines 44–55). -/
def isSelectingEmptyListItemK (s : EditorState) (anchorNode : Nat)
    (nodes : List Nat) : Bool :=
  isItemK s anchorNode &&
    (decide (nodes = []) ||
      (decide (nodes.length = 1) &&
        (match nodes.head? with
         | some n0 => decide (anchorNode = n0)
         | none => false) &&
        decide (getChildrenSizeK s anchorNode = 0)))

/-- The element-anchored selection rebase at the end of `$createListOrMerge`
(lines 201–214): anchor/focus points keyed at the target list are re-pointed
at the new list item. -/
def rebaseSelectionToItem (s : EditorState) (targetList listItem : Nat) :
    EditorState :=
  match s.selection with
  | some sel =>
    if sel.isRange then
      let sel :=
        if sel.anchor.key = targetList then
          { sel with anchor :=
              { key := listItem, offset := sel.anchor.offset, isElement := true } }
        else sel
      let sel :=
        if sel.focus.key = targetList then
          { sel with focus :=
              { key := listItem, offset := sel.focus.offset, isElement := true } }
        else sel
      { s with selection := some sel }
    else s
  | none => s

/-- `$createListOrMerge` (lines 163–219): wraps block `node`'s children in a
new Item and splices it into an adjacent same-type List (merging the far
List too when both neighbors match), or creates a brand-new List in the
block's place.  Returns the target list's key.  `none` only on
`getFirstChildOrThrow` failure. -/
def createListOrMergeK (s : EditorState) (node : Nat) (listType : ListType) :
    Option (EditorState × Nat) :=
  if isListK s node then some (s, node)
  else
    let previousSibling := getPreviousSiblingK s node
    let nextSibling := getNextSiblingK s node
    let alloc1 := createListItemK s
    let s := alloc1.1
    let listItem := alloc1.2
    let s := appendManyK s listItem (childrenK s node)
    let step : Option (EditorState × Nat) :=
      if sameTypeListOptK s listType previousSibling then
        match previousSibling with
        | some prev =>
          let s := appendChildK s prev listItem
          -- if the same type of list is on both sides, merge them.
          let s :=
            if sameTypeListOptK s listType nextSibling then
              match nextSibling with
              | some next =>
                let s := appendManyK s prev (childrenK s next)
                removeK s next
              | none => s
            else s
          some (s, prev)
        | none => none
      else if sameTypeListOptK s listType nextSibling then
        match nextSibling with
        | some next =>
          match getFirstChildK s next with
          | some firstChild => some (insertBeforeK s firstChild listItem, next)
          | none => none
        | none => none
      else
        let alloc2 := createListK s listType
        let s := alloc2.1
        let list := alloc2.2
        let s := appendChildK s list listItem
        let s := replaceK s node list
        some (s, list)
    match step with
    | none => none
    | some (s, targetList) =>
      -- listItem needs to be attached to root prior to setting indent
      let s := setFormatK s listItem (getFormatK s node)
      let s := setIndentK s listItem (getIndentK s node)
      let s := rebaseSelectionToItem s targetList listItem
      let s := removeK s node
      some (s, targetList)

/-- The `while (parent != null)` ancestor walk of `$insertList`
(lines 131–154), fuel-bounded.  Returns the updated state and handled set. -/
def insertLoopClimb (s : EditorState) (listType : ListType)
    (handled : List Nat) :
    Nat → Option Nat → Option (EditorState × List Nat)
  | 0, _ => some (s, handled)
  | _, none => some (s, handled)
  | fuel + 1, some parent =>
    let parentKey := parent
    if isListK s parent then
      if !(handled.contains parentKey) then
        let alloc1 := createListK s listType
        let s1 := alloc1.1
        let newListNode := alloc1.2
        let s1 := appendManyK s1 newListNode (childrenK s1 parent)
        let s1 := replaceK s1 parent newListNode
        some (s1, handled ++ [parentKey])
      else some (s, handled)
    else
      let nextParent := parentK s parent
      if isRootOrShadowRootK s nextParent && !(handled.contains parentKey) then
        let handled := handled ++ [parentKey]
        match createListOrMergeK s parent listType with
        | some (s1, _) => some (s1, handled)
        | none => none
      else insertLoopClimb s listType handled fuel nextParent

/-- One iteration of the `for` loop of `$insertList` (lines 112–155). -/
def insertLoopBody (listType : ListType)
    (acc : Option (EditorState × List Nat)) (node : Nat) :
    Option (EditorState × List Nat) :=
  match acc with
  | none => none
  | some (s, handled) =>
    if isElementK s node && isEmptyK s node && !isItemK s node &&
        !(handled.contains node) then
      match createListOrMergeK s node listType with
      | some (s1, _) => some (s1, handled)
      | none => none
    else
      let parent : Option Nat :=
        if isLeafK s node then parentK s node
        else if isItemK s node && isEmptyK s node then some node
        else none
      insertLoopClimb s listType handled (s.nodes.length + 1) parent

/-- `$insertList(listType)` (lines 66–157). -/
def insertList (s0 : EditorState) (listType : ListType) : Option EditorState :=
  match s0.selection with
  | none => some s0
  | some selection =>
    let nodes := selection.selNodes
    let pre : Option (EditorState × List Nat × Bool) :=
      if selection.isRange then
        let anchor := selection.startPoint
        let anchorNode := anchor.key
        let anchorNodeParent := parentK s0 anchorNode
        if isRootOrShadowRootK s0 (some anchorNode) then
          match getFirstChildK s0 anchorNode with
          | some firstChild =>
              some (selectNodeStart s0 firstChild, ([firstChild], false))
          | none =>
              let alloc1 := createParagraphK s0
              let s1 := alloc1.1
              let paragraph := alloc1.2
              let s1 := appendChildK s1 anchorNode paragraph
              let s1 := selectNodeStart s1 paragraph
              some (s1, ([paragraph], false))
        else if isSelectingEmptyListItemK s0 anchorNode nodes then
          let alloc1 := createListK s0 listType
          let s1 := alloc1.1
          let list := alloc1.2
          if isRootOrShadowRootK s1 anchorNodeParent then
            let s1 := replaceK s1 anchorNode list
            let alloc2 := createListItemK s1
            let s1 := alloc2.1
            let listItem := alloc2.2
            let s1 :=
              if isElementK s1 anchorNode then
                setIndentK (setFormatK s1 listItem (getFormatK s1 anchorNode))
                  listItem (getIndentK s1 anchorNode)
              else s1
            let s1 := appendChildK s1 list listItem
            some (s1, ([], true))
          else if isItemK s1 anchorNode then
            match parentK s1 anchorNode with
            | some parent =>
                let s1 := appendManyK s1 list (childrenK s1 parent)
                let s1 := replaceK s1 parent list
                some (s1, ([], true))
            | none => none
          else some (s1, ([], true))
        else some (s0, (nodes, false))
      else some (s0, (nodes, false))
    match pre with
    | none => none
    | some (s1, _, true) => some s1
    | some (s1, nodes1, false) =>
      match nodes1.foldl (insertLoopBody listType) (some (s1, [])) with
      | some (s2, _) => some s2
      | none => none

/-- `mergeLists(list1, list2)` (lines 227–247), fuel-bounded recursion on the
nested boundary items. -/
def mergeListsK (s : EditorState) : Nat → Nat → Nat → EditorState
  | 0, _, _ => s
  | fuel + 1, list1, list2 =>
    let listItem1 := getLastChildK s list1
    let listItem2 := getFirstChildK s list2
    let s :=
      match listItem1, listItem2 with
      | some li1, some li2 =>
        if isNestedListNodeK s li1 && isNestedListNodeK s li2 then
          match getFirstChildK s li1, getFirstChildK s li2 with
          | some inner1, some inner2 =>
            let s := mergeListsK s fuel inner1 inner2
            removeK s li2
          | _, _ => s
        else s
      | _, _ => s
    let toMerge := childrenK s list2
    let s := if toMerge ≠ [] then appendManyK s list1 toMerge else s
    removeK s list2

/-- `mergeNextSiblingListIfSameType(list)` (lines 353–361). -/
def mergeNextSiblingListIfSameTypeK (s : EditorState) (list : Nat) :
    EditorState :=
  match getNextSiblingK s list with
  | some nextSibling =>
    if isListK s nextSibling &&
        decide (getListTypeK s list = getListTypeK s nextSibling) then
      mergeListsK s (s.nodes.length + 1) list nextSibling
    else s
  | none => s

/-- The caret produced by
`$normalizeCaret($getChildCaret(paragraph, 'next'))`: the start of the new
paragraph (inside its first text child when there is one).  Modelled from
the spec: "rebased to the start of the new plain block's first child slot". -/
def pointAtStartOf (s : EditorState) (p : Nat) : SelPoint :=
  match getFirstChildK s p with
  | some c =>
    if isTextK s c then { key := c, offset := 0, isElement := false }
    else { key := p, offset := 0, isElement := true }
  | none => { key := p, offset := 0, isElement := true }

/-- The selection rebase of `$removeList` (lines 300–311): points keyed at
the unwrapped list item move to the start of the replacing paragraph. -/
def rebasePointIfItem (s : EditorState) (itemKey paragraph : Nat) :
    EditorState :=
  match s.selection with
  | some sel =>
    let sel :=
      if sel.anchor.key = itemKey then
        { sel with anchor := pointAtStartOf s paragraph }
      else sel
    let sel :=
      if sel.focus.key = itemKey then
        { sel with focus := pointAtStartOf s paragraph }
      else sel
    { s with selection := some sel }
  | none => s

/-- The body of the inner loop of `$removeList` (lines 284–314): unwrap one
list item into a fresh paragraph placed after the moving insertion point. -/
def unwrapListItem (selStyle : String) (selFmt : Nat)
    (acc : EditorState × Nat) (listItemNode : Nat) : EditorState × Nat :=
  let s := acc.1
  let insertionPoint := acc.2
  let alloc1 := createParagraphK s
  let s := alloc1.1
  let paragraph := alloc1.2
  let s := setTextStyleK s paragraph selStyle
  let s := setTextFormatK s paragraph selFmt
  let s := appendManyK s paragraph (childrenK s listItemNode)
  let s := insertAfterK s insertionPoint paragraph
  let s := rebasePointIfItem s listItemNode paragraph
  let s := removeK s listItemNode
  (s, paragraph)

/-- The outer loop body of `$removeList` (lines 279–316). -/
def removeListNode (selStyle : String) (selFmt : Nat) (s : EditorState)
    (listNode : Nat) : EditorState :=
  let listItems := getAllListItemsK s (s.nodes.length + 1) listNode
  let r := listItems.foldl (unwrapListItem selStyle selFmt) (s, listNode)
  removeK r.1 listNode

/-- One step of the `listNodes` set construction of `$removeList`
(lines 266–277): add the leaf's top-level List ancestor, deduplicated in
insertion order. -/
def collectStep (s : EditorState) (acc : List Nat) (node : Nat) : List Nat :=
  if isLeafK s node then
    match getNearestItemK s (s.nodes.length + 1) node with
    | some listItemNode =>
      match getTopListNodeK s listItemNode with
      | some top => if acc.contains top then acc else acc ++ [top]
      | none => acc
    | none => acc
  else acc

/-- The `listNodes` set construction of `$removeList` (lines 266–277):
distinct top-level List ancestors of the selected leaves, in insertion
order. -/
def collectListNodes (s : EditorState) (nodes : List Nat) : List Nat :=
  nodes.foldl (collectStep s) []

/-- `$removeList()` (lines 255–318). -/
def removeList (s0 : EditorState) : EditorState :=
  match s0.selection with
  | some selection =>
    if selection.isRange then
      let nodes := selection.selNodes
      let anchorNode := selection.anchor.key
      let listNodes :=
        if isSelectingEmptyListItemK s0 anchorNode nodes then
          match getTopListNodeK s0 anchorNode with
          | some top => [top]
          | none => []
        else collectListNodes s0 nodes
      listNodes.foldl (removeListNode selection.style selection.fmt) s0
    else s0
  | none => s0

/-- One child step of `updateChildrenListItemValue` (lines 329–345), carrying
the running ordinal counter. -/
def updateChildStep (isNotChecklist : Bool) (acc : EditorState × Int)
    (child : Nat) : EditorState × Int :=
  let s := acc.1
  let value := acc.2
  if isItemK s child then
    let s := if getValueK s child ≠ value then setValueK s child value else s
    let s :=
      if isNotChecklist && (getCheckedK s child).isSome then
        setCheckedK s child none
      else s
    let value :=
      if !(match getFirstChildK s child with
           | some fc => isListK s fc
           | none => false) then value + 1
      else value
    -- ACCESSIBILITY: mark all list items dirty so aria-setsize is
    -- recalculated for all siblings when the list structure changes.
    let s := markDirtyK s child
    (s, value)
  else (s, value)

/-- `updateChildrenListItemValue(list)` (lines 326–346). -/
def updateChildrenListItemValue (s : EditorState) (list : Nat) : EditorState :=
  let isNotChecklist := decide (getListTypeK s list ≠ some ListType.check)
  let value := getStartK s list
  ((childrenK s list).foldl (updateChildStep isNotChecklist) (s, value)).1

/-- `$handleIndent(listItemNode)` (lines 369–450). -/
def handleIndent (s : EditorState) (listItemNode : Nat) : EditorState :=
  -- go through each node and decide where to move it.
  let removed : List Nat := []
  if isNestedListNodeK s listItemNode || removed.contains listItemNode then s
  else
    let parent := parentK s listItemNode
    let nextSibling := getNextSiblingK s listItemNode
    let previousSibling := getPreviousSiblingK s listItemNode
    -- if there are nested lists on either side, merge them all together.
    if isNestedListNodeOptK s nextSibling &&
        isNestedListNodeOptK s previousSibling then
      match previousSibling, nextSibling with
      | some prevS, some nextS =>
        match getFirstChildK s prevS with
        | some innerList =>
          if isListK s innerList then
            let s1 := appendChildK s innerList listItemNode
            match getFirstChildK s1 nextS with
            | some nextInnerList =>
              if isListK s1 nextInnerList then
                let children := childrenK s1 nextInnerList
                let s1 := appendManyK s1 innerList children
                let s1 := removeK s1 nextS
                let _removed := removed ++ [nextS]
                s1
              else s1
            | none => s1
          else s
        | none => s
      | _, _ => s
    else if isNestedListNodeOptK s nextSibling then
      -- if the ListItemNode is next to a nested ListNode, merge them
      match nextSibling with
      | some nextS =>
        match getFirstChildK s nextS with
        | some innerList =>
          if isListK s innerList then
            match getFirstChildK s innerList with
            | some firstChild => insertBeforeK s firstChild listItemNode
            | none => s
          else s
        | none => s
      | none => s
    else if isNestedListNodeOptK s previousSibling then
      match previousSibling with
      | some prevS =>
        match getFirstChildK s prevS with
        | some innerList =>
          if isListK s innerList then appendChildK s innerList listItemNode
          else s
        | none => s
      | none => s
    else if isItemOptK s previousSibling then
      -- append the nested list directly onto the previous sibling
      match previousSibling, parent with
      | some prevS, some par =>
        if isListK s par then
          match getListTypeK s par with
          | some t =>
            let alloc1 := createListK s t
            let s1 := alloc1.1
            let newList := alloc1.2
            let s1 := setTextFormatK s1 newList (getTextFormatK s1 par)
            let s1 := setTextStyleK s1 newList (getTextStyleK s1 par)
            let s1 := appendChildK s1 newList listItemNode
            appendChildK s1 prevS newList
          | none => s
        else s
      | _, _ => s
    else
      -- no previous sibling: first item, create a wrapper item
      match parent with
      | some par =>
        if isListK s par then
          match getListTypeK s par with
          | some t =>
            let alloc1 := createListItemK s
            let s1 := alloc1.1
            let newListItem := alloc1.2
            let s1 := setTextFormatK s1 newListItem (getTextFormatK s1 listItemNode)
            let s1 := setTextStyleK s1 newListItem (getTextStyleK s1 listItemNode)
            let alloc2 := createListK s1 t
            let s1 := alloc2.1
            let newList := alloc2.2
            let s1 := setTextFormatK s1 newList (getTextFormatK s1 par)
            let s1 := setTextStyleK s1 newList (getTextStyleK s1 par)
            let s1 := appendChildK s1 newListItem newList
            let s1 := appendChildK s1 newList listItemNode
            match nextSibling with
            | some nextS => insertBeforeK s1 nextS newListItem
            | none => appendChildK s1 par newListItem
          | none => s
        else s
      | none => s

/-- `$handleIndent` with the dead per-call visited-set logic deleted
(`removed` is created empty and queried before any insertion). -/
def handleIndentNoVisited (s : EditorState) (listItemNode : Nat) :
    EditorState :=
  if isNestedListNodeK s listItemNode then s
  else
    let parent := parentK s listItemNode
    let nextSibling := getNextSiblingK s listItemNode
    let previousSibling := getPreviousSiblingK s listItemNode
    if isNestedListNodeOptK s nextSibling &&
        isNestedListNodeOptK s previousSibling then
      match previousSibling, nextSibling with
      | some prevS, some nextS =>
        match getFirstChildK s prevS with
        | some innerList =>
          if isListK s innerList then
            let s1 := appendChildK s innerList listItemNode
            match getFirstChildK s1 nextS with
            | some nextInnerList =>
              if isListK s1 nextInnerList then
                let children := childrenK s1 nextInnerList
                let s1 := appendManyK s1 innerList children
                removeK s1 nextS
              else s1
            | none => s1
          else s
        | none => s
      | _, _ => s
    else if isNestedListNodeOptK s nextSibling then
      match nextSibling with
      | some nextS =>
        match getFirstChildK s nextS with
        | some innerList =>
          if isListK s innerList then
            match getFirstChildK s innerList with
            | some firstChild => insertBeforeK s firstChild listItemNode
            | none => s
          else s
        | none => s
      | none => s
    else if isNestedListNodeOptK s previousSibling then
      match previousSibling with
      | some prevS =>
        match getFirstChildK s prevS with
        | some innerList =>
          if isListK s innerList then appendChildK s innerList listItemNode
          else s
        | none => s
      | none => s
    else if isItemOptK s previousSibling then
      match previousSibling, parent with
      | some prevS, some par =>
        if isListK s par then
          match getListTypeK s par with
          | some t =>
            let alloc1 := createListK s t
            let s1 := alloc1.1
            let newList := alloc1.2
            let s1 := setTextFormatK s1 newList (getTextFormatK s1 par)
            let s1 := setTextStyleK s1 newList (getTextStyleK s1 par)
            let s1 := appendChildK s1 newList listItemNode
            appendChildK s1 prevS newList
          | none => s
        else s
      | _, _ => s
    else
      match parent with
      | some par =>
        if isListK s par then
          match getListTypeK s par with
          | some t =>
            let alloc1 := createListItemK s
            let s1 := alloc1.1
            let newListItem := alloc1.2
            let s1 := setTextFormatK s1 newListItem (getTextFormatK s1 listItemNode)
            let s1 := setTextStyleK s1 newListItem (getTextStyleK s1 listItemNode)
            let alloc2 := createListK s1 t
            let s1 := alloc2.1
            let newList := alloc2.2
            let s1 := setTextFormatK s1 newList (getTextFormatK s1 par)
            let s1 := setTextStyleK s1 newList (getTextStyleK s1 par)
            let s1 := appendChildK s1 newListItem newList
            let s1 := appendChildK s1 newList listItemNode
            match nextSibling with
            | some nextS => insertBeforeK s1 nextS newListItem
            | none => appendChildK s1 par newListItem
          | none => s
        else s
      | none => s

/-- `$handleOutdent(listItemNode)` (lines 458–542). -/
def handleOutdent (s : EditorState) (listItemNode : Nat) : EditorState :=
  if isNestedListNodeK s listItemNode then s
  else
    let parentList := parentK s listItemNode
    let grandparentListItem := parentList.bind (parentK s)
    let greatGrandparentList := grandparentListItem.bind (parentK s)
    -- If it doesn't have these ancestors, it's not indented.
    match parentList, grandparentListItem, greatGrandparentList with
    | some pl, some gp, some ggl =>
      if isListK s ggl && isItemK s gp && isListK s pl then
        let grandparentHasTextContent :=
          (childrenK s gp).any (fun child => !isListK s child)
        let firstChild := getFirstChildK s pl
        let lastChild := getLastChildK s pl
        if firstChild = some listItemNode then
          if grandparentHasTextContent then
            let s1 := insertAfterK s gp listItemNode
            if isEmptyK s1 pl then removeK s1 pl else s1
          else
            let s1 := insertBeforeK s gp listItemNode
            if isEmptyK s1 pl then removeK s1 gp else s1
        else if lastChild = some listItemNode then
          let s1 := insertAfterK s gp listItemNode
          if isEmptyK s1 pl then
            if grandparentHasTextContent then removeK s1 pl else removeK s1 gp
          else s1
        else
          -- middle item: split the siblings around it
          match getListTypeK s pl with
          | some listType =>
            if grandparentHasTextContent then
              let nextSiblings := getNextSiblingsK s listItemNode
              let s1 := insertAfterK s gp listItemNode
              if nextSiblings.length > 0 then
                let alloc1 := createListK s1 listType
                let s1 := alloc1.1
                let nextSiblingsList := alloc1.2
                let s1 := appendManyK s1 nextSiblingsList nextSiblings
                appendChildK s1 listItemNode nextSiblingsList
              else s1
            else
              let alloc1 := createListItemK s
              let s1 := alloc1.1
              let previousSiblingsListItem := alloc1.2
              let alloc2 := createListK s1 listType
              let s1 := alloc2.1
              let previousSiblingsList := alloc2.2
              let s1 := appendChildK s1 previousSiblingsListItem previousSiblingsList
              let s1 := appendManyK s1 previousSiblingsList
                  (getPreviousSiblingsK s1 listItemNode)
              let alloc3 := createListItemK s1
              let s1 := alloc3.1
              let nextSiblingsListItem := alloc3.2
              let alloc4 := createListK s1 listType
              let s1 := alloc4.1
              let nextSiblingsList := alloc4.2
              let s1 := appendChildK s1 nextSiblingsListItem nextSiblingsList
              let s1 := appendManyK s1 nextSiblingsList
                  (getNextSiblingsK s1 listItemNode)
              let s1 := insertBeforeK s1 gp previousSiblingsListItem
              let s1 := insertAfterK s1 gp nextSiblingsListItem
              replaceK s1 gp listItemNode
          | none => s
      else s
    | _, _, _ => s

/-- `$handleListInsertParagraph()` (lines 553–634).  Returns the new state
and the handled flag; `none` when the `$isListNode(parent)` invariant (or
`$getTopListNode`'s own invariant) fires. -/
def handleListInsertParagraph (s0 : EditorState) :
    Option (EditorState × Bool) :=
  match s0.selection with
  | none => some (s0, false)
  | some selection =>
    if !(selection.isRange && selection.isCollapsed) then some (s0, false)
    else
      -- Only run this code on empty list items (including whitespace-only)
      let anchor := selection.anchor.key
      let listItem : Option Nat :=
        if isItemK s0 anchor && decide (getChildrenSizeK s0 anchor = 0) then
          some anchor
        else if isTextK s0 anchor then
          match parentK s0 anchor with
          | some parentListItem =>
            if isItemK s0 parentListItem &&
                (childrenK s0 parentListItem).all
                  (fun node => isTextK s0 node && isWhitespaceTextK s0 node) then
              some parentListItem
            else none
          | none => none
        else none
      match listItem with
      | none => some (s0, false)
      | some listItem =>
        match getTopListNodeK s0 listItem with
        | none => none
        | some topListNode =>
          match parentK s0 listItem with
          | none => none
          | some parent =>
            if !isListK s0 parent then none
            else
              let grandparent := parentK s0 parent
              if isRootOrShadowRootK s0 grandparent then
                let alloc1 := createParagraphK s0
                let s1 := alloc1.1
                let replacementNode := alloc1.2
                let s1 := insertAfterK s1 topListNode replacementNode
                let s1 := setTextStyleK s1 replacementNode selection.style
                let s1 := setTextFormatK s1 replacementNode selection.fmt
                let s1 := selectNodeStart s1 replacementNode
                let nextSiblings := getNextSiblingsK s1 listItem
                let s1 :=
                  if nextSiblings.length > 0 then
                    match getListTypeK s1 parent with
                    | some t =>
                      let alloc2 := createListK s1 t
                      let s2 := alloc2.1
                      let newList := alloc2.2
                      let s2 :=
                        if isItemK s2 replacementNode then
                          let alloc3 := createListItemK s2
                          let s3 := alloc3.1
                          let newListItem := alloc3.2
                          let s3 := appendChildK s3 newListItem newList
                          insertAfterK s3 replacementNode newListItem
                        else insertAfterK s2 replacementNode newList
                      appendManyK s2 newList nextSiblings
                    | none => s1
                  else s1
                -- Don't leave hanging nested empty lists
                let s1 := removeHighestEmptyListParentK s1 listItem
                some (s1, true)
              else if isItemOptK s0 grandparent then
                -- for nested list items, use outdent instead of restructuring
                some (handleOutdent s0 listItem, true)
              else some (s0, false)

/-! ## Observation functions

Spec-side views of the tree used to state the claims: the subtree reachable
from a key, and the text contents under a key, both fuel-bounded. -/

/-- A rendered subtree: node payload plus rendered children. -/
inductive VTree where
  | vnode (d : NodeData) (cs : List VTree)
deriving Repr

/-- The subtree reachable from key `k` (fuel-bounded). -/
def viewK (s : EditorState) : Nat → Nat → VTree
  | 0, _ => .vnode (.textData "<fuel>") []
  | fuel + 1, k =>
    match s.get k with
    | none => .vnode (.textData "<missing>") []
    | some n => .vnode n.data (n.children.map (viewK s fuel))

/-- The text contents under key `k`, in document order (fuel-bounded). -/
def textsUnder (s : EditorState) : Nat → Nat → List String
  | 0, _ => []
  | fuel + 1, k =>
    match dataK s k with
    | some (.textData c) => [c]
    | _ => (childrenK s k).flatMap (textsUnder s fuel)

/-- The subtree reachable from key `k` flattened in preorder with depth
tags (fuel-bounded).  Two reachable trees are equal iff their flattened
views are. -/
def flatView (s : EditorState) : Nat → Nat → Nat → List (Nat × NodeData)
  | 0, _, _ => []
  | fuel + 1, depth, k =>
    match s.get k with
    | none => []
    | some n => (depth, n.data) :: n.children.flatMap (flatView s fuel (depth + 1))

/-! ## Arena lemmas -/

theorem look_updA_ne (l : List (Nat × Node)) (k k' : Nat) (v : Node)
    (h : k' ≠ k) : look (updA l k v) k' = look l k' := by
  induction l with
  | nil => rfl
  | cons a t ih =>
    obtain ⟨a1, a2⟩ := a
    by_cases h1 : a1 = k
    · subst h1
      simp only [updA, if_pos rfl, look]
      rw [if_neg (fun hh => h hh.symm), if_neg (fun hh => h hh.symm)]
    · simp only [updA, if_neg h1, look]
      by_cases h2 : a1 = k'
      · rw [if_pos h2, if_pos h2]
      · rw [if_neg h2, if_neg h2, ih]

theorem look_updA_self (l : List (Nat × Node)) (k : Nat) (v : Node) :
    look (updA l k v) k = (look l k).map (fun _ => v) := by
  induction l with
  | nil => rfl
  | cons a t ih =>
    obtain ⟨a1, a2⟩ := a
    by_cases h1 : a1 = k
    · subst h1
      simp [updA, look]
    · simp only [updA, if_neg h1, look, if_neg h1, ih]

theorem get_set_self (s : EditorState) (k : Nat) (n : Node) :
    (s.set k n).get k = (s.get k).map (fun _ => n) :=
  look_updA_self s.nodes k n

theorem get_set_some (s : EditorState) (k : Nat) (n m : Node)
    (h : s.get k = some m) : (s.set k n).get k = some n := by
  rw [get_set_self, h]; rfl

theorem get_set_ne (s : EditorState) {k k' : Nat} (n : Node) (h : k' ≠ k) :
    (s.set k n).get k' = s.get k' :=
  look_updA_ne s.nodes k k' n h

theorem get_alloc_self (s : EditorState) (n : Node) :
    (s.alloc n).1.get (s.alloc n).2 = some n := by
  simp [EditorState.alloc, EditorState.get, look]

theorem get_alloc_ne (s : EditorState) (n : Node) {k : Nat}
    (h : k ≠ s.nextKey) : (s.alloc n).1.get k = s.get k := by
  simp only [EditorState.alloc, EditorState.get, look]
  rw [if_neg (fun hh => h hh.symm)]

@[simp] theorem set_selection (s : EditorState) (k : Nat) (n : Node) :
    (s.set k n).selection = s.selection := rfl

@[simp] theorem set_nextKey (s : EditorState) (k : Nat) (n : Node) :
    (s.set k n).nextKey = s.nextKey := rfl

@[simp] theorem set_dirty (s : EditorState) (k : Nat) (n : Node) :
    (s.set k n).dirty = s.dirty := rfl

@[simp] theorem alloc_selection (s : EditorState) (n : Node) :
    (s.alloc n).1.selection = s.selection := rfl

@[simp] theorem alloc_nextKey (s : EditorState) (n : Node) :
    (s.alloc n).1.nextKey = s.nextKey + 1 := rfl

@[simp] theorem alloc_key (s : EditorState) (n : Node) :
    (s.alloc n).2 = s.nextKey := rfl

/-! ## Lemmas about `updateChildrenListItemValue` (claims C4 and C9) -/

/-- Two states with identical tree shape and node classes (only item
payload fields may differ). -/
def ShapeEq (s s' : EditorState) : Prop :=
  (∀ k, childrenK s' k = childrenK s k) ∧
  (∀ k, isListK s' k = isListK s k) ∧
  (∀ k, isItemK s' k = isItemK s k)

theorem ShapeEq.refl (s : EditorState) : ShapeEq s s :=
  ⟨fun _ => rfl, fun _ => rfl, fun _ => rfl⟩

theorem ShapeEq.trans {s1 s2 s3 : EditorState} (h1 : ShapeEq s1 s2)
    (h2 : ShapeEq s2 s3) : ShapeEq s1 s3 :=
  ⟨fun k => (h2.1 k).trans (h1.1 k), fun k => (h2.2.1 k).trans (h1.2.1 k),
   fun k => (h2.2.2 k).trans (h1.2.2 k)⟩

theorem getFirstChildK_of_shapeEq {s s' : EditorState} (h : ShapeEq s s')
    (k : Nat) : getFirstChildK s' k = getFirstChildK s k := by
  unfold getFirstChildK; rw [h.1 k]

theorem shapeEq_setValueK (s : EditorState) (k : Nat) (v : Int) :
    ShapeEq s (setValueK s k v) := by
  unfold setValueK
  split
  · next n hn =>
    split
    · next v0 c hd =>
      refine ⟨fun q => ?_, fun q => ?_, fun q => ?_⟩ <;>
      · by_cases hq : q = k
        · subst hq
          simp [childrenK, isListK, isItemK, dataK, get_set_some s q _ n hn, hn, hd]
        · simp only [childrenK, isListK, isItemK, dataK, get_set_ne s _ hq]
    · exact ShapeEq.refl s
  · exact ShapeEq.refl s

theorem shapeEq_setCheckedK (s : EditorState) (k : Nat) (c : Option Bool) :
    ShapeEq s (setCheckedK s k c) := by
  unfold setCheckedK
  split
  · next n hn =>
    split
    · next v0 c0 hd =>
      refine ⟨fun q => ?_, fun q => ?_, fun q => ?_⟩ <;>
      · by_cases hq : q = k
        · subst hq
          simp [childrenK, isListK, isItemK, dataK, get_set_some s q _ n hn, hn, hd]
        · simp only [childrenK, isListK, isItemK, dataK, get_set_ne s _ hq]
    · exact ShapeEq.refl s
  · exact ShapeEq.refl s

theorem shapeEq_markDirtyK (s : EditorState) (k : Nat) :
    ShapeEq s (markDirtyK s k) :=
  ⟨fun _ => rfl, fun _ => rfl, fun _ => rfl⟩

theorem shapeEq_updateChildStep (nc : Bool) (a : EditorState × Int)
    (c : Nat) : ShapeEq a.1 (updateChildStep nc a c).1 := by
  simp only [updateChildStep]
  split
  · refine ShapeEq.trans ?_ (shapeEq_markDirtyK _ _)
    split
    · split
      · exact ShapeEq.trans (shapeEq_setValueK _ _ _) (shapeEq_setCheckedK _ _ _)
      · exact shapeEq_setValueK _ _ _
    · split
      · exact shapeEq_setCheckedK _ _ _
      · exact ShapeEq.refl _
  · exact ShapeEq.refl _

theorem shapeEq_updateFold (nc : Bool) :
    ∀ (ks : List Nat) (a : EditorState × Int),
      ShapeEq a.1 (ks.foldl (updateChildStep nc) a).1 := by
  intro ks
  induction ks with
  | nil => intro a; exact ShapeEq.refl _
  | cons c t ih =>
    intro a
    exact ShapeEq.trans (shapeEq_updateChildStep nc a c) (ih _)

theorem get_setValueK_ne (s : EditorState) (k : Nat) (v : Int) {q : Nat}
    (h : q ≠ k) : (setValueK s k v).get q = s.get q := by
  unfold setValueK
  split
  · split
    · exact get_set_ne s _ h
    · rfl
  · rfl

theorem get_setCheckedK_ne (s : EditorState) (k : Nat) (c : Option Bool)
    {q : Nat} (h : q ≠ k) : (setCheckedK s k c).get q = s.get q := by
  unfold setCheckedK
  split
  · split
    · exact get_set_ne s _ h
    · rfl
  · rfl

theorem get_updateChildStep_ne (nc : Bool) (a : EditorState × Int) (c : Nat)
    {q : Nat} (h : q ≠ c) : ((updateChildStep nc a c).1).get q = a.1.get q := by
  simp only [updateChildStep]
  split
  · simp only [markDirtyK]
    split
    · split
      · show ((setCheckedK (setValueK a.1 c a.2) c none).get q : Option Node) = _
        rw [get_setCheckedK_ne _ _ _ h, get_setValueK_ne _ _ _ h]
      · exact get_setValueK_ne _ _ _ h
    · split
      · exact get_setCheckedK_ne _ _ _ h
      · rfl
  · rfl

theorem get_updateFold_not_mem (nc : Bool) :
    ∀ (ks : List Nat) (a : EditorState × Int) {q : Nat}, q ∉ ks →
      ((ks.foldl (updateChildStep nc) a).1).get q = a.1.get q := by
  intro ks
  induction ks with
  | nil => intro a q _; rfl
  | cons c t ih =>
    intro a q hq
    rw [List.foldl_cons, ih _ (fun hm => hq (List.mem_cons_of_mem _ hm)),
      get_updateChildStep_ne nc a c (fun he => hq (by rw [he]; exact List.mem_cons_self c t))]

/-- An item that consumes an ordinal slot: its first child is not itself a
(nested) List (spec §4.3). -/
def plainItemB (s : EditorState) (k : Nat) : Bool :=
  !(match getFirstChildK s k with
    | some fc => isListK s fc
    | none => false)

/-- `n, n+1, …, n+k-1`: the consecutive ordinals the spec requires. -/
def seqInts (v : Int) : Nat → List Int
  | 0 => []
  | k + 1 => v :: seqInts (v + 1) k

theorem plainItemB_of_shapeEq {s s' : EditorState} (h : ShapeEq s s')
    (k : Nat) : plainItemB s' k = plainItemB s k := by
  unfold plainItemB
  rw [getFirstChildK_of_shapeEq h]
  cases getFirstChildK s k with
  | none => rfl
  | some fc => simp only [h.2.1 fc]

theorem setValueK_data (s : EditorState) (c : Nat) (v : Int) (n : Node)
    (v0 : Int) (ch0 : Option Bool) (hn : s.get c = some n)
    (hd : n.data = .itemData v0 ch0) :
    (setValueK s c v).get c = some { n with data := .itemData v ch0 } := by
  simp only [setValueK, hn, hd]
  exact get_set_some s c _ n hn

theorem setCheckedK_data (s : EditorState) (c : Nat) (ch : Option Bool)
    (n : Node) (v0 : Int) (ch0 : Option Bool) (hn : s.get c = some n)
    (hd : n.data = .itemData v0 ch0) :
    (setCheckedK s c ch).get c = some { n with data := .itemData v0 ch } := by
  simp only [setCheckedK, hn, hd]
  exact get_set_some s c _ n hn

@[simp] theorem get_markDirtyK (s : EditorState) (k q : Nat) :
    (markDirtyK s k).get q = s.get q := rfl

theorem dataK_congr_get {s s' : EditorState} {k : Nat}
    (h : s'.get k = s.get k) : dataK s' k = dataK s k := by
  unfold dataK; rw [h]

theorem getValueK_of_dataK {s : EditorState} {k : Nat} {v : Int}
    {ch : Option Bool} (h : dataK s k = some (.itemData v ch)) :
    getValueK s k = v := by
  unfold getValueK; rw [h]

theorem getCheckedK_of_dataK {s : EditorState} {k : Nat} {v : Int}
    {ch : Option Bool} (h : dataK s k = some (.itemData v ch)) :
    getCheckedK s k = ch := by
  unfold getCheckedK; rw [h]

/-- What one `updateChildStep` does to the item it processes: the ordinal
becomes the running counter, `checked` is cleared when the list is not a
checklist, and the counter advances exactly when the item's first child is
not a nested list. -/
theorem updateChildStep_head (nc : Bool) (s : EditorState) (v : Int) (c : Nat)
    (n : Node) (v0 : Int) (ch0 : Option Bool) (hn : s.get c = some n)
    (hd : n.data = .itemData v0 ch0) :
    dataK (updateChildStep nc (s, v) c).1 c =
      some (.itemData v (if nc = true then none else ch0)) ∧
    (updateChildStep nc (s, v) c).2 =
      (if plainItemB s c = true then v + 1 else v) := by
  have hitem : isItemK s c = true := by simp [isItemK, dataK, hn, hd]
  have hval : getValueK s c = v0 := by simp [getValueK, dataK, hn, hd]
  -- the state after the conditional ordinal write
  have hmid :
      ∃ n1, (if getValueK s c ≠ v then setValueK s c v else s).get c = some n1 ∧
        n1.data = .itemData v ch0 ∧
        ShapeEq s (if getValueK s c ≠ v then setValueK s c v else s) := by
    by_cases hv : getValueK s c ≠ v
    · rw [if_pos hv]
      exact ⟨_, setValueK_data s c v n v0 ch0 hn hd,
        rfl, shapeEq_setValueK s c v⟩
    · rw [if_neg hv]
      refine ⟨n, hn, ?_, ShapeEq.refl s⟩
      rw [hd]
      have : v0 = v := by rw [← hval]; exact not_ne_iff.mp hv
      rw [this]
  obtain ⟨n1, hn1, hd1, hse1⟩ := hmid
  have hch1 : getCheckedK (if getValueK s c ≠ v then setValueK s c v else s) c = ch0 := by
    unfold getCheckedK dataK; rw [hn1]; simp [hd1]
  -- the state after the conditional checked write
  have hmid2 :
      ∃ n2,
        (if (nc && (getCheckedK (if getValueK s c ≠ v then setValueK s c v else s) c).isSome) = true
          then setCheckedK (if getValueK s c ≠ v then setValueK s c v else s) c none
          else (if getValueK s c ≠ v then setValueK s c v else s)).get c = some n2 ∧
        n2.data = .itemData v (if nc = true then none else ch0) ∧
        ShapeEq s
          (if (nc && (getCheckedK (if getValueK s c ≠ v then setValueK s c v else s) c).isSome) = true
            then setCheckedK (if getValueK s c ≠ v then setValueK s c v else s) c none
            else (if getValueK s c ≠ v then setValueK s c v else s)) := by
    by_cases hb : (nc && (getCheckedK (if getValueK s c ≠ v then setValueK s c v else s) c).isSome) = true
    · rw [if_pos hb]
      refine ⟨_, setCheckedK_data _ c none n1 v ch0 hn1 hd1, ?_,
        ShapeEq.trans hse1 (shapeEq_setCheckedK _ c none)⟩
      have hnc : nc = true := by
        cases nc with
        | true => rfl
        | false => simp at hb
      rw [if_pos hnc]
    · rw [if_neg hb]
      refine ⟨n1, hn1, ?_, hse1⟩
      rw [hd1]
      by_cases hnc : nc = true
      · rw [if_pos hnc]
        rw [hnc, hch1] at hb
        simp only [Bool.true_and] at hb
        cases ch0 with
        | none => rfl
        | some b => simp at hb
      · rw [if_neg hnc]
  obtain ⟨n2, hn2, hd2, hse2⟩ := hmid2
  constructor
  · simp only [updateChildStep, hitem, if_true]
    rw [dataK_congr_get (get_markDirtyK _ c c)]
    unfold dataK
    rw [hn2]
    simp [hd2]
  · simp only [updateChildStep, hitem, if_true]
    show (if (!match getFirstChildK _ c with
              | some fc => isListK _ fc
              | none => false) = true then v + 1 else v) = _
    have : (!match getFirstChildK
          (if (nc && (getCheckedK (if getValueK s c ≠ v then setValueK s c v else s) c).isSome) = true
            then setCheckedK (if getValueK s c ≠ v then setValueK s c v else s) c none
            else (if getValueK s c ≠ v then setValueK s c v else s)) c with
        | some fc => isListK
            (if (nc && (getCheckedK (if getValueK s c ≠ v then setValueK s c v else s) c).isSome) = true
              then setCheckedK (if getValueK s c ≠ v then setValueK s c v else s) c none
              else (if getValueK s c ≠ v then setValueK s c v else s)) fc
        | none => false) = plainItemB s c := by
      show plainItemB _ c = plainItemB s c
      exact plainItemB_of_shapeEq hse2 c
    rw [this]

/-- The fold of `updateChildrenListItemValue` assigns the consecutive
ordinals `v, v+1, …` to the ordinal-consuming items in document order, and
(when the list is not a checklist) clears `checked` on every item. -/
theorem updateFold_spec (nc : Bool) :
    ∀ (ks : List Nat) (s : EditorState) (v : Int), ks.Nodup →
      (∀ k ∈ ks, isItemK s k = true) →
      ((ks.filter (plainItemB s)).map
          (fun k => getValueK (ks.foldl (updateChildStep nc) (s, v)).1 k)
        = seqInts v ((ks.filter (plainItemB s)).length)) ∧
      (nc = true → ∀ k ∈ ks,
        getCheckedK (ks.foldl (updateChildStep nc) (s, v)).1 k = none) := by
  intro ks
  induction ks with
  | nil =>
    intro s v _ _
    exact ⟨rfl, fun _ k hk => absurd hk (List.not_mem_nil k)⟩
  | cons c t ih =>
    intro s v hnd hit
    have hit_c := hit c (List.mem_cons_self c t)
    obtain ⟨n, hn⟩ : ∃ n, s.get c = some n := by
      unfold isItemK dataK at hit_c
      cases hg : s.get c with
      | none => rw [hg] at hit_c; simp at hit_c
      | some n => exact ⟨n, rfl⟩
    obtain ⟨v0, ch0, hd⟩ : ∃ v0 ch0, n.data = .itemData v0 ch0 := by
      have hdc : dataK s c = some n.data := by
        unfold dataK; rw [hn]; rfl
      unfold isItemK at hit_c
      rw [hdc] at hit_c
      cases hdd : n.data <;> rw [hdd] at hit_c <;> simp at hit_c
      exact ⟨_, _, rfl⟩
    have hcnot : c ∉ t := (List.nodup_cons.mp hnd).1
    have hndt : t.Nodup := (List.nodup_cons.mp hnd).2
    have hhead := updateChildStep_head nc s v c n v0 ch0 hn hd
    have hshape1 : ShapeEq s (updateChildStep nc (s, v) c).1 :=
      shapeEq_updateChildStep nc (s, v) c
    rcases hstep : updateChildStep nc (s, v) c with ⟨s1, v1⟩
    rw [hstep] at hhead hshape1
    have hitt : ∀ k ∈ t, isItemK s1 k = true :=
      fun k hk => (hshape1.2.2 k).trans (hit k (List.mem_cons_of_mem c hk))
    have ihs := ih s1 v1 hndt hitt
    have hfold : (c :: t).foldl (updateChildStep nc) (s, v)
        = t.foldl (updateChildStep nc) (s1, v1) := by
      rw [List.foldl_cons, hstep]
    have hheadData : dataK ((c :: t).foldl (updateChildStep nc) (s, v)).1 c
        = some (.itemData v (if nc = true then none else ch0)) := by
      rw [hfold,
        dataK_congr_get (get_updateFold_not_mem nc t (s1, v1) hcnot)]
      exact hhead.1
    have hfiltEq : t.filter (plainItemB s1) = t.filter (plainItemB s) := by
      apply List.filter_congr
      intro k _
      rw [plainItemB_of_shapeEq hshape1 k]
    constructor
    · rw [List.filter_cons]
      by_cases hp : plainItemB s c = true
      · simp only [hp, if_true]
        rw [List.map_cons, List.length_cons]
        have hv2 : v1 = v + 1 := by
          have := hhead.2; rw [if_pos hp] at this; exact this
        have htail := ihs.1
        rw [hfiltEq, hv2] at htail
        rw [show seqInts v ((t.filter (plainItemB s)).length + 1)
            = v :: seqInts (v + 1) ((t.filter (plainItemB s)).length) from rfl]
        refine List.cons_eq_cons.mpr ⟨?_, ?_⟩
        · exact getValueK_of_dataK hheadData
        · rw [hfold, hv2]; exact htail
      · have hp' : plainItemB s c = false := by
          revert hp; cases plainItemB s c <;> simp
        simp only [hp', Bool.false_eq_true, if_false]
        have hv2 : v1 = v := by
          have := hhead.2; rw [if_neg hp] at this; exact this
        have htail := ihs.1
        rw [hfiltEq, hv2] at htail
        rw [hfold, hv2]
        exact htail
    · intro hnc k hk
      rcases List.mem_cons.mp hk with hkc | hkt
      · subst hkc
        have := getCheckedK_of_dataK hheadData
        rw [this, if_pos hnc]
      · rw [hfold]
        exact ihs.2 hnc k hkt

/-- C4: for every ordered List with `start = n` whose direct children are
(distinct) Items, after `updateChildrenListItemValue(list)` the Items whose
first child is not a nested List carry, in document order, exactly the
ordinals `n, n+1, …, n+k-1` (`k` their count); Items whose first child is a
nested List are skipped by the running counter, so they consume no ordinal
slot. -/
theorem c4_ordinal_correctness (s : EditorState) (l : Nat) (n : Int)
    (hl : dataK s l = some (.listData .number n))
    (hnd : (childrenK s l).Nodup)
    (hit : ∀ k ∈ childrenK s l, isItemK s k = true) :
    ((childrenK s l).filter (plainItemB s)).map
        (getValueK (updateChildrenListItemValue s l))
      = seqInts n (((childrenK s l).filter (plainItemB s)).length) := by
  have hlt : getListTypeK s l = some ListType.number := by
    unfold getListTypeK; rw [hl]
  have hst : getStartK s l = n := by unfold getStartK; rw [hl]
  have hnc : decide (getListTypeK s l ≠ some ListType.check) = true := by
    rw [hlt]; decide
  unfold updateChildrenListItemValue
  rw [hst, hnc]
  exact (updateFold_spec true (childrenK s l) s n hnd hit).1

/-- Witness state for C4/C9: an ordered list (key 1, `start = 5`) with three
item children, the middle of which holds only a nested list. -/
def wState4 : EditorState :=
  { nodes := [
      (0, { data := .rootData, children := [1] }),
      (1, { data := .listData .number 5, parent := some 0, children := [2, 3, 4] }),
      (2, { data := .itemData 1 (some true), parent := some 1, children := [5] }),
      (3, { data := .itemData 9 none, parent := some 1, children := [8] }),
      (4, { data := .itemData 7 (some false), parent := some 1, children := [6] }),
      (5, { data := .textData "x", parent := some 2 }),
      (6, { data := .textData "y", parent := some 4 }),
      (8, { data := .listData .number 1, parent := some 3, children := [9] }),
      (9, { data := .itemData 1 none, parent := some 8, children := [] })],
    nextKey := 10 }

/-- Witness for C4 at a concrete ordered list: the two
ordinal-consuming items receive the values 5 and 6. -/
theorem c4_ordinal_correctness_witness :
    ((childrenK wState4 1).filter (plainItemB wState4)).map
        (getValueK (updateChildrenListItemValue wState4 1))
      = seqInts 5 (((childrenK wState4 1).filter (plainItemB wState4)).length) :=
  c4_ordinal_correctness wState4 1 5 (by decide) (by decide) (by decide)

/-- C9: for every List whose kind is not checklist, after
`updateChildrenListItemValue(list)` every direct Item child has
`checked = undefined` (any non-undefined value is cleared). -/
theorem c9_checked_cleared (s : EditorState) (l : Nat) (t : ListType) (n : Int)
    (hl : dataK s l = some (.listData t n)) (ht : t ≠ ListType.check)
    (hnd : (childrenK s l).Nodup)
    (hit : ∀ k ∈ childrenK s l, isItemK s k = true) :
    ∀ k ∈ childrenK s l, getCheckedK (updateChildrenListItemValue s l) k = none := by
  have hlt : getListTypeK s l = some t := by
    unfold getListTypeK; rw [hl]
  have hnc : decide (getListTypeK s l ≠ some ListType.check) = true := by
    rw [hlt]
    simp [ht]
  unfold updateChildrenListItemValue
  rw [hnc]
  exact (updateFold_spec true (childrenK s l) s (getStartK s l) hnd hit).2 rfl

/-- Witness for C9 at a concrete ordered (non-checklist) list whose items
carry stale `checked` values: all are cleared to undefined. -/
theorem c9_checked_cleared_witness :
    getCheckedK (updateChildrenListItemValue wState4 1) 2 = none :=
  c9_checked_cleared wState4 1 .number 5 (by decide) (by decide) (by decide)
    (by decide) 2 (by decide)

/-- C5: `$handleOutdent(item)` leaves the tree and the selection completely
unchanged whenever the item directly contains a nested List, or the
ancestor chain parent List → grandparent Item → great-grandparent List does
not exist (any of the three type checks fails). -/
theorem c5_outdent_noop (s : EditorState) (item : Nat)
    (h : isNestedListNodeK s item = true ∨
      ¬ ∃ pl gp ggl, parentK s item = some pl ∧ parentK s pl = some gp ∧
        parentK s gp = some ggl ∧ isListK s ggl = true ∧ isItemK s gp = true ∧
        isListK s pl = true) :
    handleOutdent s item = s := by
  by_cases hn : isNestedListNodeK s item = true
  · unfold handleOutdent; rw [if_pos hn]
  · have hchain := h.resolve_left hn
    unfold handleOutdent
    rw [if_neg hn]
    rcases hpl : parentK s item with _ | pl
    · simp [hpl]
    rcases hgp : parentK s pl with _ | gp
    · simp [hpl, hgp]
    rcases hggl : parentK s gp with _ | ggl
    · simp [hpl, hgp, hggl]
    · simp only [hpl, hgp, hggl, Option.bind]
      rw [if_neg ?hc]
      case hc =>
        intro hc
        simp only [Bool.and_eq_true] at hc
        exact hchain ⟨pl, gp, ggl, hpl, hgp, hggl, hc.1.1, hc.1.2, hc.2⟩

/-- Witness for C5: outdenting an item that itself carries a nested list is
a silent no-op. -/
theorem c5_outdent_noop_witness : handleOutdent wState4 3 = wState4 :=
  c5_outdent_noop wState4 3 (Or.inl (by decide))

/-- C10: `$handleIndent` never depends on its per-call `removed` visited
set: it is extensionally equal to the same function with the visited-set
logic deleted, the entry guard `removed.has(key)` is always false (the set
is examined while still empty), and the early-return guard collapses to the
`isNestedListNode` check alone. -/
theorem c10_visited_set_irrelevant (s : EditorState) (k : Nat) :
    handleIndent s k = handleIndentNoVisited s k ∧
    (([] : List Nat).contains k) = false ∧
    (isNestedListNodeK s k || ([] : List Nat).contains k) = isNestedListNodeK s k := by
  refine ⟨?_, rfl, Bool.or_false _⟩
  unfold handleIndent handleIndentNoVisited
  simp only [List.contains, List.elem_nil, Bool.or_false]

/-- The Scenario-1 state: an unordered list `[A, B, C]` of three sibling
items, each carrying one text child. -/
def c2State : EditorState :=
  { nodes := [
      (0, { data := .rootData, children := [1] }),
      (1, { data := .listData .bullet 1, parent := some 0, children := [2, 3, 4] }),
      (2, { data := .itemData 1 none, parent := some 1, children := [5] }),
      (3, { data := .itemData 2 none, parent := some 1, children := [6] }),
      (4, { data := .itemData 3 none, parent := some 1, children := [7] }),
      (5, { data := .textData "A", parent := some 2 }),
      (6, { data := .textData "B", parent := some 3 }),
      (7, { data := .textData "C", parent := some 4 })],
    nextKey := 8 }

/-- C2: on the unordered list `[A, B, C]`, `$handleIndent(B)` produces
`[A (containing a nested list holding only B), C]`, and `$handleOutdent(B)`
on that result restores `[A, B, C]` with B a top-level sibling again — the
reachable tree is exactly the original one, so no node is duplicated or
lost. -/
theorem c2_indent_outdent_roundtrip :
    flatView (handleIndent c2State 3) 10 0 0 = [
      (0, .rootData),
      (1, .listData .bullet 1),
      (2, .itemData 1 none),
      (3, .textData "A"),
      (3, .listData .bullet 1),
      (4, .itemData 2 none),
      (5, .textData "B"),
      (2, .itemData 3 none),
      (3, .textData "C")] ∧
    flatView (handleOutdent (handleIndent c2State 3) 3) 10 0 0
      = flatView c2State 10 0 0 := by
  constructor <;> decide

/-! ## Pointwise specifications of the mutation primitives -/

theorem detach_get (s : EditorState) (k q0 : Nat) (nk nq0 : Node)
    (hk : s.get k = some nk) (hpar : nk.parent = some q0)
    (hq : s.get q0 = some nq0) (hkq : k ≠ q0) :
    ((detach s k).get k = some { nk with parent := none }) ∧
    ((detach s k).get q0
      = some { nq0 with children := nq0.children.filter (fun c => c ≠ k) }) ∧
    (∀ x, x ≠ k → x ≠ q0 → (detach s k).get x = s.get x) := by
  have h1 : (s.set q0 { nq0 with children := nq0.children.filter (fun c => c ≠ k) }).get k
      = some nk := by rw [get_set_ne _ _ hkq, hk]
  refine ⟨?_, ?_, ?_⟩
  · simp only [detach, hk, hpar, hq, h1]
    exact get_set_some _ k _ nk h1
  · simp only [detach, hk, hpar, hq, h1]
    rw [get_set_ne _ _ (Ne.symm hkq)]
    · exact get_set_some _ q0 _ nq0 hq
  · intro x hxk hxq
    simp only [detach, hk, hpar, hq, h1]
    rw [get_set_ne _ _ hxk, get_set_ne _ _ hxq]

theorem detach_get_noparent (s : EditorState) (k : Nat) (nk : Node)
    (hk : s.get k = some nk) (hpar : nk.parent = none) :
    detach s k = s := by
  simp only [detach, hk, hpar]

/-- `parent.append(child)` when the child currently sits under `q0`. -/
theorem appendChildK_get (s : EditorState) (p k q0 : Nat) (np nk nq0 : Node)
    (hp : s.get p = some np) (hk : s.get k = some nk)
    (hq : s.get q0 = some nq0) (hpar : nk.parent = some q0)
    (hkp : k ≠ p) (hkq : k ≠ q0) (hpq : p ≠ q0) :
    ((appendChildK s p k).get p
      = some { np with children := np.children ++ [k] }) ∧
    ((appendChildK s p k).get k = some { nk with parent := some p }) ∧
    ((appendChildK s p k).get q0
      = some { nq0 with children := nq0.children.filter (fun c => c ≠ k) }) ∧
    (∀ x, x ≠ p → x ≠ k → x ≠ q0 → (appendChildK s p k).get x = s.get x) := by
  obtain ⟨d1, d2, d3⟩ := detach_get s k q0 nk nq0 hk hpar hq hkq
  have hp1 : (detach s k).get p = some np := by
    rw [d3 p (Ne.symm hkp) hpq]; exact hp
  have hk1 : (detach s k).get k = some { nk with parent := none } := d1
  have e1 : ((detach s k).set p { np with children := np.children ++ [k] }).get k
      = some { nk with parent := none } := by
    rw [get_set_ne _ _ hkp]; exact hk1
  refine ⟨?_, ?_, ?_, ?_⟩
  · simp only [appendChildK, hp1, hk1]
    rw [get_set_ne _ _ (Ne.symm hkp)]
    exact get_set_some _ p _ np hp1
  · simp only [appendChildK, hp1, hk1]
    exact get_set_some _ k _ _ e1
  · simp only [appendChildK, hp1, hk1]
    rw [get_set_ne _ _ (Ne.symm hkq),
      get_set_ne _ _ (Ne.symm hpq)]
    exact d2
  · intro x hxp hxk hxq
    simp only [appendChildK, hp1, hk1]
    rw [get_set_ne _ _ hxk, get_set_ne _ _ hxp]
    exact d3 x hxk hxq

/-- `parent.append(child)` when the child is currently detached. -/
theorem appendChildK_get_detached (s : EditorState) (p k : Nat) (np nk : Node)
    (hp : s.get p = some np) (hk : s.get k = some nk)
    (hpar : nk.parent = none) (hkp : k ≠ p) :
    ((appendChildK s p k).get p
      = some { np with children := np.children ++ [k] }) ∧
    ((appendChildK s p k).get k = some { nk with parent := some p }) ∧
    (∀ x, x ≠ p → x ≠ k → (appendChildK s p k).get x = s.get x) := by
  have hd : detach s k = s := detach_get_noparent s k nk hk hpar
  have e1 : (s.set p { np with children := np.children ++ [k] }).get k
      = some nk := by rw [get_set_ne _ _ hkp]; exact hk
  refine ⟨?_, ?_, ?_⟩
  · simp only [appendChildK, hd, hp, hk]
    rw [get_set_ne _ _ (Ne.symm hkp)]
    exact get_set_some _ p _ np hp
  · simp only [appendChildK, hd, hp, hk]
    exact get_set_some _ k _ nk e1
  · intro x hxp hxk
    simp only [appendChildK, hd, hp, hk]
    rw [get_set_ne _ _ hxk, get_set_ne _ _ hxp]

theorem insertBeforeList_adj (A B : List Nat) (r k : Nat) (hA : r ∉ A) :
    insertBeforeList (A ++ r :: B) r k = A ++ k :: r :: B := by
  induction A with
  | nil => simp [insertBeforeList]
  | cons a t ih =>
    have har : a ≠ r := fun h => hA (h ▸ List.mem_cons_self a t)
    simp only [List.cons_append, insertBeforeList, if_neg har, List.append_eq]
    rw [ih (fun h => hA (List.mem_cons_of_mem a h))]

theorem insertAfterList_adj (A B : List Nat) (r k : Nat) (hA : r ∉ A) :
    insertAfterList (A ++ r :: B) r k = A ++ r :: k :: B := by
  induction A with
  | nil => simp [insertAfterList]
  | cons a t ih =>
    have har : a ≠ r := fun h => hA (h ▸ List.mem_cons_self a t)
    simp only [List.cons_append, insertAfterList, if_neg har, List.append_eq]
    rw [ih (fun h => hA (List.mem_cons_of_mem a h))]

theorem nextAfter_adj (A B : List Nat) (i n : Nat) (hA : i ∉ A) :
    nextAfter (A ++ i :: n :: B) i = some n := by
  induction A with
  | nil => simp [nextAfter]
  | cons a t ih =>
    have hai : a ≠ i := fun h => hA (h ▸ List.mem_cons_self a t)
    simp only [List.cons_append, nextAfter, if_neg hai]
    exact ih (fun h => hA (List.mem_cons_of_mem a h))

theorem prevBefore_cons_of_mem (t : List Nat) (a i : Nat) (hai : a ≠ i)
    (hmem : i ∈ t) : prevBefore (a :: t) i =
      match prevBefore t i with
      | some r => some r
      | none => some a := by
  simp only [prevBefore, if_neg hai]
  cases prevBefore t i with
  | some r => rfl
  | none =>
    simp only [List.contains]
    rw [if_pos (List.elem_iff.mpr hmem)]

theorem prevBefore_adj (A B : List Nat) (p i : Nat) (hA : i ∉ A)
    (hpi : p ≠ i) : prevBefore (A ++ p :: i :: B) i = some p := by
  induction A with
  | nil =>
    simp only [List.nil_append]
    rw [prevBefore_cons_of_mem (i :: B) p i hpi (List.mem_cons_self i B)]
    simp [prevBefore]
  | cons a t ih =>
    have hai : a ≠ i := fun h => hA (h ▸ List.mem_cons_self a t)
    have hmem : i ∈ t ++ p :: i :: B := by
      apply List.mem_append_right
      exact List.mem_cons_of_mem p (List.mem_cons_self i B)
    rw [List.cons_append, prevBefore_cons_of_mem _ a i hai hmem,
      ih (fun h => hA (List.mem_cons_of_mem a h))]

theorem filter_ne_of_not_mem (l : List Nat) (i : Nat) (h : i ∉ l) :
    l.filter (fun c => c ≠ i) = l := by
  apply List.filter_eq_self.mpr
  intro a ha
  have hai : a ≠ i := fun hai => h (hai ▸ ha)
  simp [hai]

/-- `ref.insertBefore(k)` for a currently detached `k`. -/
theorem insertBeforeK_get_detached (s : EditorState) (ref k pr : Nat)
    (nref npr nk : Node) (href : s.get ref = some nref)
    (hrefp : nref.parent = some pr) (hpr : s.get pr = some npr)
    (hk : s.get k = some nk) (hkpar : nk.parent = none) (hkpr : k ≠ pr) :
    ((insertBeforeK s ref k).get pr
      = some { npr with children := insertBeforeList npr.children ref k }) ∧
    ((insertBeforeK s ref k).get k = some { nk with parent := some pr }) ∧
    (∀ x, x ≠ pr → x ≠ k → (insertBeforeK s ref k).get x = s.get x) := by
  have hparref : parentK s ref = some pr := by
    unfold parentK; rw [href]; exact hrefp
  have hd : detach s k = s := detach_get_noparent s k nk hk hkpar
  have e1 : (s.set pr { npr with children := insertBeforeList npr.children ref k }).get k
      = some nk := by rw [get_set_ne _ _ hkpr]; exact hk
  refine ⟨?_, ?_, ?_⟩
  · simp only [insertBeforeK, hparref, hd, hpr, hk]
    rw [get_set_ne _ _ (Ne.symm hkpr)]
    exact get_set_some _ pr _ npr hpr
  · simp only [insertBeforeK, hparref, hd, hpr, hk]
    exact get_set_some _ k _ nk e1
  · intro x hxpr hxk
    simp only [insertBeforeK, hparref, hd, hpr, hk]
    rw [get_set_ne _ _ hxk, get_set_ne _ _ hxpr]

/-- `ref.insertAfter(k)` for a currently detached `k`. -/
theorem insertAfterK_get_detached (s : EditorState) (ref k pr : Nat)
    (nref npr nk : Node) (href : s.get ref = some nref)
    (hrefp : nref.parent = some pr) (hpr : s.get pr = some npr)
    (hk : s.get k = some nk) (hkpar : nk.parent = none) (hkpr : k ≠ pr) :
    ((insertAfterK s ref k).get pr
      = some { npr with children := insertAfterList npr.children ref k }) ∧
    ((insertAfterK s ref k).get k = some { nk with parent := some pr }) ∧
    (∀ x, x ≠ pr → x ≠ k → (insertAfterK s ref k).get x = s.get x) := by
  have hparref : parentK s ref = some pr := by
    unfold parentK; rw [href]; exact hrefp
  have hd : detach s k = s := detach_get_noparent s k nk hk hkpar
  have e1 : (s.set pr { npr with children := insertAfterList npr.children ref k }).get k
      = some nk := by rw [get_set_ne _ _ hkpr]; exact hk
  refine ⟨?_, ?_, ?_⟩
  · simp only [insertAfterK, hparref, hd, hpr, hk]
    rw [get_set_ne _ _ (Ne.symm hkpr)]
    exact get_set_some _ pr _ npr hpr
  · simp only [insertAfterK, hparref, hd, hpr, hk]
    exact get_set_some _ k _ nk e1
  · intro x hxpr hxk
    simp only [insertAfterK, hparref, hd, hpr, hk]
    rw [get_set_ne _ _ hxk, get_set_ne _ _ hxpr]

/-- `ref.insertAfter(k)` / `ref.insertBefore(k)` for `k` currently attached
under `q0` (with `q0` distinct from `ref`'s parent). -/
theorem insertAfterK_get (s : EditorState) (ref k pr q0 : Nat)
    (nref npr nk nq0 : Node) (href : s.get ref = some nref)
    (hrefp : nref.parent = some pr) (hpr : s.get pr = some npr)
    (hk : s.get k = some nk) (hkpar : nk.parent = some q0)
    (hq : s.get q0 = some nq0) (hkpr : k ≠ pr) (hkq : k ≠ q0)
    (hprq : pr ≠ q0) :
    ((insertAfterK s ref k).get pr
      = some { npr with children := insertAfterList npr.children ref k }) ∧
    ((insertAfterK s ref k).get k = some { nk with parent := some pr }) ∧
    ((insertAfterK s ref k).get q0
      = some { nq0 with children := nq0.children.filter (fun c => c ≠ k) }) ∧
    (∀ x, x ≠ pr → x ≠ k → x ≠ q0 → (insertAfterK s ref k).get x = s.get x) := by
  have hparref : parentK s ref = some pr := by
    unfold parentK; rw [href]; exact hrefp
  obtain ⟨d1, d2, d3⟩ := detach_get s k q0 nk nq0 hk hkpar hq hkq
  have hpr1 : (detach s k).get pr = some npr := by
    rw [d3 pr (Ne.symm hkpr) hprq]; exact hpr
  have e1 : ((detach s k).set pr
      { npr with children := insertAfterList npr.children ref k }).get k
      = some { nk with parent := none } := by
    rw [get_set_ne _ _ hkpr]; exact d1
  refine ⟨?_, ?_, ?_, ?_⟩
  · simp only [insertAfterK, hparref, hpr1, d1]
    rw [get_set_ne _ _ (Ne.symm hkpr)]
    exact get_set_some _ pr _ npr hpr1
  · simp only [insertAfterK, hparref, hpr1, d1]
    exact get_set_some _ k _ _ e1
  · simp only [insertAfterK, hparref, hpr1, d1]
    rw [get_set_ne _ _ (Ne.symm hkq), get_set_ne _ _ (Ne.symm hprq)]
    exact d2
  · intro x hxpr hxk hxq
    simp only [insertAfterK, hparref, hpr1, d1]
    rw [get_set_ne _ _ hxk, get_set_ne _ _ hxpr]
    exact d3 x hxk hxq

theorem insertBeforeK_get (s : EditorState) (ref k pr q0 : Nat)
    (nref npr nk nq0 : Node) (href : s.get ref = some nref)
    (hrefp : nref.parent = some pr) (hpr : s.get pr = some npr)
    (hk : s.get k = some nk) (hkpar : nk.parent = some q0)
    (hq : s.get q0 = some nq0) (hkpr : k ≠ pr) (hkq : k ≠ q0)
    (hprq : pr ≠ q0) :
    ((insertBeforeK s ref k).get pr
      = some { npr with children := insertBeforeList npr.children ref k }) ∧
    ((insertBeforeK s ref k).get k = some { nk with parent := some pr }) ∧
    ((insertBeforeK s ref k).get q0
      = some { nq0 with children := nq0.children.filter (fun c => c ≠ k) }) ∧
    (∀ x, x ≠ pr → x ≠ k → x ≠ q0 → (insertBeforeK s ref k).get x = s.get x) := by
  have hparref : parentK s ref = some pr := by
    unfold parentK; rw [href]; exact hrefp
  obtain ⟨d1, d2, d3⟩ := detach_get s k q0 nk nq0 hk hkpar hq hkq
  have hpr1 : (detach s k).get pr = some npr := by
    rw [d3 pr (Ne.symm hkpr) hprq]; exact hpr
  have e1 : ((detach s k).set pr
      { npr with children := insertBeforeList npr.children ref k }).get k
      = some { nk with parent := none } := by
    rw [get_set_ne _ _ hkpr]; exact d1
  refine ⟨?_, ?_, ?_, ?_⟩
  · simp only [insertBeforeK, hparref, hpr1, d1]
    rw [get_set_ne _ _ (Ne.symm hkpr)]
    exact get_set_some _ pr _ npr hpr1
  · simp only [insertBeforeK, hparref, hpr1, d1]
    exact get_set_some _ k _ _ e1
  · simp only [insertBeforeK, hparref, hpr1, d1]
    rw [get_set_ne _ _ (Ne.symm hkq), get_set_ne _ _ (Ne.symm hprq)]
    exact d2
  · intro x hxpr hxk hxq
    simp only [insertBeforeK, hparref, hpr1, d1]
    rw [get_set_ne _ _ hxk, get_set_ne _ _ hxpr]
    exact d3 x hxk hxq

/-- The `append` helper moving the entire child list of `src` onto the end
of `dst`'s children (the shape in which `formatList.ts` always uses it):
children arrive in order, `src` is left empty, every moved child is
re-parented to `dst`, and no other node changes. -/
theorem appendManyK_move (dst src : Nat) (hds : dst ≠ src) :
    ∀ (ys : List Nat) (s : EditorState) (nd ns : Node),
      s.get dst = some nd → s.get src = some ns → ns.children = ys →
      ys.Nodup → dst ∉ ys → src ∉ ys →
      (∀ y ∈ ys, ∃ ny : Node, s.get y = some ny ∧ ny.parent = some src) →
      ((appendManyK s dst ys).get dst
        = some { nd with children := nd.children ++ ys }) ∧
      ((appendManyK s dst ys).get src = some { ns with children := [] }) ∧
      (∀ y ∈ ys, ∃ ny : Node, s.get y = some ny ∧
        (appendManyK s dst ys).get y = some { ny with parent := some dst }) ∧
      (∀ x, x ≠ dst → x ≠ src → x ∉ ys →
        (appendManyK s dst ys).get x = s.get x) := by
  intro ys
  induction ys with
  | nil =>
    intro s nd ns hd hs hc _ _ _ _
    refine ⟨?_, ?_, ?_, ?_⟩
    · rw [show appendManyK s dst [] = s from rfl, hd]
      simp
    · rw [show appendManyK s dst [] = s from rfl, hs, ← hc]
    · intro y hy; exact absurd hy (List.not_mem_nil y)
    · intro x _ _ _; rfl
  | cons y t ih =>
    intro s nd ns hd hs hc hnd hdm hsm hys
    have hyne : y ∉ t := (List.nodup_cons.mp hnd).1
    have hndt : t.Nodup := (List.nodup_cons.mp hnd).2
    have hdt : dst ∉ t := fun h => hdm (List.mem_cons_of_mem y h)
    have hst : src ∉ t := fun h => hsm (List.mem_cons_of_mem y h)
    have hdy : y ≠ dst := fun h => hdm (h ▸ List.mem_cons_self y t)
    have hsy : y ≠ src := fun h => hsm (h ▸ List.mem_cons_self y t)
    obtain ⟨ny, hny, hnyp⟩ := hys y (List.mem_cons_self y t)
    obtain ⟨a1, a2, a3, a4⟩ :=
      appendChildK_get s dst y src nd ny ns hd hny hs hnyp hdy hsy hds
    have hsrc1 : (appendChildK s dst y).get src
        = some { ns with children := t } := by
      rw [a3]
      have : ns.children.filter (fun c => c ≠ y) = t := by
        rw [hc]
        simp only [List.filter_cons]
        rw [if_neg (by simp), filter_ne_of_not_mem t y hyne]
      rw [this]
    have hstep : appendManyK s dst (y :: t)
        = appendManyK (appendChildK s dst y) dst t := rfl
    have ihr := ih (appendChildK s dst y)
      { nd with children := nd.children ++ [y] } { ns with children := t }
      a1 hsrc1 rfl hndt hdt hst
      (fun y2 hy2 => by
        obtain ⟨ny2, hny2, hny2p⟩ := hys y2 (List.mem_cons_of_mem y hy2)
        have hy2y : y2 ≠ y := fun h => hyne (h ▸ hy2)
        have hy2d : y2 ≠ dst := fun h => hdt (h ▸ hy2)
        have hy2s : y2 ≠ src := fun h => hst (h ▸ hy2)
        exact ⟨ny2, by rw [a4 y2 hy2d hy2y hy2s]; exact hny2, hny2p⟩)
    refine ⟨?_, ?_, ?_, ?_⟩
    · rw [hstep, ihr.1]
      simp
    · rw [hstep, ihr.2.1]
    · intro y2 hy2
      rcases List.mem_cons.mp hy2 with hyy | hyt
      · subst hyy
        refine ⟨ny, hny, ?_⟩
        rw [hstep, ihr.2.2.2 y2 hdy hsy hyne]
        exact a2
      · obtain ⟨ny2, hny2, hfin⟩ := ihr.2.2.1 y2 hyt
        have hy2y : y2 ≠ y := fun h => hyne (h ▸ hyt)
        have hy2d : y2 ≠ dst := fun h => hdt (h ▸ hyt)
        have hy2s : y2 ≠ src := fun h => hst (h ▸ hyt)
        refine ⟨ny2, ?_, by rw [hstep]; exact hfin⟩
        rw [← a4 y2 hy2d hy2y hy2s]
        exact hny2
    · intro x hxd hxs hxm
      have hxy : x ≠ y := fun h => hxm (h ▸ List.mem_cons_self y t)
      have hxt : x ∉ t := fun h => hxm (List.mem_cons_of_mem y h)
      rw [hstep, ihr.2.2.2 x hxd hxs hxt, a4 x hxd hxy hxs]

/-! ## Structural preservation: the mutation primitives never touch the
selection, the fresh-key counter or the dirty list. -/

theorem detach_selection (s : EditorState) (k : Nat) :
    (detach s k).selection = s.selection := by
  simp only [detach]
  split
  · rfl
  · split
    · rfl
    · split <;> split <;> simp

theorem detach_nextKey (s : EditorState) (k : Nat) :
    (detach s k).nextKey = s.nextKey := by
  simp only [detach]
  split
  · rfl
  · split
    · rfl
    · split <;> split <;> simp

theorem appendChildK_selection (s : EditorState) (p k : Nat) :
    (appendChildK s p k).selection = s.selection := by
  simp only [appendChildK]
  split <;> simp [detach_selection]

theorem appendChildK_nextKey (s : EditorState) (p k : Nat) :
    (appendChildK s p k).nextKey = s.nextKey := by
  simp only [appendChildK]
  split <;> simp [detach_nextKey]

theorem appendManyK_selection (s : EditorState) (p : Nat) (ks : List Nat) :
    (appendManyK s p ks).selection = s.selection := by
  induction ks generalizing s with
  | nil => rfl
  | cons a t ih =>
    show (appendManyK (appendChildK s p a) p t).selection = _
    rw [ih, appendChildK_selection]

theorem appendManyK_nextKey (s : EditorState) (p : Nat) (ks : List Nat) :
    (appendManyK s p ks).nextKey = s.nextKey := by
  induction ks generalizing s with
  | nil => rfl
  | cons a t ih =>
    show (appendManyK (appendChildK s p a) p t).nextKey = _
    rw [ih, appendChildK_nextKey]

theorem insertBeforeK_selection (s : EditorState) (ref k : Nat) :
    (insertBeforeK s ref k).selection = s.selection := by
  simp only [insertBeforeK]
  split
  · rfl
  · split <;> simp [detach_selection]

theorem insertBeforeK_nextKey (s : EditorState) (ref k : Nat) :
    (insertBeforeK s ref k).nextKey = s.nextKey := by
  simp only [insertBeforeK]
  split
  · rfl
  · split <;> simp [detach_nextKey]

theorem insertAfterK_selection (s : EditorState) (ref k : Nat) :
    (insertAfterK s ref k).selection = s.selection := by
  simp only [insertAfterK]
  split
  · rfl
  · split <;> simp [detach_selection]

theorem insertAfterK_nextKey (s : EditorState) (ref k : Nat) :
    (insertAfterK s ref k).nextKey = s.nextKey := by
  simp only [insertAfterK]
  split
  · rfl
  · split <;> simp [detach_nextKey]

theorem replaceK_selection (s : EditorState) (o n : Nat) :
    (replaceK s o n).selection = s.selection := by
  simp only [replaceK]
  split
  · rfl
  · split <;> simp [detach_selection]

theorem replaceK_nextKey (s : EditorState) (o n : Nat) :
    (replaceK s o n).nextKey = s.nextKey := by
  simp only [replaceK]
  split
  · rfl
  · split <;> simp [detach_nextKey]

theorem removeK_selection (s : EditorState) (k : Nat) :
    (removeK s k).selection = s.selection := detach_selection s k

theorem removeK_nextKey (s : EditorState) (k : Nat) :
    (removeK s k).nextKey = s.nextKey := detach_nextKey s k

/-! ## Elimination helpers for decidable shape hypotheses -/

theorem get_of_isItemK {s : EditorState} {k : Nat} (h : isItemK s k = true) :
    ∃ n, s.get k = some n := by
  unfold isItemK dataK at h
  cases hg : s.get k with
  | none => rw [hg] at h; simp at h
  | some n => exact ⟨n, rfl⟩

theorem get_of_isListK {s : EditorState} {k : Nat} (h : isListK s k = true) :
    ∃ n, s.get k = some n := by
  unfold isListK dataK at h
  cases hg : s.get k with
  | none => rw [hg] at h; simp at h
  | some n => exact ⟨n, rfl⟩

theorem parentK_elim {s : EditorState} {k p : Nat}
    (h : parentK s k = some p) : ∃ n, s.get k = some n ∧ n.parent = some p := by
  unfold parentK at h
  cases hg : s.get k with
  | none => rw [hg] at h; simp at h
  | some n =>
    rw [hg] at h
    exact ⟨n, rfl, h⟩

theorem childrenK_of_get {s : EditorState} {k : Nat} {n : Node}
    (h : s.get k = some n) : childrenK s k = n.children := by
  unfold childrenK; rw [h]; rfl

theorem parentK_of_get {s : EditorState} {k : Nat} {n : Node}
    (h : s.get k = some n) : parentK s k = n.parent := by
  unfold parentK; rw [h]; rfl

theorem isListK_of_get {s : EditorState} {k : Nat} {n : Node}
    (h : s.get k = some n) : isListK s k =
      (match n.data with
       | .listData _ _ => true
       | _ => false) := by
  have hd : dataK s k = some n.data := by unfold dataK; rw [h]; rfl
  unfold isListK
  rw [hd]
  cases n.data <;> rfl

@[simp] theorem isNestedListNodeOptK_some (s : EditorState) (k : Nat) :
    isNestedListNodeOptK s (some k) = isNestedListNodeK s k := rfl

theorem filter_ne_shape (A B : List Nat) (p i n : Nat)
    (hiA : i ∉ A) (hiB : i ∉ B) (hip : p ≠ i) (hin : n ≠ i) :
    (A ++ p :: i :: n :: B).filter (fun c => c ≠ i) = A ++ p :: n :: B := by
  rw [List.filter_append, filter_ne_of_not_mem A i hiA]
  simp only [List.filter_cons]
  rw [if_pos (by simp [hip]), if_neg (by simp), if_pos (by simp [hin]),
    filter_ne_of_not_mem B i hiB]

theorem filter_ne_shape2 (A B : List Nat) (p n : Nat)
    (hnA : n ∉ A) (hnB : n ∉ B) (hpn : p ≠ n) :
    (A ++ p :: n :: B).filter (fun c => c ≠ n) = A ++ p :: B := by
  rw [List.filter_append, filter_ne_of_not_mem A n hnA]
  simp only [List.filter_cons]
  rw [if_pos (by simp [hpn]), if_neg (by simp),
    filter_ne_of_not_mem B n hnB]

theorem isListK_congr_get {s s' : EditorState} {k : Nat}
    (h : s'.get k = s.get k) : isListK s' k = isListK s k := by
  unfold isListK; rw [dataK_congr_get h]

theorem isItemK_congr_get {s s' : EditorState} {k : Nat}
    (h : s'.get k = s.get k) : isItemK s' k = isItemK s k := by
  unfold isItemK; rw [dataK_congr_get h]

theorem childrenK_congr_get {s s' : EditorState} {k : Nat}
    (h : s'.get k = s.get k) : childrenK s' k = childrenK s k := by
  unfold childrenK; rw [h]

theorem parentK_congr_get {s s' : EditorState} {k : Nat}
    (h : s'.get k = s.get k) : parentK s' k = parentK s k := by
  unfold parentK; rw [h]

/-- A nested-list context in which every key of interest is distinct: an
outer list `L` with children `A ++ [prev, item, next] ++ B`, where `prev`
and `next` are items whose first children `pInner`/`nInner` are lists
(`pInner` holding `xs`, `nInner` holding `ys`), and `item` is an item of
`L` that is not itself nested-list-bearing. -/
def c6Counterexample : EditorState :=
  { nodes := [
      (0, { data := .rootData, children := [1] }),
      (1, { data := .listData .bullet 1, parent := some 0, children := [2, 3, 4] }),
      (2, { data := .itemData 1 none, parent := some 1, children := [20] }),
      (20, { data := .listData .bullet 1, parent := some 2, children := [21] }),
      (21, { data := .itemData 1 none, parent := some 20, children := [] }),
      (3, { data := .itemData 2 none, parent := some 1, children := [30] }),
      (30, { data := .listData .bullet 1, parent := some 3, children := [31] }),
      (31, { data := .itemData 1 none, parent := some 30, children := [] }),
      (4, { data := .itemData 3 none, parent := some 1, children := [40] }),
      (40, { data := .listData .bullet 1, parent := some 4, children := [41] }),
      (41, { data := .itemData 1 none, parent := some 40, children := [] })],
    nextKey := 50 }

/-- Counterexample to C6 as stated: item 3's previous sibling (2) and next
sibling (4) are both nested-list-bearing items, yet `$handleIndent(3)` is a
complete no-op — item 3 itself carries a nested list, so the entry guard
fires before the merge row of the decision table is consulted: the item is
not moved into the previous sibling's nested list (key 20) and the next
sibling is not removed. -/
theorem c6_counterexample :
    isNestedListNodeOptK c6Counterexample
        (getPreviousSiblingK c6Counterexample 3) = true ∧
    isNestedListNodeOptK c6Counterexample
        (getNextSiblingK c6Counterexample 3) = true ∧
    handleIndent c6Counterexample 3 = c6Counterexample ∧
    parentK (handleIndent c6Counterexample 3) 3 = some 1 ∧
    childrenK (handleIndent c6Counterexample 3) 20 = [21] ∧
    parentK (handleIndent c6Counterexample 3) 4 = some 1 := by
  refine ⟨?_, ?_, ?_, ?_, ?_, ?_⟩ <;> decide

/-- C6 (amended): for every Item that is **not itself nested-list-bearing**
and whose previous and next siblings are both nested-list-bearing Items,
`$handleIndent` moves the Item to the end of the previous sibling's nested
List, then appends all children of the next sibling's nested List after it
into that same nested List, and removes the next sibling entirely; no child
of either nested List is duplicated or dropped (the moved children keep
their own subtrees, the emptied inner list and the next sibling leave the
tree, and the outer list keeps exactly its other children). -/
theorem c6_both_nested_merge (s : EditorState)
    (L prev item next pInner nInner : Nat)
    (A B prest nrest xs ys : List Nat)
    (hkeys : ([L, prev, item, next, pInner, nInner] ++ ys).Nodup)
    (hLl : isListK s L = true)
    (hlc : childrenK s L = A ++ prev :: item :: next :: B)
    (hlnd : (childrenK s L).Nodup)
    (hip : parentK s item = some L)
    (hino : isNestedListNodeK s item = false)
    (hpitem : isItemK s prev = true)
    (hpc : childrenK s prev = pInner :: prest)
    (hpil : isListK s pInner = true)
    (hpic : childrenK s pInner = xs)
    (hnitem : isItemK s next = true)
    (hnp : parentK s next = some L)
    (hnc : childrenK s next = nInner :: nrest)
    (hnil : isListK s nInner = true)
    (hnic : childrenK s nInner = ys)
    (hys : ∀ y ∈ ys, parentK s y = some nInner) :
    childrenK (handleIndent s item) pInner = xs ++ item :: ys ∧
    parentK (handleIndent s item) item = some pInner ∧
    (∀ y ∈ ys, parentK (handleIndent s item) y = some pInner ∧
      childrenK (handleIndent s item) y = childrenK s y) ∧
    parentK (handleIndent s item) next = none ∧
    childrenK (handleIndent s item) nInner = [] ∧
    childrenK (handleIndent s item) L = A ++ prev :: B := by
  -- distinctness of the named keys
  rw [show ([L, prev, item, next, pInner, nInner] ++ ys)
      = L :: prev :: item :: next :: pInner :: nInner :: ys from rfl] at hkeys
  obtain ⟨hL9, hkeys⟩ := List.nodup_cons.mp hkeys
  obtain ⟨hP9, hkeys⟩ := List.nodup_cons.mp hkeys
  obtain ⟨hI9, hkeys⟩ := List.nodup_cons.mp hkeys
  obtain ⟨hN9, hkeys⟩ := List.nodup_cons.mp hkeys
  obtain ⟨hPi9, hkeys⟩ := List.nodup_cons.mp hkeys
  obtain ⟨hNi9, hysnd⟩ := List.nodup_cons.mp hkeys
  have hi_pi : item ≠ pInner := fun h => hI9 (by subst h; simp)
  have hi_L : item ≠ L := fun h => hL9 (by subst h; simp)
  have hi_ni : item ≠ nInner := fun h => hI9 (by subst h; simp)
  have hi_ys : item ∉ ys := fun h => hI9 (by simp [h])
  have hpi_L : pInner ≠ L := fun h => hL9 (by subst h; simp)
  have hpi_ni : pInner ≠ nInner := fun h => hPi9 (by subst h; simp)
  have hpi_ys : pInner ∉ ys := fun h => hPi9 (by simp [h])
  have hni_L : nInner ≠ L := fun h => hL9 (by subst h; simp)
  have hni_ys : nInner ∉ ys := hNi9
  have hn_pi : next ≠ pInner := fun h => hN9 (by subst h; simp)
  have hn_ni : next ≠ nInner := fun h => hN9 (by subst h; simp)
  have hn_i : next ≠ item := fun h => hI9 (by subst h; simp)
  have hn_L : next ≠ L := fun h => hL9 (by subst h; simp)
  have hn_ys : next ∉ ys := fun h => hN9 (by simp [h])
  have hL_ys : L ∉ ys := fun h => hL9 (by simp [h])
  have hp_i : prev ≠ item := fun h => hP9 (by subst h; simp)
  -- positions of `item` and `next` inside the outer list's children
  rw [hlc] at hlnd
  obtain ⟨hAnd, hCnd, hdisj⟩ := List.nodup_append.mp hlnd
  have hitem_A : item ∉ A := fun h => (hdisj h) (by simp)
  have hnext_A : next ∉ A := fun h => (hdisj h) (by simp)
  obtain ⟨hprev_nm, hCnd⟩ := List.nodup_cons.mp hCnd
  obtain ⟨hitem_nm, hCnd⟩ := List.nodup_cons.mp hCnd
  obtain ⟨hnext_B, _⟩ := List.nodup_cons.mp hCnd
  have hitem_B : item ∉ B := fun h => hitem_nm (by simp [h])
  have hprev_item : prev ≠ item := fun h => hprev_nm (by simp [h])
  have hprev_next : prev ≠ next := fun h => hprev_nm (by simp [h])
  have hitem_next : item ≠ next := fun h => hitem_nm (by simp [h])
  -- node records behind the decidable shape hypotheses
  obtain ⟨nl, hLg⟩ := get_of_isListK hLl
  obtain ⟨ni, hig, hiparent⟩ := parentK_elim hip
  obtain ⟨np, hpg⟩ := get_of_isItemK hpitem
  obtain ⟨npi, hpig⟩ := get_of_isListK hpil
  obtain ⟨nn, hng, hnparent⟩ := parentK_elim hnp
  obtain ⟨nni, hnig⟩ := get_of_isListK hnil
  have hnl_c : nl.children = A ++ prev :: item :: next :: B := by
    rw [← childrenK_of_get hLg]; exact hlc
  have hnni_c : nni.children = ys := by
    rw [← childrenK_of_get hnig]; exact hnic
  -- sibling resolution
  have hnextS : getNextSiblingK s item = some next := by
    unfold getNextSiblingK
    rw [hip]
    show nextAfter (childrenK s L) item = some next
    rw [hlc,
      show A ++ prev :: item :: next :: B = (A ++ [prev]) ++ item :: next :: B
        by simp]
    apply nextAfter_adj
    intro hmem
    rcases List.mem_append.mp hmem with h | h
    · exact hitem_A h
    · simp at h; exact hprev_item h.symm
  have hprevS : getPreviousSiblingK s item = some prev := by
    unfold getPreviousSiblingK
    rw [hip]
    show prevBefore (childrenK s L) item = some prev
    rw [hlc]
    exact prevBefore_adj A (next :: B) prev item hitem_A hprev_item
  -- both neighbors are nested-list-bearing
  have hfc_next : getFirstChildK s next = some nInner := by
    unfold getFirstChildK; rw [hnc]; rfl
  have hfc_prev : getFirstChildK s prev = some pInner := by
    unfold getFirstChildK; rw [hpc]; rfl
  have hnestN : isNestedListNodeK s next = true := by
    unfold isNestedListNodeK
    rw [hnitem, hfc_next]
    show (true && isListK s nInner) = true
    rw [hnil]
    rfl
  have hnestP : isNestedListNodeK s prev = true := by
    unfold isNestedListNodeK
    rw [hpitem, hfc_prev]
    show (true && isListK s pInner) = true
    rw [hpil]
    rfl
  -- step 1: the item is appended to the previous sibling's inner list
  obtain ⟨a1, a2, a3, a4⟩ :=
    appendChildK_get s pInner item L npi ni nl hpig hig hLg hiparent
      hi_pi hi_L hpi_L
  -- the next sibling's inner list as seen after step 1
  have hfc1 : getFirstChildK (appendChildK s pInner item) next = some nInner := by
    unfold getFirstChildK
    rw [childrenK_congr_get (a4 next hn_pi hn_i hn_L), hnc]
    rfl
  have hl1 : isListK (appendChildK s pInner item) nInner = true := by
    rw [isListK_congr_get (a4 nInner (Ne.symm hpi_ni) (Ne.symm hi_ni) hni_L)]
    exact hnil
  have hcy : childrenK (appendChildK s pInner item) nInner = ys := by
    rw [childrenK_congr_get (a4 nInner (Ne.symm hpi_ni) (Ne.symm hi_ni) hni_L)]
    exact hnic
  -- the whole call reduces to: append, move the inner children, remove next
  have hrun : handleIndent s item =
      removeK (appendManyK (appendChildK s pInner item) pInner ys) next := by
    have hguard : (isNestedListNodeK s item
        || ([] : List Nat).contains item) = false := by
      rw [hino]; rfl
    simp only [handleIndent, hguard, Bool.false_eq_true, if_false, hnextS,
      hprevS, isNestedListNodeOptK_some, hnestN, hnestP, Bool.and_self,
      if_true, hfc_prev, hpil, hfc1, hl1, hcy]
  -- step 2: the inner children of `next` move to the end of `pInner`
  obtain ⟨m1, m2, m3, m4⟩ :=
    appendManyK_move pInner nInner hpi_ni ys (appendChildK s pInner item)
      { npi with children := npi.children ++ [item] } nni a1
      (by rw [a4 nInner (Ne.symm hpi_ni) (Ne.symm hi_ni) hni_L]; exact hnig)
      hnni_c hysnd hpi_ys hni_ys
      (fun y hy => by
        obtain ⟨ny, hnyg, hnyp⟩ := parentK_elim (hys y hy)
        refine ⟨ny, ?_, hnyp⟩
        rw [a4 y (fun h => hpi_ys (h ▸ hy)) (fun h => hi_ys (h ▸ hy))
          (fun h => hL_ys (h ▸ hy))]
        exact hnyg)
  -- step 3: `next` is removed from the outer list
  have hs2next : (appendManyK (appendChildK s pInner item) pInner ys).get next
      = some nn := by
    rw [m4 next hn_pi hn_ni hn_ys,
      a4 next hn_pi hn_i hn_L]
    exact hng
  have hs2L : (appendManyK (appendChildK s pInner item) pInner ys).get L
      = some { nl with children := nl.children.filter (fun c => c ≠ item) } := by
    rw [m4 L (Ne.symm hpi_L) (Ne.symm hni_L) hL_ys]
    exact a3
  obtain ⟨d1, d2, d3⟩ :=
    detach_get (appendManyK (appendChildK s pInner item) pInner ys) next L nn
      { nl with children := nl.children.filter (fun c => c ≠ item) }
      hs2next hnparent hs2L hn_L
  rw [hrun]
  refine ⟨?_, ?_, ?_, ?_, ?_, ?_⟩
  · rw [show removeK (appendManyK (appendChildK s pInner item) pInner ys) next
        = detach (appendManyK (appendChildK s pInner item) pInner ys) next
      from rfl]
    rw [childrenK_congr_get (d3 pInner (Ne.symm hn_pi) hpi_L),
      childrenK_of_get m1]
    have : npi.children = xs := by rw [← childrenK_of_get hpig]; exact hpic
    rw [this]
    simp
  · rw [show removeK (appendManyK (appendChildK s pInner item) pInner ys) next
        = detach (appendManyK (appendChildK s pInner item) pInner ys) next
      from rfl]
    rw [parentK_congr_get (d3 item (Ne.symm hn_i) hi_L),
      parentK_congr_get (m4 item hi_pi hi_ni hi_ys),
      parentK_of_get a2]
  · intro y hy
    obtain ⟨ny, hnyg1, hnyg2⟩ := m3 y hy
    have hy_next : y ≠ next := fun h => hn_ys (h ▸ hy)
    have hy_L : y ≠ L := fun h => hL_ys (h ▸ hy)
    constructor
    · rw [show removeK (appendManyK (appendChildK s pInner item) pInner ys) next
          = detach (appendManyK (appendChildK s pInner item) pInner ys) next
        from rfl]
      rw [parentK_congr_get (d3 y hy_next hy_L), parentK_of_get hnyg2]
    · rw [show removeK (appendManyK (appendChildK s pInner item) pInner ys) next
          = detach (appendManyK (appendChildK s pInner item) pInner ys) next
        from rfl]
      rw [childrenK_congr_get (d3 y hy_next hy_L), childrenK_of_get hnyg2]
      show ny.children = _
      rw [← childrenK_of_get hnyg1,
        childrenK_congr_get (a4 y (fun h => hpi_ys (h ▸ hy))
          (fun h => hi_ys (h ▸ hy)) (fun h => hL_ys (h ▸ hy)))]
  · rw [show removeK (appendManyK (appendChildK s pInner item) pInner ys) next
        = detach (appendManyK (appendChildK s pInner item) pInner ys) next
      from rfl]
    rw [parentK_of_get d1]
  · rw [show removeK (appendManyK (appendChildK s pInner item) pInner ys) next
        = detach (appendManyK (appendChildK s pInner item) pInner ys) next
      from rfl]
    rw [childrenK_congr_get (d3 nInner (Ne.symm hn_ni) hni_L),
      childrenK_of_get m2]
  · rw [show removeK (appendManyK (appendChildK s pInner item) pInner ys) next
        = detach (appendManyK (appendChildK s pInner item) pInner ys) next
      from rfl]
    rw [childrenK_of_get d2]
    show (nl.children.filter (fun c => c ≠ item)).filter (fun c => c ≠ next) = _
    rw [hnl_c, filter_ne_shape A B prev item next hitem_A hitem_B hprev_item
        (Ne.symm hitem_next),
      filter_ne_shape2 A B prev next hnext_A hnext_B hprev_next]

/-- Witness state for the amended C6: `[prev, item, next]` under a bullet
list, `prev`/`next` nested-list-bearing, `item` a plain item. -/
def c6WitState : EditorState :=
  { nodes := [
      (0, { data := .rootData, children := [1] }),
      (1, { data := .listData .bullet 1, parent := some 0, children := [2, 3, 4] }),
      (2, { data := .itemData 1 none, parent := some 1, children := [20] }),
      (20, { data := .listData .bullet 1, parent := some 2, children := [21] }),
      (21, { data := .itemData 1 none, parent := some 20, children := [] }),
      (3, { data := .itemData 2 none, parent := some 1, children := [32] }),
      (32, { data := .textData "m", parent := some 3 }),
      (4, { data := .itemData 3 none, parent := some 1, children := [40] }),
      (40, { data := .listData .bullet 1, parent := some 4, children := [41] }),
      (41, { data := .itemData 1 none, parent := some 40, children := [] })],
    nextKey := 50 }

/-- Witness for the amended C6 at a concrete merge configuration. -/
theorem c6_both_nested_merge_witness :
    childrenK (handleIndent c6WitState 3) 20 = [21] ++ 3 :: [41] ∧
    parentK (handleIndent c6WitState 3) 3 = some 20 ∧
    (∀ y ∈ ([41] : List Nat), parentK (handleIndent c6WitState 3) y = some 20 ∧
      childrenK (handleIndent c6WitState 3) y = childrenK c6WitState y) ∧
    parentK (handleIndent c6WitState 3) 4 = none ∧
    childrenK (handleIndent c6WitState 3) 40 = [] ∧
    childrenK (handleIndent c6WitState 3) 1 = [] ++ 2 :: [] :=
  c6_both_nested_merge c6WitState 1 2 3 4 20 40 [] [] [] [] [21] [41]
    (by decide) (by decide) (by decide) (by decide) (by decide) (by decide)
    (by decide) (by decide) (by decide) (by decide) (by decide) (by decide)
    (by decide) (by decide) (by decide) (by decide)

theorem getListTypeK_congr_get {s s' : EditorState} {k : Nat}
    (h : s'.get k = s.get k) : getListTypeK s' k = getListTypeK s k := by
  unfold getListTypeK; rw [dataK_congr_get h]

theorem look_mem : ∀ (l : List (Nat × Node)) (k : Nat) (n : Node),
    look l k = some n → ∃ p ∈ l, p.1 = k := by
  intro l
  induction l with
  | nil => intro k n h; exact absurd h (by simp [look])
  | cons a t ih =>
    intro k n h
    obtain ⟨a1, a2⟩ := a
    by_cases ha : a1 = k
    · exact ⟨(a1, a2), List.mem_cons_self _ _, ha⟩
    · rw [look, if_neg ha] at h
      obtain ⟨p, hp, hpk⟩ := ih k n h
      exact ⟨p, List.mem_cons_of_mem _ hp, hpk⟩

theorem key_lt_of_get {s : EditorState} {k : Nat} {n : Node}
    (hbound : ∀ e ∈ s.nodes, e.1 < s.nextKey) (h : s.get k = some n) :
    k < s.nextKey := by
  obtain ⟨p, hp, hpk⟩ := look_mem s.nodes k n h
  exact hpk ▸ hbound p hp

theorem rebaseSelectionToItem_get (s : EditorState) (a b q : Nat) :
    (rebaseSelectionToItem s a b).get q = s.get q := by
  unfold rebaseSelectionToItem
  split
  · split <;> rfl
  · rfl

theorem setFormatK_get_self (s : EditorState) (k : Nat) (f : Nat) (n : Node)
    (h : s.get k = some n) :
    (setFormatK s k f).get k = some { n with format := f } := by
  simp only [setFormatK, h]
  exact get_set_some s k _ n h

theorem setFormatK_get_ne (s : EditorState) (k : Nat) (f : Nat) {q : Nat}
    (hq : q ≠ k) : (setFormatK s k f).get q = s.get q := by
  unfold setFormatK
  split
  · exact get_set_ne s _ hq
  · rfl

theorem setIndentK_get_self (s : EditorState) (k : Nat) (i : Nat) (n : Node)
    (h : s.get k = some n) :
    (setIndentK s k i).get k = some { n with indent := i } := by
  simp only [setIndentK, h]
  exact get_set_some s k _ n h

theorem setIndentK_get_ne (s : EditorState) (k : Nat) (i : Nat) {q : Nat}
    (hq : q ≠ k) : (setIndentK s k i).get q = s.get q := by
  unfold setIndentK
  split
  · exact get_set_ne s _ hq
  · rfl

theorem filter_ne_head (A B : List Nat) (n : Nat) (hnA : n ∉ A)
    (hnB : n ∉ B) : (A ++ n :: B).filter (fun c => c ≠ n) = A ++ B := by
  rw [List.filter_append, filter_ne_of_not_mem A n hnA]
  simp only [List.filter_cons]
  rw [if_neg (by simp), filter_ne_of_not_mem B n hnB]

/-- C7: when `$createListOrMerge` wraps a root-level block `b` whose
previous and next siblings are Lists of the target kind, the result is the
single merged previous List containing, in order, its own items, then the
new Item (key `s.nextKey`) wrapping `b`'s children, then the next List's
items; the next-sibling List and the block both leave the tree; no child is
duplicated or dropped. -/
theorem c7_three_way_merge (s : EditorState) (R prevL b nextL : Nat)
    (t : ListType) (A B ps bs ns : List Nat)
    (hbound : ∀ e ∈ s.nodes, e.1 < s.nextKey)
    (hkeys : ([R, prevL, b, nextL] ++ bs ++ ns).Nodup)
    (hRc : childrenK s R = A ++ prevL :: b :: nextL :: B)
    (hRnd : (childrenK s R).Nodup)
    (hbl : isListK s b = false)
    (hbp : parentK s b = some R)
    (hbc : childrenK s b = bs)
    (hbs : ∀ y ∈ bs, parentK s y = some b)
    (hpl : isListK s prevL = true)
    (hpt : getListTypeK s prevL = some t)
    (hpc : childrenK s prevL = ps)
    (hnl : isListK s nextL = true)
    (hnt : getListTypeK s nextL = some t)
    (hnp : parentK s nextL = some R)
    (hnc : childrenK s nextL = ns)
    (hns : ∀ y ∈ ns, parentK s y = some nextL) :
    ∃ s', createListOrMergeK s b t = some (s', prevL) ∧
      childrenK s' prevL = ps ++ s.nextKey :: ns ∧
      childrenK s' s.nextKey = bs ∧
      (∀ y ∈ bs, parentK s' y = some s.nextKey) ∧
      (∀ y ∈ ns, parentK s' y = some prevL) ∧
      parentK s' nextL = none ∧
      parentK s' b = none ∧
      childrenK s' R = A ++ prevL :: B := by
  rw [show ([R, prevL, b, nextL] ++ bs ++ ns)
      = R :: prevL :: b :: nextL :: (bs ++ ns) from rfl] at hkeys
  obtain ⟨hR9, hkeys⟩ := List.nodup_cons.mp hkeys
  obtain ⟨hP9, hkeys⟩ := List.nodup_cons.mp hkeys
  obtain ⟨hB9, hkeys⟩ := List.nodup_cons.mp hkeys
  obtain ⟨hN9, hbsns⟩ := List.nodup_cons.mp hkeys
  obtain ⟨hbsnd, hnsnd, hbsdisj⟩ := List.nodup_append.mp hbsns
  obtain ⟨nb, hbg, hbparent⟩ := parentK_elim hbp
  obtain ⟨nR, hRg⟩ : ∃ nR, s.get R = some nR := by
    unfold childrenK at hRc
    cases hg : s.get R with
    | none =>
      rw [hg] at hRc
      simp at hRc
    | some nR => exact ⟨nR, rfl⟩
  obtain ⟨nprev, hpg⟩ := get_of_isListK hpl
  obtain ⟨nnext, hng, hnparent⟩ := parentK_elim hnp
  -- key bounds: every node of interest is older than the fresh item key
  have hbltK : b ≠ s.nextKey := Nat.ne_of_lt (key_lt_of_get hbound hbg)
  have hpltK : prevL ≠ s.nextKey := Nat.ne_of_lt (key_lt_of_get hbound hpg)
  have hnltK : nextL ≠ s.nextKey := Nat.ne_of_lt (key_lt_of_get hbound hng)
  have hRltK : R ≠ s.nextKey := Nat.ne_of_lt (key_lt_of_get hbound hRg)
  have hbsltK : ∀ y ∈ bs, y ≠ s.nextKey := fun y hy => by
    obtain ⟨ny, hnyg, _⟩ := parentK_elim (hbs y hy)
    exact Nat.ne_of_lt (key_lt_of_get hbound hnyg)
  have hnsltK : ∀ y ∈ ns, y ≠ s.nextKey := fun y hy => by
    obtain ⟨ny, hnyg, _⟩ := parentK_elim (hns y hy)
    exact Nat.ne_of_lt (key_lt_of_get hbound hnyg)
  have hKIbs : s.nextKey ∉ bs := fun h => hbsltK _ h rfl
  have hKIns : s.nextKey ∉ ns := fun h => hnsltK _ h rfl
  -- pairwise distinctness of the named keys
  have hpb : prevL ≠ b := fun h => hP9 (by simp [h])
  have hpn : prevL ≠ nextL := fun h => hP9 (by simp [h])
  have hbn : b ≠ nextL := fun h => hB9 (by simp [h])
  have hRp : R ≠ prevL := fun h => hR9 (by simp [h])
  have hRb : R ≠ b := fun h => hR9 (by simp [h])
  have hRn : R ≠ nextL := fun h => hR9 (by simp [h])
  have hb_bs : b ∉ bs := fun h => hB9 (by simp [h])
  have hb_ns : b ∉ ns := fun h => hB9 (by simp [h])
  have hp_bs : prevL ∉ bs := fun h => hP9 (by simp [h])
  have hp_ns : prevL ∉ ns := fun h => hP9 (by simp [h])
  have hn_bs : nextL ∉ bs := fun h => hN9 (by simp [h])
  have hn_ns : nextL ∉ ns := fun h => hN9 (by simp [h])
  have hR_bs : R ∉ bs := fun h => hR9 (by simp [h])
  have hR_ns : R ∉ ns := fun h => hR9 (by simp [h])
  have hbs_ns : ∀ y ∈ ns, y ∉ bs := fun y hy hyb => hbsdisj hyb hy
  -- positions inside the root's child list
  rw [hRc] at hRnd
  obtain ⟨hAnd, hCnd, hdisj⟩ := List.nodup_append.mp hRnd
  have hb_A : b ∉ A := fun h => (hdisj h) (by simp)
  have hn_A : nextL ∉ A := fun h => (hdisj h) (by simp)
  obtain ⟨hprev_nm, hCnd⟩ := List.nodup_cons.mp hCnd
  obtain ⟨hb_nm, hCnd⟩ := List.nodup_cons.mp hCnd
  obtain ⟨hn_B, _⟩ := List.nodup_cons.mp hCnd
  have hb_B : b ∉ B := fun h => hb_nm (by simp [h])
  -- sibling resolution for the block
  have hprevS : getPreviousSiblingK s b = some prevL := by
    unfold getPreviousSiblingK
    rw [hbp]
    show prevBefore (childrenK s R) b = some prevL
    rw [hRc]
    exact prevBefore_adj A (nextL :: B) prevL b hb_A hpb
  have hnextS : getNextSiblingK s b = some nextL := by
    unfold getNextSiblingK
    rw [hbp]
    show nextAfter (childrenK s R) b = some nextL
    rw [hRc,
      show A ++ prevL :: b :: nextL :: B = (A ++ [prevL]) ++ b :: nextL :: B
        by simp]
    apply nextAfter_adj
    intro hmem
    rcases List.mem_append.mp hmem with h | h
    · exact hb_A h
    · simp at h; exact hpb h.symm
  -- the freshly allocated item
  have hKI : (createListItemK s).2 = s.nextKey := rfl
  have hT1KI : ((createListItemK s).1).get s.nextKey
      = some { data := .itemData 1 none } := by
    unfold createListItemK
    exact get_alloc_self s _
  have hT1x : ∀ x, x ≠ s.nextKey → ((createListItemK s).1).get x = s.get x :=
    fun x hx => by
      unfold createListItemK
      exact get_alloc_ne s _ hx
  have hnb_c : nb.children = bs := by rw [← childrenK_of_get hbg]; exact hbc
  have hb1c : childrenK (createListItemK s).1 b = bs := by
    rw [childrenK_congr_get (hT1x b hbltK)]; exact hbc
  -- step 1: the block's children move into the fresh item
  obtain ⟨m1a, m1b, m1c, m1d⟩ :=
    appendManyK_move s.nextKey b (Ne.symm hbltK) bs (createListItemK s).1
      { data := .itemData 1 none } nb hT1KI
      (by rw [hT1x b hbltK]; exact hbg) hnb_c hbsnd hKIbs hb_bs
      (fun y hy => by
        obtain ⟨ny, hnyg, hnyp⟩ := parentK_elim (hbs y hy)
        exact ⟨ny, by rw [hT1x y (hbsltK y hy)]; exact hnyg, hnyp⟩)
  have m1a' : (appendManyK (createListItemK s).1 s.nextKey bs).get s.nextKey
      = some { data := .itemData 1 none, children := bs } := by
    rw [m1a]
    rfl
  -- the previous sibling is a same-type list
  have hprevT2 : (appendManyK (createListItemK s).1 s.nextKey bs).get prevL = s.get prevL := by
    rw [m1d prevL hpltK hpb hp_bs, hT1x prevL hpltK]
  have hsame_p : sameTypeListOptK (appendManyK (createListItemK s).1 s.nextKey bs) t (some prevL) = true := by
    simp only [sameTypeListOptK]
    rw [isListK_congr_get hprevT2, getListTypeK_congr_get hprevT2, hpl, hpt]
    simp
  -- step 2: the fresh item is appended to the previous list
  obtain ⟨a1, a2, a3⟩ :=
    appendChildK_get_detached (appendManyK (createListItemK s).1 s.nextKey bs)
      prevL s.nextKey nprev { data := .itemData 1 none, children := bs }
      (by rw [hprevT2]; exact hpg) m1a' rfl (Ne.symm hpltK)
  -- the next sibling is a same-type list holding `ns`
  have hnextT3 : (appendChildK (appendManyK (createListItemK s).1 s.nextKey bs) prevL s.nextKey).get nextL = s.get nextL := by
    rw [a3 nextL (Ne.symm hpn) hnltK, m1d nextL hnltK (Ne.symm hbn) hn_bs,
      hT1x nextL hnltK]
  have hsame_n : sameTypeListOptK (appendChildK (appendManyK (createListItemK s).1 s.nextKey bs) prevL s.nextKey) t (some nextL) = true := by
    simp only [sameTypeListOptK]
    rw [isListK_congr_get hnextT3, getListTypeK_congr_get hnextT3, hnl, hnt]
    simp
  have hc3n : childrenK (appendChildK (appendManyK (createListItemK s).1 s.nextKey bs) prevL s.nextKey) nextL = ns := by
    rw [childrenK_congr_get hnextT3]
    exact hnc
  have hnn_c : nnext.children = ns := by rw [← childrenK_of_get hng]; exact hnc
  -- step 3: the next list's items move to the end of the previous list
  obtain ⟨m2a, m2b, m2c, m2d⟩ :=
    appendManyK_move prevL nextL hpn ns (appendChildK (appendManyK (createListItemK s).1 s.nextKey bs) prevL s.nextKey)
      { nprev with children := nprev.children ++ [s.nextKey] } nnext a1
      (by rw [hnextT3]; exact hng) hnn_c hnsnd hp_ns hn_ns
      (fun y hy => by
        obtain ⟨ny, hnyg, hnyp⟩ := parentK_elim (hns y hy)
        refine ⟨ny, ?_, hnyp⟩
        rw [a3 y (fun h => hp_ns (h ▸ hy)) (fun h => hKIns (h ▸ hy)),
          m1d y (hnsltK y hy) (fun h => hb_ns (h ▸ hy)) (hbs_ns y hy),
          hT1x y (hnsltK y hy)]
        exact hnyg)
  -- step 4: the emptied next list is removed from the root
  have hT4R : (appendManyK (appendChildK (appendManyK (createListItemK s).1 s.nextKey bs) prevL s.nextKey) prevL ns).get R = some nR := by
    rw [m2d R hRp hRn hR_ns, a3 R hRp hRltK, m1d R hRltK hRb hR_bs,
      hT1x R hRltK]
    exact hRg
  have hrem : ∀ (st : EditorState) (k : Nat), removeK st k = detach st k :=
    fun _ _ => rfl
  obtain ⟨d1, d2, d3⟩ :=
    detach_get (appendManyK (appendChildK (appendManyK (createListItemK s).1 s.nextKey bs) prevL s.nextKey) prevL ns) nextL R { nnext with children := [] } nR
      m2b hnparent hT4R (Ne.symm hRn)
  -- the whole call reduces to the explicit composition
  have hbguard : (isListK s b = true) = False := by simp [hbl]
  have hrun : createListOrMergeK s b t = some (removeK (rebaseSelectionToItem (setIndentK (setFormatK (removeK (appendManyK (appendChildK (appendManyK (createListItemK s).1 s.nextKey bs) prevL s.nextKey) prevL ns) nextL) s.nextKey (getFormatK (removeK (appendManyK (appendChildK (appendManyK (createListItemK s).1 s.nextKey bs) prevL s.nextKey) prevL ns) nextL) b)) s.nextKey (getIndentK (setFormatK (removeK (appendManyK (appendChildK (appendManyK (createListItemK s).1 s.nextKey bs) prevL s.nextKey) prevL ns) nextL) s.nextKey (getFormatK (removeK (appendManyK (appendChildK (appendManyK (createListItemK s).1 s.nextKey bs) prevL s.nextKey) prevL ns) nextL) b)) b)) prevL s.nextKey) b, prevL) := by
    simp only [createListOrMergeK, hbguard, if_false, hprevS, hnextS, hKI,
      hb1c, hsame_p, hsame_n, if_true, hc3n]
  -- preservation through the attribute-setting and rebase postlude
  have h58 : ∀ x, x ≠ s.nextKey → (rebaseSelectionToItem (setIndentK (setFormatK (removeK (appendManyK (appendChildK (appendManyK (createListItemK s).1 s.nextKey bs) prevL s.nextKey) prevL ns) nextL) s.nextKey (getFormatK (removeK (appendManyK (appendChildK (appendManyK (createListItemK s).1 s.nextKey bs) prevL s.nextKey) prevL ns) nextL) b)) s.nextKey (getIndentK (setFormatK (removeK (appendManyK (appendChildK (appendManyK (createListItemK s).1 s.nextKey bs) prevL s.nextKey) prevL ns) nextL) s.nextKey (getFormatK (removeK (appendManyK (appendChildK (appendManyK (createListItemK s).1 s.nextKey bs) prevL s.nextKey) prevL ns) nextL) b)) b)) prevL s.nextKey).get x = (removeK (appendManyK (appendChildK (appendManyK (createListItemK s).1 s.nextKey bs) prevL s.nextKey) prevL ns) nextL).get x := by
    intro x hx
    rw [rebaseSelectionToItem_get, setIndentK_get_ne _ _ _ hx,
      setFormatK_get_ne _ _ _ hx]
  -- facts needed for the final removal of the block
  have hT5b : (removeK (appendManyK (appendChildK (appendManyK (createListItemK s).1 s.nextKey bs) prevL s.nextKey) prevL ns) nextL).get b = some { nb with children := [] } := by
    rw [hrem, d3 b hbn (Ne.symm hRb), m2d b (Ne.symm hpb) hbn hb_ns,
      a3 b (Ne.symm hpb) hbltK]
    exact m1b
  have hT8b : (rebaseSelectionToItem (setIndentK (setFormatK (removeK (appendManyK (appendChildK (appendManyK (createListItemK s).1 s.nextKey bs) prevL s.nextKey) prevL ns) nextL) s.nextKey (getFormatK (removeK (appendManyK (appendChildK (appendManyK (createListItemK s).1 s.nextKey bs) prevL s.nextKey) prevL ns) nextL) b)) s.nextKey (getIndentK (setFormatK (removeK (appendManyK (appendChildK (appendManyK (createListItemK s).1 s.nextKey bs) prevL s.nextKey) prevL ns) nextL) s.nextKey (getFormatK (removeK (appendManyK (appendChildK (appendManyK (createListItemK s).1 s.nextKey bs) prevL s.nextKey) prevL ns) nextL) b)) b)) prevL s.nextKey).get b = some { nb with children := [] } := by
    rw [h58 b hbltK]
    exact hT5b
  have hT8R : (rebaseSelectionToItem (setIndentK (setFormatK (removeK (appendManyK (appendChildK (appendManyK (createListItemK s).1 s.nextKey bs) prevL s.nextKey) prevL ns) nextL) s.nextKey (getFormatK (removeK (appendManyK (appendChildK (appendManyK (createListItemK s).1 s.nextKey bs) prevL s.nextKey) prevL ns) nextL) b)) s.nextKey (getIndentK (setFormatK (removeK (appendManyK (appendChildK (appendManyK (createListItemK s).1 s.nextKey bs) prevL s.nextKey) prevL ns) nextL) s.nextKey (getFormatK (removeK (appendManyK (appendChildK (appendManyK (createListItemK s).1 s.nextKey bs) prevL s.nextKey) prevL ns) nextL) b)) b)) prevL s.nextKey).get R
      = some { nR with children := nR.children.filter (fun c => c ≠ nextL) } := by
    rw [h58 R hRltK, hrem]
    exact d2
  obtain ⟨e1, e2, e3⟩ :=
    detach_get (rebaseSelectionToItem (setIndentK (setFormatK (removeK (appendManyK (appendChildK (appendManyK (createListItemK s).1 s.nextKey bs) prevL s.nextKey) prevL ns) nextL) s.nextKey (getFormatK (removeK (appendManyK (appendChildK (appendManyK (createListItemK s).1 s.nextKey bs) prevL s.nextKey) prevL ns) nextL) b)) s.nextKey (getIndentK (setFormatK (removeK (appendManyK (appendChildK (appendManyK (createListItemK s).1 s.nextKey bs) prevL s.nextKey) prevL ns) nextL) s.nextKey (getFormatK (removeK (appendManyK (appendChildK (appendManyK (createListItemK s).1 s.nextKey bs) prevL s.nextKey) prevL ns) nextL) b)) b)) prevL s.nextKey) b R { nb with children := [] }
      { nR with children := nR.children.filter (fun c => c ≠ nextL) }
      hT8b hbparent hT8R (Ne.symm hRb)
  refine ⟨_, hrun, ?_, ?_, ?_, ?_, ?_, ?_, ?_⟩
  · -- the merged list's children
    rw [hrem, childrenK_congr_get (e3 prevL hpb (Ne.symm hRp)),
      childrenK_congr_get (h58 prevL hpltK), hrem,
      childrenK_congr_get (d3 prevL hpn (Ne.symm hRp)),
      childrenK_of_get m2a]
    have : nprev.children = ps := by rw [← childrenK_of_get hpg]; exact hpc
    rw [this]
    simp
  · -- the fresh item wraps exactly the block's children
    have hT5KI : (removeK (appendManyK (appendChildK (appendManyK (createListItemK s).1 s.nextKey bs) prevL s.nextKey) prevL ns) nextL).get s.nextKey
        = some { data := NodeData.itemData 1 none, parent := some prevL, children := bs } := by
      rw [hrem, d3 s.nextKey (Ne.symm hnltK) (Ne.symm hRltK),
        m2d s.nextKey (Ne.symm hpltK) (Ne.symm hnltK) hKIns]
      exact a2
    have hT6KI : (setFormatK (removeK (appendManyK (appendChildK (appendManyK (createListItemK s).1 s.nextKey bs) prevL s.nextKey) prevL ns) nextL) s.nextKey (getFormatK (removeK (appendManyK (appendChildK (appendManyK (createListItemK s).1 s.nextKey bs) prevL s.nextKey) prevL ns) nextL) b)).get s.nextKey
        = some { data := NodeData.itemData 1 none, parent := some prevL, children := bs, format := getFormatK (removeK (appendManyK (appendChildK (appendManyK (createListItemK s).1 s.nextKey bs) prevL s.nextKey) prevL ns) nextL) b } :=
      setFormatK_get_self _ _ _ _ hT5KI
    have hT7KI : (setIndentK (setFormatK (removeK (appendManyK (appendChildK (appendManyK (createListItemK s).1 s.nextKey bs) prevL s.nextKey) prevL ns) nextL) s.nextKey (getFormatK (removeK (appendManyK (appendChildK (appendManyK (createListItemK s).1 s.nextKey bs) prevL s.nextKey) prevL ns) nextL) b)) s.nextKey (getIndentK (setFormatK (removeK (appendManyK (appendChildK (appendManyK (createListItemK s).1 s.nextKey bs) prevL s.nextKey) prevL ns) nextL) s.nextKey (getFormatK (removeK (appendManyK (appendChildK (appendManyK (createListItemK s).1 s.nextKey bs) prevL s.nextKey) prevL ns) nextL) b)) b)).get s.nextKey
        = some { data := NodeData.itemData 1 none, parent := some prevL, children := bs, format := getFormatK (removeK (appendManyK (appendChildK (appendManyK (createListItemK s).1 s.nextKey bs) prevL s.nextKey) prevL ns) nextL) b, indent := getIndentK (setFormatK (removeK (appendManyK (appendChildK (appendManyK (createListItemK s).1 s.nextKey bs) prevL s.nextKey) prevL ns) nextL) s.nextKey (getFormatK (removeK (appendManyK (appendChildK (appendManyK (createListItemK s).1 s.nextKey bs) prevL s.nextKey) prevL ns) nextL) b)) b } :=
      setIndentK_get_self _ _ _ _ hT6KI
    have hT8KI : (rebaseSelectionToItem (setIndentK (setFormatK (removeK (appendManyK (appendChildK (appendManyK (createListItemK s).1 s.nextKey bs) prevL s.nextKey) prevL ns) nextL) s.nextKey (getFormatK (removeK (appendManyK (appendChildK (appendManyK (createListItemK s).1 s.nextKey bs) prevL s.nextKey) prevL ns) nextL) b)) s.nextKey (getIndentK (setFormatK (removeK (appendManyK (appendChildK (appendManyK (createListItemK s).1 s.nextKey bs) prevL s.nextKey) prevL ns) nextL) s.nextKey (getFormatK (removeK (appendManyK (appendChildK (appendManyK (createListItemK s).1 s.nextKey bs) prevL s.nextKey) prevL ns) nextL) b)) b)) prevL s.nextKey).get s.nextKey
        = some { data := NodeData.itemData 1 none, parent := some prevL, children := bs, format := getFormatK (removeK (appendManyK (appendChildK (appendManyK (createListItemK s).1 s.nextKey bs) prevL s.nextKey) prevL ns) nextL) b, indent := getIndentK (setFormatK (removeK (appendManyK (appendChildK (appendManyK (createListItemK s).1 s.nextKey bs) prevL s.nextKey) prevL ns) nextL) s.nextKey (getFormatK (removeK (appendManyK (appendChildK (appendManyK (createListItemK s).1 s.nextKey bs) prevL s.nextKey) prevL ns) nextL) b)) b } := by
      rw [rebaseSelectionToItem_get]
      exact hT7KI
    rw [hrem, childrenK_congr_get (e3 s.nextKey (Ne.symm hbltK) (Ne.symm hRltK)),
      childrenK_of_get hT8KI]
  · -- the block's children hang under the fresh item
    intro y hy
    obtain ⟨ny, _, hT2y⟩ := m1c y hy
    have hyKI : y ≠ s.nextKey := hbsltK y hy
    have hyp : y ≠ prevL := fun h => hp_bs (h ▸ hy)
    have hyn : y ≠ nextL := fun h => hn_bs (h ▸ hy)
    have hyb : y ≠ b := fun h => hb_bs (h ▸ hy)
    have hyR : y ≠ R := fun h => hR_bs (h ▸ hy)
    have hyns : y ∉ ns := fun h => hbs_ns y h hy
    rw [hrem, parentK_congr_get (e3 y hyb hyR),
      parentK_congr_get (h58 y hyKI), hrem,
      parentK_congr_get (d3 y hyn hyR),
      parentK_congr_get (m2d y hyp hyn hyns),
      parentK_congr_get (a3 y hyp hyKI),
      parentK_of_get hT2y]
  · -- the next list's children hang under the merged list
    intro y hy
    obtain ⟨ny, _, hT4y⟩ := m2c y hy
    have hyKI : y ≠ s.nextKey := hnsltK y hy
    have hyn : y ≠ nextL := fun h => hn_ns (h ▸ hy)
    have hyb : y ≠ b := fun h => hb_ns (h ▸ hy)
    have hyR : y ≠ R := fun h => hR_ns (h ▸ hy)
    rw [hrem, parentK_congr_get (e3 y hyb hyR),
      parentK_congr_get (h58 y hyKI), hrem,
      parentK_congr_get (d3 y hyn hyR),
      parentK_of_get hT4y]
  · -- the next list is detached
    rw [hrem, parentK_congr_get (e3 nextL (Ne.symm hbn) (Ne.symm hRn)),
      parentK_congr_get (h58 nextL hnltK), hrem, parentK_of_get d1]
  · -- the block is detached
    rw [hrem, parentK_of_get e1]
  · -- the root keeps its other children
    rw [hrem, childrenK_of_get e2]
    show (nR.children.filter (fun c => c ≠ nextL)).filter (fun c => c ≠ b)
        = A ++ prevL :: B
    have hnRc : nR.children = A ++ prevL :: b :: nextL :: B := by
      rw [← childrenK_of_get hRg]; exact hRc
    rw [hnRc,
      show A ++ prevL :: b :: nextL :: B = (A ++ [prevL]) ++ b :: nextL :: B
        by simp,
      filter_ne_shape2 (A ++ [prevL]) B b nextL
        (by
          intro hmem
          rcases List.mem_append.mp hmem with h | h
          · exact hn_A h
          · simp at h; exact hpn h.symm) hn_B hbn,
      filter_ne_head (A ++ [prevL]) B b
        (by
          intro hmem
          rcases List.mem_append.mp hmem with h | h
          · exact hb_A h
          · simp at h; exact hpb h.symm) hb_B]
    simp

/-- Witness state for C7: root children `[prevList, block, nextList]` with
both lists of the target kind. -/
def c7WitState : EditorState :=
  { nodes := [
      (0, { data := .rootData, children := [1, 2, 3] }),
      (1, { data := .listData .bullet 1, parent := some 0, children := [10] }),
      (10, { data := .itemData 1 none, parent := some 1, children := [] }),
      (2, { data := .paragraphData, parent := some 0, children := [20] }),
      (20, { data := .textData "x", parent := some 2 }),
      (3, { data := .listData .bullet 1, parent := some 0, children := [30] }),
      (30, { data := .itemData 1 none, parent := some 3, children := [] })],
    nextKey := 40 }

/-- Witness for C7 at a concrete three-way merge. -/
theorem c7_three_way_merge_witness :
    ∃ s', createListOrMergeK c7WitState 2 ListType.bullet = some (s', 1) ∧
      childrenK s' 1 = [10] ++ 40 :: [30] ∧
      childrenK s' 40 = [20] ∧
      (∀ y ∈ ([20] : List Nat), parentK s' y = some 40) ∧
      (∀ y ∈ ([30] : List Nat), parentK s' y = some 1) ∧
      parentK s' 3 = none ∧
      parentK s' 2 = none ∧
      childrenK s' 0 = [] ++ 1 :: [] :=
  c7_three_way_merge c7WitState 0 1 2 3 ListType.bullet [] [] [10] [20] [30]
    (by decide) (by decide) (by decide) (by decide) (by decide) (by decide)
    (by decide) (by decide) (by decide) (by decide) (by decide) (by decide)
    (by decide) (by decide) (by decide) (by decide)

theorem isItemK_eq_false_of_isTextK {s : EditorState} {k : Nat}
    (h : isTextK s k = true) : isItemK s k = false := by
  unfold isTextK at h
  unfold isItemK
  cases hd : dataK s k with
  | none => rfl
  | some d => rw [hd] at h; cases d <;> simp_all

theorem isRootK_eq_false_of_isItemK {s : EditorState} {k : Nat}
    (h : isItemK s k = true) : isRootK s k = false := by
  unfold isItemK at h
  unfold isRootK
  cases hd : dataK s k with
  | none => rfl
  | some d => rw [hd] at h; cases d <;> simp_all

/-- C8: whenever the selection is collapsed inside a qualifying empty Item
(truly empty, or holding only whitespace text) whose parent List is itself
nested inside another Item, `$handleListInsertParagraph()` mutates the tree
exactly as `$handleOutdent(item)` would and returns `true`. -/
theorem c8_insertParagraph_delegates_outdent (s : EditorState)
    (sel : RangeSel) (li P G T : Nat)
    (hsel : s.selection = some sel)
    (hrange : sel.isRange = true)
    (hcol : sel.isCollapsed = true)
    (hq : (isItemK s sel.anchor.key = true ∧
            getChildrenSizeK s sel.anchor.key = 0 ∧ li = sel.anchor.key) ∨
          (isTextK s sel.anchor.key = true ∧
            parentK s sel.anchor.key = some li ∧ isItemK s li = true ∧
            (childrenK s li).all
              (fun n => isTextK s n && isWhitespaceTextK s n) = true))
    (htop : getTopListNodeK s li = some T)
    (hpar : parentK s li = some P) (hPl : isListK s P = true)
    (hgp : parentK s P = some G) (hGitem : isItemK s G = true) :
    handleListInsertParagraph s = some (handleOutdent s li, true) := by
  have hguard : (!(sel.isRange && sel.isCollapsed)) = false := by
    rw [hrange, hcol]; rfl
  have hGroot : isRootOrShadowRootK s (some G) = false := by
    simp only [isRootOrShadowRootK]
    exact isRootK_eq_false_of_isItemK hGitem
  rcases hq with ⟨h1, h2, h3⟩ | ⟨h1, h2, h3, h4⟩
  · subst h3
    simp [handleListInsertParagraph, hsel, hguard, h1, h2, htop, hpar, hPl,
      hgp, hGroot, hGitem, isItemOptK]
  · have h1' : isItemK s sel.anchor.key = false :=
      isItemK_eq_false_of_isTextK h1
    simp [handleListInsertParagraph, hsel, hguard, h1, h1', h2, h3, h4, htop,
      hpar, hPl, hgp, hGroot, hGitem, isItemOptK]

/-- Witness state for C8: an empty item (key 4) two levels deep, with the
selection collapsed on it. -/
def c8WitState : EditorState :=
  { nodes := [
      (0, { data := .rootData, children := [1] }),
      (1, { data := .listData .bullet 1, parent := some 0, children := [2] }),
      (2, { data := .itemData 1 none, parent := some 1, children := [5, 3] }),
      (5, { data := .textData "t", parent := some 2 }),
      (3, { data := .listData .bullet 1, parent := some 2, children := [4] }),
      (4, { data := .itemData 1 none, parent := some 3, children := [] })],
    nextKey := 10,
    selection := some
      { anchor := { key := 4, offset := 0, isElement := true }
        focus := { key := 4, offset := 0, isElement := true }
        selNodes := [4] } }

/-- Witness for C8 at the concrete nested empty item. -/
theorem c8_insertParagraph_delegates_outdent_witness :
    handleListInsertParagraph c8WitState
      = some (handleOutdent c8WitState 4, true) :=
  c8_insertParagraph_delegates_outdent c8WitState
    { anchor := { key := 4, offset := 0, isElement := true }
      focus := { key := 4, offset := 0, isElement := true }
      selNodes := [4] } 4 3 2 1
    (by decide) (by decide) (by decide)
    (Or.inl (by decide)) (by decide) (by decide) (by decide) (by decide)
    (by decide)

/-! ## The `insertList`/`removeList` round trip (claim C1)

A flat block is tracked as a triple: its block (paragraph or item) key, its
text key, and its text content. -/

/-- The initial shape for the round trip: the root `R` holds exactly the
flat blocks `rest` (each a paragraph with one text child), and the
selection is a forward range selection covering their texts. -/
structure FlatInv (s : EditorState) (sel0 : RangeSel) (R : Nat)
    (rest : List (Nat × Nat × String)) : Prop where
  bound : ∀ e ∈ s.nodes, e.1 < s.nextKey
  keys : (R :: (rest.map (fun r => r.1) ++ rest.map (fun r => r.2.1))).Nodup
  rootD : dataK s R = some .rootData
  rootP : parentK s R = none
  rootC : childrenK s R = rest.map (fun r => r.1)
  restD : ∀ r ∈ rest, dataK s r.1 = some .paragraphData
  restP : ∀ r ∈ rest, parentK s r.1 = some R
  restC : ∀ r ∈ rest, childrenK s r.1 = [r.2.1]
  restT : ∀ r ∈ rest, dataK s r.2.1 = some (.textData r.2.2)
  restTP : ∀ r ∈ rest, parentK s r.2.1 = some r.1
  selEq : s.selection = some sel0
  anchLt : sel0.anchor.key < s.nextKey
  focLt : sel0.focus.key < s.nextKey

/-- The mid-`$insertList` shape: the blocks of `done` have been wrapped
into items (tracked as item key / text key / content) of the single bullet
list `L`, the blocks of `rest` are still plain paragraphs after `L`, and
the selection object is untouched. -/
structure InsInv (s : EditorState) (sel0 : RangeSel) (R L : Nat)
    (done : List (Nat × Nat × String)) (rest : List (Nat × Nat × String)) :
    Prop where
  bound : ∀ q, s.nextKey ≤ q → s.get q = none
  keys : (R :: L :: (done.map (fun d => d.1) ++ done.map (fun d => d.2.1)
      ++ rest.map (fun r => r.1) ++ rest.map (fun r => r.2.1))).Nodup
  rootD : dataK s R = some .rootData
  rootP : parentK s R = none
  rootC : childrenK s R = L :: rest.map (fun r => r.1)
  listD : dataK s L = some (.listData .bullet 1)
  listP : parentK s L = some R
  listC : childrenK s L = done.map (fun d => d.1)
  itemD : ∀ d ∈ done, isItemK s d.1 = true
  itemP : ∀ d ∈ done, parentK s d.1 = some L
  itemC : ∀ d ∈ done, childrenK s d.1 = [d.2.1]
  doneT : ∀ d ∈ done, dataK s d.2.1 = some (.textData d.2.2)
  doneTP : ∀ d ∈ done, parentK s d.2.1 = some d.1
  restD : ∀ r ∈ rest, dataK s r.1 = some .paragraphData
  restP : ∀ r ∈ rest, parentK s r.1 = some R
  restC : ∀ r ∈ rest, childrenK s r.1 = [r.2.1]
  restT : ∀ r ∈ rest, dataK s r.2.1 = some (.textData r.2.2)
  restTP : ∀ r ∈ rest, parentK s r.2.1 = some r.1
  selEq : s.selection = some sel0
  anchLt : sel0.anchor.key < s.nextKey
  focLt : sel0.focus.key < s.nextKey
  anchNeL : sel0.anchor.key ≠ L
  focNeL : sel0.focus.key ≠ L
  anchItems : sel0.anchor.key ∉ done.map (fun d => d.1)
  focItems : sel0.focus.key ∉ done.map (fun d => d.1)

theorem two_le_length_of_mem_ne {α : Type _} {l : List α} {a b : α}
    (ha : a ∈ l) (hb : b ∈ l) (hab : a ≠ b) : 2 ≤ l.length := by
  cases l with
  | nil => exact absurd ha (List.not_mem_nil a)
  | cons x t =>
    cases t with
    | nil =>
      simp only [List.mem_singleton] at ha hb
      exact absurd (ha.trans hb.symm) hab
    | cons y u => simp [Nat.succ_le_succ, Nat.le_add_left]

theorem isTextK_of_dataK {s : EditorState} {k : Nat} {c : String}
    (h : dataK s k = some (.textData c)) : isTextK s k = true := by
  unfold isTextK; rw [h]

theorem isLeafK_of_dataK {s : EditorState} {k : Nat} {c : String}
    (h : dataK s k = some (.textData c)) : isLeafK s k = true :=
  isTextK_of_dataK h

theorem isElementK_false_of_dataK {s : EditorState} {k : Nat} {c : String}
    (h : dataK s k = some (.textData c)) : isElementK s k = false := by
  unfold isElementK; rw [h]

theorem isListK_false_of_paragraph {s : EditorState} {k : Nat}
    (h : dataK s k = some .paragraphData) : isListK s k = false := by
  unfold isListK; rw [h]

theorem isItemK_false_of_paragraph {s : EditorState} {k : Nat}
    (h : dataK s k = some .paragraphData) : isItemK s k = false := by
  unfold isItemK; rw [h]

theorem isItemK_false_of_dataK_text {s : EditorState} {k : Nat} {c : String}
    (h : dataK s k = some (.textData c)) : isItemK s k = false := by
  unfold isItemK; rw [h]

theorem isRootOrShadow_of_dataK {s : EditorState} {k : Nat}
    (h : dataK s k = some .rootData) :
    isRootOrShadowRootK s (some k) = true := by
  simp only [isRootOrShadowRootK]
  unfold isRootK; rw [h]

theorem isRootOrShadow_false_of_dataK_text {s : EditorState} {k : Nat}
    {c : String} (h : dataK s k = some (.textData c)) :
    isRootOrShadowRootK s (some k) = false := by
  simp only [isRootOrShadowRootK]
  unfold isRootK; rw [h]

theorem get_of_dataK {s : EditorState} {k : Nat} {d : NodeData}
    (h : dataK s k = some d) : ∃ n, s.get k = some n ∧ n.data = d := by
  unfold dataK at h
  cases hg : s.get k with
  | none => rw [hg] at h; simp at h
  | some n =>
    rw [hg] at h
    exact ⟨n, rfl, by simpa using h⟩

/-- `old.replace(new)` for a detached replacement: `new` takes `old`'s slot
under `old`'s parent and `old` is detached. -/
theorem replaceK_get (s : EditorState) (old new pr : Nat)
    (nold nnew npr : Node) (hold : s.get old = some nold)
    (holdp : nold.parent = some pr) (hpr : s.get pr = some npr)
    (hnew : s.get new = some nnew) (hnewp : nnew.parent = none)
    (hno : new ≠ old) (hnp : new ≠ pr) (hop : old ≠ pr) :
    ((replaceK s old new).get old = some { nold with parent := none }) ∧
    ((replaceK s old new).get new = some { nnew with parent := some pr }) ∧
    ((replaceK s old new).get pr = some { npr with children :=
        (insertAfterList npr.children old new).filter (fun c => c ≠ old) }) ∧
    (∀ x, x ≠ old → x ≠ new → x ≠ pr → (replaceK s old new).get x = s.get x) := by
  have hpk : parentK s old = some pr := by
    unfold parentK; rw [hold]; exact holdp
  have hd : detach s new = s := detach_get_noparent s new nnew hnew hnewp
  have hg1 : (s.set pr { npr with children := insertAfterList npr.children old new }).get new
      = some nnew := by rw [get_set_ne _ _ hnp]; exact hnew
  have hmid : ∀ x, x ≠ new → x ≠ pr →
      ((s.set pr { npr with children := insertAfterList npr.children old new }).set
        new { nnew with parent := some pr }).get x = s.get x := by
    intro x hxn hxp
    rw [get_set_ne _ _ hxn, get_set_ne _ _ hxp]
  have hmidold : ((s.set pr { npr with children := insertAfterList npr.children old new }).set
      new { nnew with parent := some pr }).get old = some nold := by
    rw [hmid old (Ne.symm hno) hop]; exact hold
  have hmidpr : ((s.set pr { npr with children := insertAfterList npr.children old new }).set
      new { nnew with parent := some pr }).get pr
      = some { npr with children := insertAfterList npr.children old new } := by
    rw [get_set_ne _ _ (Ne.symm hnp)]
    exact get_set_some _ pr _ npr hpr
  obtain ⟨d1, d2, d3⟩ :=
    detach_get ((s.set pr { npr with children := insertAfterList npr.children old new }).set
      new { nnew with parent := some pr }) old pr nold
      { npr with children := insertAfterList npr.children old new }
      hmidold holdp hmidpr hop
  refine ⟨?_, ?_, ?_, ?_⟩
  · simp only [replaceK, hpk, hd, hpr, hnew]
    exact d1
  · simp only [replaceK, hpk, hd, hpr, hnew]
    rw [d3 new hno hnp]
    exact get_set_some _ new _ nnew hg1
  · simp only [replaceK, hpk, hd, hpr, hnew]
    exact d2
  · intro x hxo hxn hxp
    simp only [replaceK, hpk, hd, hpr, hnew]
    rw [d3 x hxo hxp]
    exact hmid x hxn hxp

/-- Semantic form of the key bound: keys at or above the fresh counter are
absent. -/
theorem bound_sem {s : EditorState} (hb : ∀ e ∈ s.nodes, e.1 < s.nextKey) :
    ∀ q, s.nextKey ≤ q → s.get q = none := by
  intro q hq
  cases hg : s.get q with
  | none => rfl
  | some n =>
    obtain ⟨p, hp, hpk⟩ := look_mem s.nodes q n hg
    exact absurd (hpk ▸ hb p hp) (Nat.not_lt.mpr hq)

theorem key_lt_of_get_sem {s : EditorState}
    (hb : ∀ q, s.nextKey ≤ q → s.get q = none) {k : Nat} {n : Node}
    (h : s.get k = some n) : k < s.nextKey := by
  by_contra hk
  rw [hb k (Nat.le_of_not_lt hk)] at h
  exact Option.noConfusion h

theorem nextAfter_append (A B : List Nat) (i : Nat) (hA : i ∉ A) :
    nextAfter (A ++ i :: B) i = B.head? := by
  induction A with
  | nil => simp [nextAfter]
  | cons a t ih =>
    have hai : a ≠ i := fun h => hA (h ▸ List.mem_cons_self a t)
    simp only [List.cons_append, nextAfter, if_neg hai]
    exact ih (fun h => hA (List.mem_cons_of_mem a h))

theorem contains_eq_false_of_not_mem {a : Nat} {l : List Nat} (h : a ∉ l) :
    l.contains a = false := by
  cases hc : l.contains a with
  | false => rfl
  | true => exact absurd (List.elem_iff.mp hc) h

theorem prevBefore_head (l : List Nat) (i : Nat) :
    prevBefore (i :: l) i = none := by
  simp [prevBefore]

/-- The selection survives a `$createListOrMerge` rebase whose target list is
keyed at neither point. -/
theorem rebaseSelectionToItem_selection_ne (s : EditorState) (a b : Nat)
    (sel : RangeSel) (hsel : s.selection = some sel)
    (hA : sel.anchor.key ≠ a) (hF : sel.focus.key ≠ a) :
    (rebaseSelectionToItem s a b).selection = some sel := by
  unfold rebaseSelectionToItem
  rw [hsel]
  by_cases hr : sel.isRange = true
  · simp [hr, hA, hF]
  · simp [Bool.eq_false_iff.mpr hr]
    exact hsel

theorem rebaseSelectionToItem_nextKey (s : EditorState) (a b : Nat) :
    (rebaseSelectionToItem s a b).nextKey = s.nextKey := by
  unfold rebaseSelectionToItem
  split
  · split <;> rfl
  · rfl

theorem setFormatK_selection (s : EditorState) (k f : Nat) :
    (setFormatK s k f).selection = s.selection := by
  unfold setFormatK; split <;> rfl

theorem setFormatK_nextKey (s : EditorState) (k f : Nat) :
    (setFormatK s k f).nextKey = s.nextKey := by
  unfold setFormatK; split <;> rfl

theorem setIndentK_selection (s : EditorState) (k i : Nat) :
    (setIndentK s k i).selection = s.selection := by
  unfold setIndentK; split <;> rfl

theorem setIndentK_nextKey (s : EditorState) (k i : Nat) :
    (setIndentK s k i).nextKey = s.nextKey := by
  unfold setIndentK; split <;> rfl

theorem setTextStyleK_get_self (s : EditorState) (k : Nat) (st : String)
    (n : Node) (h : s.get k = some n) :
    (setTextStyleK s k st).get k = some { n with textStyle := st } := by
  simp only [setTextStyleK, h]
  exact get_set_some s k _ n h

theorem setTextStyleK_get_ne (s : EditorState) (k : Nat) (st : String)
    {q : Nat} (hq : q ≠ k) : (setTextStyleK s k st).get q = s.get q := by
  unfold setTextStyleK
  split
  · exact get_set_ne s _ hq
  · rfl

theorem setTextStyleK_selection (s : EditorState) (k : Nat) (st : String) :
    (setTextStyleK s k st).selection = s.selection := by
  unfold setTextStyleK; split <;> rfl

theorem setTextStyleK_nextKey (s : EditorState) (k : Nat) (st : String) :
    (setTextStyleK s k st).nextKey = s.nextKey := by
  unfold setTextStyleK; split <;> rfl

theorem setTextFormatK_get_self (s : EditorState) (k f : Nat) (n : Node)
    (h : s.get k = some n) :
    (setTextFormatK s k f).get k = some { n with textFormat := f } := by
  simp only [setTextFormatK, h]
  exact get_set_some s k _ n h

theorem setTextFormatK_get_ne (s : EditorState) (k f : Nat) {q : Nat}
    (hq : q ≠ k) : (setTextFormatK s k f).get q = s.get q := by
  unfold setTextFormatK
  split
  · exact get_set_ne s _ hq
  · rfl

theorem setTextFormatK_selection (s : EditorState) (k f : Nat) :
    (setTextFormatK s k f).selection = s.selection := by
  unfold setTextFormatK; split <;> rfl

theorem setTextFormatK_nextKey (s : EditorState) (k f : Nat) :
    (setTextFormatK s k f).nextKey = s.nextKey := by
  unfold setTextFormatK; split <;> rfl

/-- Rearranging a key inventory: dropping the unwrapped block `P`, moving its
text `t` to the processed side and adding a fresh key `kI` preserves
distinctness. -/
theorem nodup_move (R L kI P t : Nat) (dI dT rP rT : List Nat)
    (hsrc : (R :: L :: (dI ++ dT ++ (P :: rP) ++ (t :: rT))).Nodup)
    (hkI : kI ∉ R :: L :: (dI ++ dT ++ (P :: rP) ++ (t :: rT))) :
    (R :: L :: ((dI ++ [kI]) ++ (dT ++ [t]) ++ rP ++ rT)).Nodup := by
  have p1 : (R :: L :: (dI ++ dT ++ (P :: rP) ++ (t :: rT))).Perm
      (P :: t :: (R :: L :: (dI ++ dT ++ rP ++ rT))) := by
    rw [List.perm_iff_count]
    intro a
    simp only [List.count_append, List.count_cons]
    ring
  have p2 : (R :: L :: ((dI ++ [kI]) ++ (dT ++ [t]) ++ rP ++ rT)).Perm
      (kI :: t :: (R :: L :: (dI ++ dT ++ rP ++ rT))) := by
    rw [List.perm_iff_count]
    intro a
    simp only [List.count_append, List.count_cons, List.count_nil]
    ring
  have hsrc2 : (P :: t :: (R :: L :: (dI ++ dT ++ rP ++ rT))).Nodup :=
    p1.nodup hsrc
  have hkI2 : kI ∉ P :: t :: (R :: L :: (dI ++ dT ++ rP ++ rT)) :=
    fun h => hkI (p1.symm.subset h)
  rw [p2.nodup_iff]
  obtain ⟨hP, hrest⟩ := List.nodup_cons.mp hsrc2
  have hkIne : kI ∉ t :: (R :: L :: (dI ++ dT ++ rP ++ rT)) :=
    fun h => hkI2 (List.mem_cons_of_mem P h)
  exact List.nodup_cons.mpr ⟨hkIne, hrest⟩

/-- The fresh-list case of the inventory rearrangement: the first block `P`
is dropped, its text `t` moves to the processed side, and both the fresh
item `kI` and the fresh list `kL` appear. -/
theorem nodup_first (R kL kI P t : Nat) (rP rT : List Nat)
    (hsrc : (R :: ((P :: rP) ++ (t :: rT))).Nodup)
    (hkI : kI ∉ R :: ((P :: rP) ++ (t :: rT)))
    (hkL : kL ∉ R :: ((P :: rP) ++ (t :: rT)))
    (hkk : kI ≠ kL) :
    (R :: kL :: ([kI] ++ [t] ++ rP ++ rT)).Nodup := by
  have p1 : (R :: ((P :: rP) ++ (t :: rT))).Perm
      (P :: t :: (R :: (rP ++ rT))) := by
    rw [List.perm_iff_count]
    intro a
    simp only [List.count_append, List.count_cons]
    ring
  have p2 : (R :: kL :: ([kI] ++ [t] ++ rP ++ rT)).Perm
      (kL :: kI :: t :: (R :: (rP ++ rT))) := by
    rw [List.perm_iff_count]
    intro a
    simp only [List.count_append, List.count_cons, List.count_nil]
    ring
  have hsrc2 : (P :: t :: (R :: (rP ++ rT))).Nodup := p1.nodup hsrc
  have hkI2 : kI ∉ P :: t :: (R :: (rP ++ rT)) :=
    fun h => hkI (p1.symm.subset h)
  have hkL2 : kL ∉ P :: t :: (R :: (rP ++ rT)) :=
    fun h => hkL (p1.symm.subset h)
  obtain ⟨hP, hrest⟩ := List.nodup_cons.mp hsrc2
  rw [p2.nodup_iff]
  refine List.nodup_cons.mpr ⟨?_, List.nodup_cons.mpr ⟨?_, hrest⟩⟩
  · intro h
    rcases List.mem_cons.mp h with h | h
    · exact hkk h.symm
    · exact hkL2 (List.mem_cons_of_mem P h)
  · exact fun h => hkI2 (List.mem_cons_of_mem P h)

/-- `$createListOrMerge` on a non-list block whose previous sibling is a
same-type List and whose next sibling (if any) is not: the block's children
move into a fresh Item appended at the end of the previous List, and the
block itself is removed from its parent. -/
theorem createListOrMerge_into_prev (s : EditorState) (P R prev : Nat)
    (lt : ListType) (sel0 : RangeSel) (A B ys : List Nat)
    (hb : ∀ q, s.nextKey ≤ q → s.get q = none)
    (hPl : isListK s P = false)
    (hPp : parentK s P = some R)
    (hRc : childrenK s R = A ++ prev :: P :: B)
    (hRnd : (childrenK s R).Nodup)
    (hRP : R ≠ P) (hRprev : R ≠ prev) (hRys : R ∉ ys)
    (hPys : P ∉ ys) (hprevys : prev ∉ ys)
    (hysnd : ys.Nodup)
    (hPc : childrenK s P = ys)
    (hysP : ∀ y ∈ ys, parentK s y = some P)
    (hprevL : isListK s prev = true)
    (hprevT : getListTypeK s prev = some lt)
    (hB : ∀ x ∈ B, x < s.nextKey ∧ x ∉ ys ∧ isListK s x = false)
    (hsel : s.selection = some sel0)
    (hselA : sel0.anchor.key ≠ prev) (hselF : sel0.focus.key ≠ prev) :
    ∃ s', createListOrMergeK s P lt = some (s', prev) ∧
      dataK s' prev = dataK s prev ∧
      parentK s' prev = parentK s prev ∧
      childrenK s' prev = childrenK s prev ++ [s.nextKey] ∧
      dataK s' s.nextKey = some (.itemData 1 none) ∧
      parentK s' s.nextKey = some prev ∧
      childrenK s' s.nextKey = ys ∧
      (∀ y ∈ ys, parentK s' y = some s.nextKey ∧ dataK s' y = dataK s y ∧
        childrenK s' y = childrenK s y) ∧
      parentK s' P = none ∧
      dataK s' R = dataK s R ∧
      parentK s' R = parentK s R ∧
      childrenK s' R = (childrenK s R).filter (fun c => c ≠ P) ∧
      (∀ x, x ≠ s.nextKey → x ≠ P → x ∉ ys → x ≠ prev → x ≠ R →
        s'.get x = s.get x) ∧
      s'.selection = some sel0 ∧
      s'.nextKey = s.nextKey + 1 := by
  obtain ⟨nP, hPg, hPparent⟩ := parentK_elim hPp
  obtain ⟨nprev, hpg⟩ := get_of_isListK hprevL
  obtain ⟨nR, hRg⟩ : ∃ nR, s.get R = some nR := by
    unfold childrenK at hRc
    cases hg : s.get R with
    | none => rw [hg] at hRc; simp at hRc
    | some nR => exact ⟨nR, rfl⟩
  have hPK : P ≠ s.nextKey := Nat.ne_of_lt (key_lt_of_get_sem hb hPg)
  have hprevK : prev ≠ s.nextKey := Nat.ne_of_lt (key_lt_of_get_sem hb hpg)
  have hRK : R ≠ s.nextKey := Nat.ne_of_lt (key_lt_of_get_sem hb hRg)
  have hysK : ∀ y ∈ ys, y ≠ s.nextKey := fun y hy => by
    obtain ⟨ny, hnyg, _⟩ := parentK_elim (hysP y hy)
    exact Nat.ne_of_lt (key_lt_of_get_sem hb hnyg)
  have hKys : s.nextKey ∉ ys := fun h => hysK _ h rfl
  rw [hRc] at hRnd
  obtain ⟨hAnd, hCnd, hdisjA⟩ := List.nodup_append.mp hRnd
  have hprevA : prev ∉ A := fun h => (hdisjA h) (by simp)
  have hPA : P ∉ A := fun h => (hdisjA h) (by simp)
  obtain ⟨hprev_nm, hCnd2⟩ := List.nodup_cons.mp hCnd
  obtain ⟨hP_B, hBnd⟩ := List.nodup_cons.mp hCnd2
  have hprevP : prev ≠ P := fun h => hprev_nm (by simp [h])
  have hprevB : prev ∉ B := fun h => hprev_nm (by simp [h])
  have hprevS : getPreviousSiblingK s P = some prev := by
    unfold getPreviousSiblingK
    rw [hPp]
    show prevBefore (childrenK s R) P = some prev
    rw [hRc]
    exact prevBefore_adj A B prev P hPA hprevP
  have hnextS : getNextSiblingK s P = B.head? := by
    unfold getNextSiblingK
    rw [hPp]
    show nextAfter (childrenK s R) P = B.head?
    rw [hRc, show A ++ prev :: P :: B = (A ++ [prev]) ++ P :: B by simp]
    apply nextAfter_append
    intro hmem
    rcases List.mem_append.mp hmem with h | h
    · exact hPA h
    · simp at h; exact hprevP h.symm
  have hKI : (createListItemK s).2 = s.nextKey := rfl
  have hT1KI : ((createListItemK s).1).get s.nextKey
      = some { data := .itemData 1 none } := by
    unfold createListItemK
    exact get_alloc_self s _
  have hT1x : ∀ x, x ≠ s.nextKey → ((createListItemK s).1).get x = s.get x :=
    fun x hx => by
      unfold createListItemK
      exact get_alloc_ne s _ hx
  have hnP_c : nP.children = ys := by rw [← childrenK_of_get hPg]; exact hPc
  have hb1c : childrenK (createListItemK s).1 P = ys := by
    rw [childrenK_congr_get (hT1x P hPK)]; exact hPc
  obtain ⟨m1a, m1b, m1c, m1d⟩ :=
    appendManyK_move s.nextKey P (Ne.symm hPK) ys (createListItemK s).1
      { data := .itemData 1 none } nP hT1KI
      (by rw [hT1x P hPK]; exact hPg) hnP_c hysnd hKys hPys
      (fun y hy => by
        obtain ⟨ny, hnyg, hnyp⟩ := parentK_elim (hysP y hy)
        exact ⟨ny, by rw [hT1x y (hysK y hy)]; exact hnyg, hnyp⟩)
  have m1a' : (appendManyK (createListItemK s).1 s.nextKey ys).get s.nextKey
      = some { data := .itemData 1 none, children := ys } := by
    rw [m1a]
    rfl
  have hprevT2 : (appendManyK (createListItemK s).1 s.nextKey ys).get prev = s.get prev := by
    rw [m1d prev hprevK hprevP hprevys, hT1x prev hprevK]
  have hsame_p : sameTypeListOptK (appendManyK (createListItemK s).1 s.nextKey ys) lt (some prev) = true := by
    simp only [sameTypeListOptK]
    rw [isListK_congr_get hprevT2, getListTypeK_congr_get hprevT2, hprevL,
      hprevT]
    simp
  obtain ⟨a1, a2, a3⟩ :=
    appendChildK_get_detached (appendManyK (createListItemK s).1 s.nextKey ys) prev s.nextKey nprev
      { data := .itemData 1 none, children := ys }
      (by rw [hprevT2]; exact hpg) m1a' rfl (Ne.symm hprevK)
  have hsame_n : sameTypeListOptK (appendChildK (appendManyK (createListItemK s).1 s.nextKey ys) prev s.nextKey) lt (getNextSiblingK s P) = false := by
    rw [hnextS]
    cases hBcase : B with
    | nil => rfl
    | cons x B2 =>
      have hxB : x ∈ B := by rw [hBcase]; exact List.mem_cons_self x B2
      obtain ⟨hxK, hxys, hxl⟩ := hB x hxB
      have hxprev : x ≠ prev := fun h => hprevB (h ▸ hxB)
      have hxP : x ≠ P := fun h => hP_B (h ▸ hxB)
      have hT3x : (appendChildK (appendManyK (createListItemK s).1 s.nextKey ys) prev s.nextKey).get x = s.get x := by
        rw [a3 x hxprev (Nat.ne_of_lt hxK), m1d x (Nat.ne_of_lt hxK) hxP hxys,
          hT1x x (Nat.ne_of_lt hxK)]
      show sameTypeListOptK (appendChildK (appendManyK (createListItemK s).1 s.nextKey ys) prev s.nextKey) lt (some x) = false
      simp only [sameTypeListOptK]
      rw [isListK_congr_get hT3x, hxl]
      rfl
  have hPguard : (isListK s P = true) = False := by simp [hPl]
  have hrem : ∀ (st : EditorState) (k : Nat), removeK st k = detach st k :=
    fun _ _ => rfl
  have hrun : createListOrMergeK s P lt = some ((removeK (rebaseSelectionToItem (setIndentK (setFormatK (appendChildK (appendManyK (createListItemK s).1 s.nextKey ys) prev s.nextKey) s.nextKey (getFormatK (appendChildK (appendManyK (createListItemK s).1 s.nextKey ys) prev s.nextKey) P)) s.nextKey (getIndentK (setFormatK (appendChildK (appendManyK (createListItemK s).1 s.nextKey ys) prev s.nextKey) s.nextKey (getFormatK (appendChildK (appendManyK (createListItemK s).1 s.nextKey ys) prev s.nextKey) P)) P)) prev s.nextKey) P), prev) := by
    simp only [createListOrMergeK, hPguard, if_false, hprevS, hKI, hb1c,
      hsame_p, if_true, hsame_n, Bool.false_eq_true]
  have h45 : ∀ x, x ≠ s.nextKey → (setIndentK (setFormatK (appendChildK (appendManyK (createListItemK s).1 s.nextKey ys) prev s.nextKey) s.nextKey (getFormatK (appendChildK (appendManyK (createListItemK s).1 s.nextKey ys) prev s.nextKey) P)) s.nextKey (getIndentK (setFormatK (appendChildK (appendManyK (createListItemK s).1 s.nextKey ys) prev s.nextKey) s.nextKey (getFormatK (appendChildK (appendManyK (createListItemK s).1 s.nextKey ys) prev s.nextKey) P)) P)).get x = (appendChildK (appendManyK (createListItemK s).1 s.nextKey ys) prev s.nextKey).get x := by
    intro x hx
    rw [setIndentK_get_ne _ _ _ hx, setFormatK_get_ne _ _ _ hx]
  have h46 : ∀ x, x ≠ s.nextKey → (rebaseSelectionToItem (setIndentK (setFormatK (appendChildK (appendManyK (createListItemK s).1 s.nextKey ys) prev s.nextKey) s.nextKey (getFormatK (appendChildK (appendManyK (createListItemK s).1 s.nextKey ys) prev s.nextKey) P)) s.nextKey (getIndentK (setFormatK (appendChildK (appendManyK (createListItemK s).1 s.nextKey ys) prev s.nextKey) s.nextKey (getFormatK (appendChildK (appendManyK (createListItemK s).1 s.nextKey ys) prev s.nextKey) P)) P)) prev s.nextKey).get x = (appendChildK (appendManyK (createListItemK s).1 s.nextKey ys) prev s.nextKey).get x := by
    intro x hx
    rw [rebaseSelectionToItem_get]
    exact h45 x hx
  have hT6P : (rebaseSelectionToItem (setIndentK (setFormatK (appendChildK (appendManyK (createListItemK s).1 s.nextKey ys) prev s.nextKey) s.nextKey (getFormatK (appendChildK (appendManyK (createListItemK s).1 s.nextKey ys) prev s.nextKey) P)) s.nextKey (getIndentK (setFormatK (appendChildK (appendManyK (createListItemK s).1 s.nextKey ys) prev s.nextKey) s.nextKey (getFormatK (appendChildK (appendManyK (createListItemK s).1 s.nextKey ys) prev s.nextKey) P)) P)) prev s.nextKey).get P = some { nP with children := [] } := by
    rw [h46 P hPK, a3 P (Ne.symm hprevP) hPK]
    exact m1b
  have hT6R : (rebaseSelectionToItem (setIndentK (setFormatK (appendChildK (appendManyK (createListItemK s).1 s.nextKey ys) prev s.nextKey) s.nextKey (getFormatK (appendChildK (appendManyK (createListItemK s).1 s.nextKey ys) prev s.nextKey) P)) s.nextKey (getIndentK (setFormatK (appendChildK (appendManyK (createListItemK s).1 s.nextKey ys) prev s.nextKey) s.nextKey (getFormatK (appendChildK (appendManyK (createListItemK s).1 s.nextKey ys) prev s.nextKey) P)) P)) prev s.nextKey).get R = some nR := by
    rw [h46 R hRK, a3 R hRprev hRK, m1d R hRK hRP hRys, hT1x R hRK]
    exact hRg
  obtain ⟨d1, d2, d3⟩ :=
    detach_get (rebaseSelectionToItem (setIndentK (setFormatK (appendChildK (appendManyK (createListItemK s).1 s.nextKey ys) prev s.nextKey) s.nextKey (getFormatK (appendChildK (appendManyK (createListItemK s).1 s.nextKey ys) prev s.nextKey) P)) s.nextKey (getIndentK (setFormatK (appendChildK (appendManyK (createListItemK s).1 s.nextKey ys) prev s.nextKey) s.nextKey (getFormatK (appendChildK (appendManyK (createListItemK s).1 s.nextKey ys) prev s.nextKey) P)) P)) prev s.nextKey) P R { nP with children := [] } nR hT6P hPparent hT6R
      (Ne.symm hRP)
  have hT7prev : (removeK (rebaseSelectionToItem (setIndentK (setFormatK (appendChildK (appendManyK (createListItemK s).1 s.nextKey ys) prev s.nextKey) s.nextKey (getFormatK (appendChildK (appendManyK (createListItemK s).1 s.nextKey ys) prev s.nextKey) P)) s.nextKey (getIndentK (setFormatK (appendChildK (appendManyK (createListItemK s).1 s.nextKey ys) prev s.nextKey) s.nextKey (getFormatK (appendChildK (appendManyK (createListItemK s).1 s.nextKey ys) prev s.nextKey) P)) P)) prev s.nextKey) P).get prev
      = some { nprev with children := nprev.children ++ [s.nextKey] } := by
    rw [hrem, d3 prev hprevP (Ne.symm hRprev), h46 prev hprevK]
    exact a1
  have a2' : (appendChildK (appendManyK (createListItemK s).1 s.nextKey ys) prev s.nextKey).get s.nextKey = some { data := NodeData.itemData 1 none, parent := some prev, children := ys } := by
    rw [a2]
  have hT4KI : (setFormatK (appendChildK (appendManyK (createListItemK s).1 s.nextKey ys) prev s.nextKey) s.nextKey (getFormatK (appendChildK (appendManyK (createListItemK s).1 s.nextKey ys) prev s.nextKey) P)).get s.nextKey = some { data := NodeData.itemData 1 none, parent := some prev, children := ys, format := (getFormatK (appendChildK (appendManyK (createListItemK s).1 s.nextKey ys) prev s.nextKey) P) } :=
    setFormatK_get_self _ _ _ _ a2'
  have hT5KI : (setIndentK (setFormatK (appendChildK (appendManyK (createListItemK s).1 s.nextKey ys) prev s.nextKey) s.nextKey (getFormatK (appendChildK (appendManyK (createListItemK s).1 s.nextKey ys) prev s.nextKey) P)) s.nextKey (getIndentK (setFormatK (appendChildK (appendManyK (createListItemK s).1 s.nextKey ys) prev s.nextKey) s.nextKey (getFormatK (appendChildK (appendManyK (createListItemK s).1 s.nextKey ys) prev s.nextKey) P)) P)).get s.nextKey = some { data := NodeData.itemData 1 none, parent := some prev, children := ys, format := (getFormatK (appendChildK (appendManyK (createListItemK s).1 s.nextKey ys) prev s.nextKey) P), indent := (getIndentK (setFormatK (appendChildK (appendManyK (createListItemK s).1 s.nextKey ys) prev s.nextKey) s.nextKey (getFormatK (appendChildK (appendManyK (createListItemK s).1 s.nextKey ys) prev s.nextKey) P)) P) } :=
    setIndentK_get_self _ _ _ _ hT4KI
  have hT7KI : (removeK (rebaseSelectionToItem (setIndentK (setFormatK (appendChildK (appendManyK (createListItemK s).1 s.nextKey ys) prev s.nextKey) s.nextKey (getFormatK (appendChildK (appendManyK (createListItemK s).1 s.nextKey ys) prev s.nextKey) P)) s.nextKey (getIndentK (setFormatK (appendChildK (appendManyK (createListItemK s).1 s.nextKey ys) prev s.nextKey) s.nextKey (getFormatK (appendChildK (appendManyK (createListItemK s).1 s.nextKey ys) prev s.nextKey) P)) P)) prev s.nextKey) P).get s.nextKey = some { data := NodeData.itemData 1 none, parent := some prev, children := ys, format := (getFormatK (appendChildK (appendManyK (createListItemK s).1 s.nextKey ys) prev s.nextKey) P), indent := (getIndentK (setFormatK (appendChildK (appendManyK (createListItemK s).1 s.nextKey ys) prev s.nextKey) s.nextKey (getFormatK (appendChildK (appendManyK (createListItemK s).1 s.nextKey ys) prev s.nextKey) P)) P) } := by
    rw [hrem, d3 s.nextKey (Ne.symm hPK) (Ne.symm hRK),
      rebaseSelectionToItem_get]
    exact hT5KI
  refine ⟨_, hrun, ?_, ?_, ?_, ?_, ?_, ?_, ?_, ?_, ?_, ?_, ?_, ?_, ?_, ?_⟩
  · unfold dataK
    rw [hT7prev, hpg]
    rfl
  · unfold parentK
    rw [hT7prev, hpg]
    rfl
  · rw [childrenK_of_get hT7prev, childrenK_of_get hpg]
  · unfold dataK
    rw [hT7KI]
    rfl
  · unfold parentK
    rw [hT7KI]
    rfl
  · rw [childrenK_of_get hT7KI]
  · intro y hy
    obtain ⟨ny, hnyT1, hT2y⟩ := m1c y hy
    have hsy : s.get y = some ny := by rw [← hT1x y (hysK y hy)]; exact hnyT1
    have hyP : y ≠ P := fun h => hPys (h ▸ hy)
    have hyR : y ≠ R := fun h => hRys (h ▸ hy)
    have hyprev : y ≠ prev := fun h => hprevys (h ▸ hy)
    have hT7y : (removeK (rebaseSelectionToItem (setIndentK (setFormatK (appendChildK (appendManyK (createListItemK s).1 s.nextKey ys) prev s.nextKey) s.nextKey (getFormatK (appendChildK (appendManyK (createListItemK s).1 s.nextKey ys) prev s.nextKey) P)) s.nextKey (getIndentK (setFormatK (appendChildK (appendManyK (createListItemK s).1 s.nextKey ys) prev s.nextKey) s.nextKey (getFormatK (appendChildK (appendManyK (createListItemK s).1 s.nextKey ys) prev s.nextKey) P)) P)) prev s.nextKey) P).get y = some { ny with parent := some s.nextKey } := by
      rw [hrem, d3 y hyP hyR, h46 y (hysK y hy), a3 y hyprev (hysK y hy)]
      exact hT2y
    refine ⟨?_, ?_, ?_⟩
    · rw [parentK_of_get hT7y]
    · unfold dataK
      rw [hT7y, hsy]
      rfl
    · rw [childrenK_of_get hT7y, childrenK_of_get hsy]
  · rw [hrem, parentK_of_get d1]
  · unfold dataK
    rw [hrem, d2, hRg]
    rfl
  · unfold parentK
    rw [hrem, d2, hRg]
    rfl
  · rw [hrem, childrenK_of_get d2, childrenK_of_get hRg]
  · intro x hx1 hx2 hx3 hx4 hx5
    rw [hrem, d3 x hx2 hx5, h46 x hx1, a3 x hx4 hx1, m1d x hx1 hx2 hx3,
      hT1x x hx1]
  · rw [hrem, detach_selection, rebaseSelectionToItem_selection_ne _ _ _ sel0
      ?_ hselA hselF]
    rw [setIndentK_selection, setFormatK_selection, appendChildK_selection,
      appendManyK_selection]
    show ((createListItemK s).1).selection = some sel0
    unfold createListItemK
    rw [alloc_selection]
    exact hsel
  · rw [hrem, detach_nextKey, rebaseSelectionToItem_nextKey,
      setIndentK_nextKey, setFormatK_nextKey, appendChildK_nextKey,
      appendManyK_nextKey]
    rfl

/-- `$createListOrMerge` on a non-list first block with no previous sibling
and no same-type next sibling: a brand-new List wrapping a fresh Item (which
receives the block's children) replaces the block in its parent. -/
theorem createListOrMerge_fresh (s : EditorState) (P R : Nat)
    (lt : ListType) (sel0 : RangeSel) (B ys : List Nat)
    (hb : ∀ q, s.nextKey ≤ q → s.get q = none)
    (hPl : isListK s P = false)
    (hPp : parentK s P = some R)
    (hRc : childrenK s R = P :: B)
    (hRnd : (childrenK s R).Nodup)
    (hRP : R ≠ P) (hRys : R ∉ ys)
    (hPys : P ∉ ys)
    (hysnd : ys.Nodup)
    (hPc : childrenK s P = ys)
    (hysP : ∀ y ∈ ys, parentK s y = some P)
    (hB : ∀ x ∈ B, x < s.nextKey ∧ x ∉ ys ∧ isListK s x = false)
    (hsel : s.selection = some sel0)
    (hselA : sel0.anchor.key ≠ s.nextKey + 1)
    (hselF : sel0.focus.key ≠ s.nextKey + 1) :
    ∃ s', createListOrMergeK s P lt = some (s', s.nextKey + 1) ∧
      dataK s' (s.nextKey + 1) = some (.listData lt 1) ∧
      parentK s' (s.nextKey + 1) = some R ∧
      childrenK s' (s.nextKey + 1) = [s.nextKey] ∧
      dataK s' s.nextKey = some (.itemData 1 none) ∧
      parentK s' s.nextKey = some (s.nextKey + 1) ∧
      childrenK s' s.nextKey = ys ∧
      (∀ y ∈ ys, parentK s' y = some s.nextKey ∧ dataK s' y = dataK s y ∧
        childrenK s' y = childrenK s y) ∧
      parentK s' P = none ∧
      dataK s' R = dataK s R ∧
      parentK s' R = parentK s R ∧
      childrenK s' R = (s.nextKey + 1) :: B ∧
      (∀ x, x ≠ s.nextKey → x ≠ s.nextKey + 1 → x ≠ P → x ∉ ys → x ≠ R →
        s'.get x = s.get x) ∧
      s'.selection = some sel0 ∧
      s'.nextKey = s.nextKey + 2 := by
  obtain ⟨nP, hPg, hPparent⟩ := parentK_elim hPp
  obtain ⟨nR, hRg⟩ : ∃ nR, s.get R = some nR := by
    unfold childrenK at hRc
    cases hg : s.get R with
    | none => rw [hg] at hRc; simp at hRc
    | some nR => exact ⟨nR, rfl⟩
  have hPK : P ≠ s.nextKey := Nat.ne_of_lt (key_lt_of_get_sem hb hPg)
  have hRK : R ≠ s.nextKey := Nat.ne_of_lt (key_lt_of_get_sem hb hRg)
  have hPKL : P ≠ s.nextKey + 1 :=
    Nat.ne_of_lt (Nat.lt_succ_of_lt (key_lt_of_get_sem hb hPg))
  have hRKL : R ≠ s.nextKey + 1 :=
    Nat.ne_of_lt (Nat.lt_succ_of_lt (key_lt_of_get_sem hb hRg))
  have hKKL : s.nextKey ≠ s.nextKey + 1 := Nat.ne_of_lt (Nat.lt_succ_self _)
  have hysK : ∀ y ∈ ys, y ≠ s.nextKey := fun y hy => by
    obtain ⟨ny, hnyg, _⟩ := parentK_elim (hysP y hy)
    exact Nat.ne_of_lt (key_lt_of_get_sem hb hnyg)
  have hysKL : ∀ y ∈ ys, y ≠ s.nextKey + 1 := fun y hy => by
    obtain ⟨ny, hnyg, _⟩ := parentK_elim (hysP y hy)
    exact Nat.ne_of_lt (Nat.lt_succ_of_lt (key_lt_of_get_sem hb hnyg))
  have hKys : s.nextKey ∉ ys := fun h => hysK _ h rfl
  have hKLys : s.nextKey + 1 ∉ ys := fun h => hysKL _ h rfl
  rw [hRc] at hRnd
  obtain ⟨hP_B, hBnd⟩ := List.nodup_cons.mp hRnd
  have hprev0 : getPreviousSiblingK s P = none := by
    unfold getPreviousSiblingK
    rw [hPp]
    show prevBefore (childrenK s R) P = none
    rw [hRc]
    exact prevBefore_head B P
  have hnextS : getNextSiblingK s P = B.head? := by
    unfold getNextSiblingK
    rw [hPp]
    show nextAfter (childrenK s R) P = B.head?
    rw [hRc]
    simp [nextAfter]
  have hKI : (createListItemK s).2 = s.nextKey := rfl
  have hT1KI : ((createListItemK s).1).get s.nextKey
      = some { data := .itemData 1 none } := by
    unfold createListItemK
    exact get_alloc_self s _
  have hT1x : ∀ x, x ≠ s.nextKey → ((createListItemK s).1).get x = s.get x :=
    fun x hx => by
      unfold createListItemK
      exact get_alloc_ne s _ hx
  have hnP_c : nP.children = ys := by rw [← childrenK_of_get hPg]; exact hPc
  have hb1c : childrenK (createListItemK s).1 P = ys := by
    rw [childrenK_congr_get (hT1x P hPK)]; exact hPc
  obtain ⟨m1a, m1b, m1c, m1d⟩ :=
    appendManyK_move s.nextKey P (Ne.symm hPK) ys (createListItemK s).1
      { data := .itemData 1 none } nP hT1KI
      (by rw [hT1x P hPK]; exact hPg) hnP_c hysnd hKys hPys
      (fun y hy => by
        obtain ⟨ny, hnyg, hnyp⟩ := parentK_elim (hysP y hy)
        exact ⟨ny, by rw [hT1x y (hysK y hy)]; exact hnyg, hnyp⟩)
  have m1a' : (appendManyK (createListItemK s).1 s.nextKey ys).get s.nextKey = some { data := NodeData.itemData 1 none, children := ys } := by
    rw [m1a]
    rfl
  have hsame_p0 : sameTypeListOptK (appendManyK (createListItemK s).1 s.nextKey ys) lt (getPreviousSiblingK s P)
      = false := by
    rw [hprev0]
    rfl
  have hsame_n : sameTypeListOptK (appendManyK (createListItemK s).1 s.nextKey ys) lt (getNextSiblingK s P) = false := by
    rw [hnextS]
    cases hBcase : B with
    | nil => rfl
    | cons x B2 =>
      have hxB : x ∈ B := by rw [hBcase]; exact List.mem_cons_self x B2
      obtain ⟨hxK, hxys, hxl⟩ := hB x hxB
      have hxP : x ≠ P := fun h => hP_B (h ▸ hxB)
      have hT2x : (appendManyK (createListItemK s).1 s.nextKey ys).get x = s.get x := by
        rw [m1d x (Nat.ne_of_lt hxK) hxP hxys, hT1x x (Nat.ne_of_lt hxK)]
      show sameTypeListOptK (appendManyK (createListItemK s).1 s.nextKey ys) lt (some x) = false
      simp only [sameTypeListOptK]
      rw [isListK_congr_get hT2x, hxl]
      rfl
  have hT2nk : (appendManyK (createListItemK s).1 s.nextKey ys).nextKey = s.nextKey + 1 := by
    rw [appendManyK_nextKey]
    rfl
  have hKL : (createListK (appendManyK (createListItemK s).1 s.nextKey ys) lt).2 = s.nextKey + 1 := hT2nk
  have hT3kL : ((createListK (appendManyK (createListItemK s).1 s.nextKey ys) lt).1).get (s.nextKey + 1) = some { data := NodeData.listData lt 1 } := by
    rw [← hKL]
    unfold createListK
    exact get_alloc_self _ _
  have hT3x : ∀ x, x ≠ s.nextKey + 1 → ((createListK (appendManyK (createListItemK s).1 s.nextKey ys) lt).1).get x = (appendManyK (createListItemK s).1 s.nextKey ys).get x :=
    fun x hx => by
      unfold createListK
      exact get_alloc_ne _ _ (hT2nk ▸ hx)
  have hT3KI : ((createListK (appendManyK (createListItemK s).1 s.nextKey ys) lt).1).get s.nextKey = some { data := NodeData.itemData 1 none, children := ys } := by
    rw [hT3x s.nextKey hKKL]
    exact m1a'
  obtain ⟨a1, a2, a3⟩ :=
    appendChildK_get_detached (createListK (appendManyK (createListItemK s).1 s.nextKey ys) lt).1 (s.nextKey + 1) s.nextKey { data := NodeData.listData lt 1 }
      { data := NodeData.itemData 1 none, children := ys } hT3kL hT3KI rfl hKKL
  have a1' : (appendChildK (createListK (appendManyK (createListItemK s).1 s.nextKey ys) lt).1 (s.nextKey + 1) s.nextKey).get (s.nextKey + 1) = some { data := NodeData.listData lt 1, children := [s.nextKey] } := by
    rw [a1]
    rfl
  have a2' : (appendChildK (createListK (appendManyK (createListItemK s).1 s.nextKey ys) lt).1 (s.nextKey + 1) s.nextKey).get s.nextKey = some { data := NodeData.itemData 1 none, parent := some (s.nextKey + 1), children := ys } := by
    rw [a2]
  have hT4P : (appendChildK (createListK (appendManyK (createListItemK s).1 s.nextKey ys) lt).1 (s.nextKey + 1) s.nextKey).get P = some { nP with children := [] } := by
    rw [a3 P hPKL hPK, hT3x P hPKL]
    exact m1b
  have hT4R : (appendChildK (createListK (appendManyK (createListItemK s).1 s.nextKey ys) lt).1 (s.nextKey + 1) s.nextKey).get R = some nR := by
    rw [a3 R hRKL hRK, hT3x R hRKL, m1d R hRK hRP hRys, hT1x R hRK]
    exact hRg
  obtain ⟨r1, r2, r3, r4⟩ :=
    replaceK_get (appendChildK (createListK (appendManyK (createListItemK s).1 s.nextKey ys) lt).1 (s.nextKey + 1) s.nextKey) P (s.nextKey + 1) R { nP with children := [] }
      { data := NodeData.listData lt 1, children := [s.nextKey] } nR hT4P hPparent hT4R a1' rfl (Ne.symm hPKL)
      (Ne.symm hRKL) (fun h => hRP h.symm)
  have hnRc : nR.children = P :: B := by rw [← childrenK_of_get hRg]; exact hRc
  have r3' : (replaceK (appendChildK (createListK (appendManyK (createListItemK s).1 s.nextKey ys) lt).1 (s.nextKey + 1) s.nextKey) P (s.nextKey + 1)).get R = some { nR with children := (s.nextKey + 1) :: B } := by
    rw [r3]
    have : (insertAfterList nR.children P (s.nextKey + 1)).filter
        (fun c => c ≠ P) = (s.nextKey + 1) :: B := by
      rw [hnRc]
      have hins : insertAfterList (P :: B) P (s.nextKey + 1)
          = P :: (s.nextKey + 1) :: B := by
        simp [insertAfterList]
      rw [hins]
      have := filter_ne_head ([] : List Nat) ((s.nextKey + 1) :: B) P
        (by simp)
        (by
          intro h
          rcases List.mem_cons.mp h with h | h
          · exact hPKL h
          · exact hP_B h)
      simpa using this
    rw [this]
  have r2' : (replaceK (appendChildK (createListK (appendManyK (createListItemK s).1 s.nextKey ys) lt).1 (s.nextKey + 1) s.nextKey) P (s.nextKey + 1)).get (s.nextKey + 1) = some { data := NodeData.listData lt 1, parent := some R, children := [s.nextKey] } := by
    rw [r2]
  have hPguard : (isListK s P = true) = False := by simp [hPl]
  have hrem : ∀ (st : EditorState) (k : Nat), removeK st k = detach st k :=
    fun _ _ => rfl
  have h57 : ∀ x, x ≠ s.nextKey → (setIndentK (setFormatK (replaceK (appendChildK (createListK (appendManyK (createListItemK s).1 s.nextKey ys) lt).1 (s.nextKey + 1) s.nextKey) P (s.nextKey + 1)) s.nextKey (getFormatK (replaceK (appendChildK (createListK (appendManyK (createListItemK s).1 s.nextKey ys) lt).1 (s.nextKey + 1) s.nextKey) P (s.nextKey + 1)) P)) s.nextKey (getIndentK (setFormatK (replaceK (appendChildK (createListK (appendManyK (createListItemK s).1 s.nextKey ys) lt).1 (s.nextKey + 1) s.nextKey) P (s.nextKey + 1)) s.nextKey (getFormatK (replaceK (appendChildK (createListK (appendManyK (createListItemK s).1 s.nextKey ys) lt).1 (s.nextKey + 1) s.nextKey) P (s.nextKey + 1)) P)) P)).get x = (replaceK (appendChildK (createListK (appendManyK (createListItemK s).1 s.nextKey ys) lt).1 (s.nextKey + 1) s.nextKey) P (s.nextKey + 1)).get x := by
    intro x hx
    rw [setIndentK_get_ne _ _ _ hx, setFormatK_get_ne _ _ _ hx]
  have h58 : ∀ x, x ≠ s.nextKey → (rebaseSelectionToItem (setIndentK (setFormatK (replaceK (appendChildK (createListK (appendManyK (createListItemK s).1 s.nextKey ys) lt).1 (s.nextKey + 1) s.nextKey) P (s.nextKey + 1)) s.nextKey (getFormatK (replaceK (appendChildK (createListK (appendManyK (createListItemK s).1 s.nextKey ys) lt).1 (s.nextKey + 1) s.nextKey) P (s.nextKey + 1)) P)) s.nextKey (getIndentK (setFormatK (replaceK (appendChildK (createListK (appendManyK (createListItemK s).1 s.nextKey ys) lt).1 (s.nextKey + 1) s.nextKey) P (s.nextKey + 1)) s.nextKey (getFormatK (replaceK (appendChildK (createListK (appendManyK (createListItemK s).1 s.nextKey ys) lt).1 (s.nextKey + 1) s.nextKey) P (s.nextKey + 1)) P)) P)) (s.nextKey + 1) s.nextKey).get x = (replaceK (appendChildK (createListK (appendManyK (createListItemK s).1 s.nextKey ys) lt).1 (s.nextKey + 1) s.nextKey) P (s.nextKey + 1)).get x := by
    intro x hx
    rw [rebaseSelectionToItem_get]
    exact h57 x hx
  have hT8P : (rebaseSelectionToItem (setIndentK (setFormatK (replaceK (appendChildK (createListK (appendManyK (createListItemK s).1 s.nextKey ys) lt).1 (s.nextKey + 1) s.nextKey) P (s.nextKey + 1)) s.nextKey (getFormatK (replaceK (appendChildK (createListK (appendManyK (createListItemK s).1 s.nextKey ys) lt).1 (s.nextKey + 1) s.nextKey) P (s.nextKey + 1)) P)) s.nextKey (getIndentK (setFormatK (replaceK (appendChildK (createListK (appendManyK (createListItemK s).1 s.nextKey ys) lt).1 (s.nextKey + 1) s.nextKey) P (s.nextKey + 1)) s.nextKey (getFormatK (replaceK (appendChildK (createListK (appendManyK (createListItemK s).1 s.nextKey ys) lt).1 (s.nextKey + 1) s.nextKey) P (s.nextKey + 1)) P)) P)) (s.nextKey + 1) s.nextKey).get P
      = some { nP with children := [], parent := none } := by
    rw [h58 P hPK]
    rw [r1]
  have hT9 : (removeK (rebaseSelectionToItem (setIndentK (setFormatK (replaceK (appendChildK (createListK (appendManyK (createListItemK s).1 s.nextKey ys) lt).1 (s.nextKey + 1) s.nextKey) P (s.nextKey + 1)) s.nextKey (getFormatK (replaceK (appendChildK (createListK (appendManyK (createListItemK s).1 s.nextKey ys) lt).1 (s.nextKey + 1) s.nextKey) P (s.nextKey + 1)) P)) s.nextKey (getIndentK (setFormatK (replaceK (appendChildK (createListK (appendManyK (createListItemK s).1 s.nextKey ys) lt).1 (s.nextKey + 1) s.nextKey) P (s.nextKey + 1)) s.nextKey (getFormatK (replaceK (appendChildK (createListK (appendManyK (createListItemK s).1 s.nextKey ys) lt).1 (s.nextKey + 1) s.nextKey) P (s.nextKey + 1)) P)) P)) (s.nextKey + 1) s.nextKey) P) = (rebaseSelectionToItem (setIndentK (setFormatK (replaceK (appendChildK (createListK (appendManyK (createListItemK s).1 s.nextKey ys) lt).1 (s.nextKey + 1) s.nextKey) P (s.nextKey + 1)) s.nextKey (getFormatK (replaceK (appendChildK (createListK (appendManyK (createListItemK s).1 s.nextKey ys) lt).1 (s.nextKey + 1) s.nextKey) P (s.nextKey + 1)) P)) s.nextKey (getIndentK (setFormatK (replaceK (appendChildK (createListK (appendManyK (createListItemK s).1 s.nextKey ys) lt).1 (s.nextKey + 1) s.nextKey) P (s.nextKey + 1)) s.nextKey (getFormatK (replaceK (appendChildK (createListK (appendManyK (createListItemK s).1 s.nextKey ys) lt).1 (s.nextKey + 1) s.nextKey) P (s.nextKey + 1)) P)) P)) (s.nextKey + 1) s.nextKey) :=
    detach_get_noparent (rebaseSelectionToItem (setIndentK (setFormatK (replaceK (appendChildK (createListK (appendManyK (createListItemK s).1 s.nextKey ys) lt).1 (s.nextKey + 1) s.nextKey) P (s.nextKey + 1)) s.nextKey (getFormatK (replaceK (appendChildK (createListK (appendManyK (createListItemK s).1 s.nextKey ys) lt).1 (s.nextKey + 1) s.nextKey) P (s.nextKey + 1)) P)) s.nextKey (getIndentK (setFormatK (replaceK (appendChildK (createListK (appendManyK (createListItemK s).1 s.nextKey ys) lt).1 (s.nextKey + 1) s.nextKey) P (s.nextKey + 1)) s.nextKey (getFormatK (replaceK (appendChildK (createListK (appendManyK (createListItemK s).1 s.nextKey ys) lt).1 (s.nextKey + 1) s.nextKey) P (s.nextKey + 1)) P)) P)) (s.nextKey + 1) s.nextKey) P { nP with children := [], parent := none }
      hT8P rfl
  have hT6KI : (setFormatK (replaceK (appendChildK (createListK (appendManyK (createListItemK s).1 s.nextKey ys) lt).1 (s.nextKey + 1) s.nextKey) P (s.nextKey + 1)) s.nextKey (getFormatK (replaceK (appendChildK (createListK (appendManyK (createListItemK s).1 s.nextKey ys) lt).1 (s.nextKey + 1) s.nextKey) P (s.nextKey + 1)) P)).get s.nextKey = some { data := NodeData.itemData 1 none, parent := some (s.nextKey + 1), children := ys, format := (getFormatK (replaceK (appendChildK (createListK (appendManyK (createListItemK s).1 s.nextKey ys) lt).1 (s.nextKey + 1) s.nextKey) P (s.nextKey + 1)) P) } :=
    setFormatK_get_self _ _ _ _ (by
      rw [r4 s.nextKey (Ne.symm hPK) hKKL (Ne.symm hRK)]
      exact a2')
  have hT7KI : (setIndentK (setFormatK (replaceK (appendChildK (createListK (appendManyK (createListItemK s).1 s.nextKey ys) lt).1 (s.nextKey + 1) s.nextKey) P (s.nextKey + 1)) s.nextKey (getFormatK (replaceK (appendChildK (createListK (appendManyK (createListItemK s).1 s.nextKey ys) lt).1 (s.nextKey + 1) s.nextKey) P (s.nextKey + 1)) P)) s.nextKey (getIndentK (setFormatK (replaceK (appendChildK (createListK (appendManyK (createListItemK s).1 s.nextKey ys) lt).1 (s.nextKey + 1) s.nextKey) P (s.nextKey + 1)) s.nextKey (getFormatK (replaceK (appendChildK (createListK (appendManyK (createListItemK s).1 s.nextKey ys) lt).1 (s.nextKey + 1) s.nextKey) P (s.nextKey + 1)) P)) P)).get s.nextKey = some { data := NodeData.itemData 1 none, parent := some (s.nextKey + 1), children := ys, format := (getFormatK (replaceK (appendChildK (createListK (appendManyK (createListItemK s).1 s.nextKey ys) lt).1 (s.nextKey + 1) s.nextKey) P (s.nextKey + 1)) P), indent := (getIndentK (setFormatK (replaceK (appendChildK (createListK (appendManyK (createListItemK s).1 s.nextKey ys) lt).1 (s.nextKey + 1) s.nextKey) P (s.nextKey + 1)) s.nextKey (getFormatK (replaceK (appendChildK (createListK (appendManyK (createListItemK s).1 s.nextKey ys) lt).1 (s.nextKey + 1) s.nextKey) P (s.nextKey + 1)) P)) P) } :=
    setIndentK_get_self _ _ _ _ hT6KI
  have hT8KI : (rebaseSelectionToItem (setIndentK (setFormatK (replaceK (appendChildK (createListK (appendManyK (createListItemK s).1 s.nextKey ys) lt).1 (s.nextKey + 1) s.nextKey) P (s.nextKey + 1)) s.nextKey (getFormatK (replaceK (appendChildK (createListK (appendManyK (createListItemK s).1 s.nextKey ys) lt).1 (s.nextKey + 1) s.nextKey) P (s.nextKey + 1)) P)) s.nextKey (getIndentK (setFormatK (replaceK (appendChildK (createListK (appendManyK (createListItemK s).1 s.nextKey ys) lt).1 (s.nextKey + 1) s.nextKey) P (s.nextKey + 1)) s.nextKey (getFormatK (replaceK (appendChildK (createListK (appendManyK (createListItemK s).1 s.nextKey ys) lt).1 (s.nextKey + 1) s.nextKey) P (s.nextKey + 1)) P)) P)) (s.nextKey + 1) s.nextKey).get s.nextKey = some { data := NodeData.itemData 1 none, parent := some (s.nextKey + 1), children := ys, format := (getFormatK (replaceK (appendChildK (createListK (appendManyK (createListItemK s).1 s.nextKey ys) lt).1 (s.nextKey + 1) s.nextKey) P (s.nextKey + 1)) P), indent := (getIndentK (setFormatK (replaceK (appendChildK (createListK (appendManyK (createListItemK s).1 s.nextKey ys) lt).1 (s.nextKey + 1) s.nextKey) P (s.nextKey + 1)) s.nextKey (getFormatK (replaceK (appendChildK (createListK (appendManyK (createListItemK s).1 s.nextKey ys) lt).1 (s.nextKey + 1) s.nextKey) P (s.nextKey + 1)) P)) P) } := by
    rw [rebaseSelectionToItem_get]
    exact hT7KI
  have hrun : createListOrMergeK s P lt = some ((removeK (rebaseSelectionToItem (setIndentK (setFormatK (replaceK (appendChildK (createListK (appendManyK (createListItemK s).1 s.nextKey ys) lt).1 (s.nextKey + 1) s.nextKey) P (s.nextKey + 1)) s.nextKey (getFormatK (replaceK (appendChildK (createListK (appendManyK (createListItemK s).1 s.nextKey ys) lt).1 (s.nextKey + 1) s.nextKey) P (s.nextKey + 1)) P)) s.nextKey (getIndentK (setFormatK (replaceK (appendChildK (createListK (appendManyK (createListItemK s).1 s.nextKey ys) lt).1 (s.nextKey + 1) s.nextKey) P (s.nextKey + 1)) s.nextKey (getFormatK (replaceK (appendChildK (createListK (appendManyK (createListItemK s).1 s.nextKey ys) lt).1 (s.nextKey + 1) s.nextKey) P (s.nextKey + 1)) P)) P)) (s.nextKey + 1) s.nextKey) P), s.nextKey + 1) := by
    simp only [createListOrMergeK, hPguard, if_false, hKI, hb1c, hsame_p0,
      hsame_n, Bool.false_eq_true, hKL]
  refine ⟨_, hrun, ?_, ?_, ?_, ?_, ?_, ?_, ?_, ?_, ?_, ?_, ?_, ?_, ?_, ?_⟩
  · unfold dataK
    rw [hT9, h58 (s.nextKey + 1) (Ne.symm hKKL), r2']
    rfl
  · unfold parentK
    rw [hT9, h58 (s.nextKey + 1) (Ne.symm hKKL), r2']
    rfl
  · rw [hT9, childrenK_congr_get (h58 (s.nextKey + 1) (Ne.symm hKKL)),
      childrenK_of_get r2']
  · unfold dataK
    rw [hT9, hT8KI]
    rfl
  · unfold parentK
    rw [hT9, hT8KI]
    rfl
  · rw [hT9, childrenK_of_get hT8KI]
  · intro y hy
    obtain ⟨ny, hnyT1, hT2y⟩ := m1c y hy
    have hsy : s.get y = some ny := by rw [← hT1x y (hysK y hy)]; exact hnyT1
    have hyP : y ≠ P := fun h => hPys (h ▸ hy)
    have hyR : y ≠ R := fun h => hRys (h ▸ hy)
    have hT8y : (rebaseSelectionToItem (setIndentK (setFormatK (replaceK (appendChildK (createListK (appendManyK (createListItemK s).1 s.nextKey ys) lt).1 (s.nextKey + 1) s.nextKey) P (s.nextKey + 1)) s.nextKey (getFormatK (replaceK (appendChildK (createListK (appendManyK (createListItemK s).1 s.nextKey ys) lt).1 (s.nextKey + 1) s.nextKey) P (s.nextKey + 1)) P)) s.nextKey (getIndentK (setFormatK (replaceK (appendChildK (createListK (appendManyK (createListItemK s).1 s.nextKey ys) lt).1 (s.nextKey + 1) s.nextKey) P (s.nextKey + 1)) s.nextKey (getFormatK (replaceK (appendChildK (createListK (appendManyK (createListItemK s).1 s.nextKey ys) lt).1 (s.nextKey + 1) s.nextKey) P (s.nextKey + 1)) P)) P)) (s.nextKey + 1) s.nextKey).get y = some { ny with parent := some s.nextKey } := by
      rw [h58 y (hysK y hy), r4 y hyP (hysKL y hy) hyR,
        a3 y (hysKL y hy) (hysK y hy), hT3x y (hysKL y hy)]
      exact hT2y
    refine ⟨?_, ?_, ?_⟩
    · rw [hT9, parentK_of_get hT8y]
    · unfold dataK
      rw [hT9, hT8y, hsy]
      rfl
    · rw [hT9, childrenK_of_get hT8y, childrenK_of_get hsy]
  · rw [hT9, parentK_of_get hT8P]
  · unfold dataK
    rw [hT9, h58 R hRK, r3', hRg]
    rfl
  · unfold parentK
    rw [hT9, h58 R hRK, r3', hRg]
    rfl
  · rw [hT9, childrenK_congr_get (h58 R hRK), childrenK_of_get r3']
  · intro x hx1 hx2 hx3 hx4 hx5
    rw [hT9, h58 x hx1, r4 x hx3 hx2 hx5, a3 x hx2 hx1, hT3x x hx2,
      m1d x hx1 hx3 hx4, hT1x x hx1]
  · rw [hT9, rebaseSelectionToItem_selection_ne _ _ _ sel0 ?_ hselA hselF]
    rw [setIndentK_selection, setFormatK_selection, replaceK_selection,
      appendChildK_selection]
    show ((createListK (appendManyK (createListItemK s).1 s.nextKey ys) lt).1).selection = some sel0
    unfold createListK
    rw [alloc_selection, appendManyK_selection]
    show ((createListItemK s).1).selection = some sel0
    unfold createListItemK
    rw [alloc_selection]
    exact hsel
  · rw [hT9, rebaseSelectionToItem_nextKey, setIndentK_nextKey,
      setFormatK_nextKey, replaceK_nextKey, appendChildK_nextKey]
    show ((createListK (appendManyK (createListItemK s).1 s.nextKey ys) lt).1).nextKey = s.nextKey + 2
    unfold createListK
    rw [alloc_nextKey, hT2nk]

/-- One `$insertList` loop iteration on a leaf whose non-list parent block
sits directly under a root-like node: the climb stops at the parent and
handles it via `$createListOrMerge`. -/
theorem insertLoopBody_leaf (listType : ListType) (s : EditorState)
    (handled : List Nat) (t P R : Nat) (s2 : EditorState) (tl : Nat)
    (hel : isElementK s t = false) (hleaf : isLeafK s t = true)
    (hpar : parentK s t = some P) (hPlist : isListK s P = false)
    (hPR : parentK s P = some R)
    (hRroot : isRootOrShadowRootK s (some R) = true)
    (hPh : P ∉ handled)
    (hclm : createListOrMergeK s P listType = some (s2, tl)) :
    insertLoopBody listType (some (s, handled)) t
      = some (s2, handled ++ [P]) := by
  have hcont : handled.contains P = false := contains_eq_false_of_not_mem hPh
  simp only [insertLoopBody, insertLoopClimb, hel, hleaf, hpar, hPlist, hPR,
    hRroot, hcont, hclm, Bool.false_and, Bool.not_false, Bool.true_and,
    Bool.and_self, Bool.false_eq_true, eq_self_iff_true, if_true, if_false]

/-- The first `$insertList` iteration on a flat paragraph sequence: the first
paragraph is replaced by a brand-new single-item bullet List, establishing
the mid-insert invariant. -/
theorem insertStepFirst (s : EditorState) (sel0 : RangeSel) (R P t : Nat)
    (c : String) (rest : List (Nat × Nat × String))
    (hinv : FlatInv s sel0 R ((P, t, c) :: rest)) :
    ∃ s', insertLoopBody ListType.bullet (some (s, [])) t
        = some (s', [P]) ∧
      InsInv s' sel0 R (s.nextKey + 1) [(s.nextKey, t, c)] rest := by
  have hbsem : ∀ q, s.nextKey ≤ q → s.get q = none := bound_sem hinv.bound
  have hPd : dataK s P = some .paragraphData :=
    hinv.restD (P, t, c) (List.mem_cons_self _ _)
  have hPp : parentK s P = some R :=
    hinv.restP (P, t, c) (List.mem_cons_self _ _)
  have hPc : childrenK s P = [t] :=
    hinv.restC (P, t, c) (List.mem_cons_self _ _)
  have htd : dataK s t = some (.textData c) :=
    hinv.restT (P, t, c) (List.mem_cons_self _ _)
  have htp : parentK s t = some P :=
    hinv.restTP (P, t, c) (List.mem_cons_self _ _)
  obtain ⟨nR, hRg, _⟩ := get_of_dataK hinv.rootD
  obtain ⟨nP, hPg, _⟩ := get_of_dataK hPd
  obtain ⟨nt, htg, _⟩ := get_of_dataK htd
  have hkeys0 : (R :: ((P :: rest.map (fun r => r.1))
      ++ (t :: rest.map (fun r => r.2.1)))).Nodup := hinv.keys
  obtain ⟨hRnm, htail⟩ := List.nodup_cons.mp hkeys0
  obtain ⟨hPnd0, hTnd0, hdisj⟩ := List.nodup_append.mp htail
  obtain ⟨hPrP, hrPnd⟩ := List.nodup_cons.mp hPnd0
  obtain ⟨htrT, hrTnd⟩ := List.nodup_cons.mp hTnd0
  have hRP : R ≠ P := fun h => hRnm (by simp [h])
  have hRt : R ≠ t := fun h => hRnm (by simp [h])
  have hPt : P ≠ t := fun h =>
    hdisj (List.mem_cons_self P _) (by rw [← h]; exact List.mem_cons_self _ _)
  have hrP : ∀ x ∈ rest.map (fun r => r.1),
      dataK s x = some .paragraphData ∧ parentK s x = some R := by
    intro x hx
    obtain ⟨r, hr, rfl⟩ := List.mem_map.mp hx
    exact ⟨hinv.restD r (List.mem_cons_of_mem _ hr),
      hinv.restP r (List.mem_cons_of_mem _ hr)⟩
  have hltP : P < s.nextKey := key_lt_of_get_sem hbsem hPg
  have hltR : R < s.nextKey := key_lt_of_get_sem hbsem hRg
  have hltt : t < s.nextKey := key_lt_of_get_sem hbsem htg
  have hltrP : ∀ x ∈ rest.map (fun r => r.1), x < s.nextKey := by
    intro x hx
    obtain ⟨n, hn, _⟩ := get_of_dataK (hrP x hx).1
    exact key_lt_of_get_sem hbsem hn
  have hltrT : ∀ x ∈ rest.map (fun r => r.2.1), x < s.nextKey := by
    intro x hx
    obtain ⟨r, hr, rfl⟩ := List.mem_map.mp hx
    obtain ⟨n, hn, _⟩ :=
      get_of_dataK (hinv.restT r (List.mem_cons_of_mem _ hr))
    exact key_lt_of_get_sem hbsem hn
  have hRc : childrenK s R = P :: rest.map (fun r => r.1) := hinv.rootC
  have hRnd : (childrenK s R).Nodup := by rw [hRc]; exact hPnd0
  have hB : ∀ x ∈ rest.map (fun r => r.1),
      x < s.nextKey ∧ x ∉ [t] ∧ isListK s x = false := by
    intro x hx
    refine ⟨hltrP x hx, ?_, isListK_false_of_paragraph (hrP x hx).1⟩
    intro hmem
    rcases List.mem_singleton.mp hmem with rfl
    exact hdisj (List.mem_cons_of_mem _ hx) (List.mem_cons_self _ _)
  obtain ⟨s', hclm, c2, c3, c4, c5, c6, c7, c8, c9, c10, c11, c12, c13, c14,
      c15⟩ :=
    createListOrMerge_fresh s P R ListType.bullet sel0
      (rest.map (fun r => r.1)) [t] hbsem
      (isListK_false_of_paragraph hPd) hPp hRc hRnd hRP
      (fun h => hRt (List.mem_singleton.mp h))
      (fun h => hPt (List.mem_singleton.mp h))
      (by simp) hPc
      (by intro y hy; rcases List.mem_singleton.mp hy with rfl; exact htp)
      hB hinv.selEq
      (Nat.ne_of_lt (Nat.lt_succ_of_lt hinv.anchLt))
      (Nat.ne_of_lt (Nat.lt_succ_of_lt hinv.focLt))
  have hbody : insertLoopBody ListType.bullet (some (s, [])) t
      = some (s', [] ++ [P]) :=
    insertLoopBody_leaf ListType.bullet s [] t P R s' (s.nextKey + 1)
      (isElementK_false_of_dataK htd) (isLeafK_of_dataK htd) htp
      (isListK_false_of_paragraph hPd) hPp
      (isRootOrShadow_of_dataK hinv.rootD) (List.not_mem_nil P) hclm
  rw [List.nil_append] at hbody
  have hfr : ∀ x, x ≠ s.nextKey → x ≠ s.nextKey + 1 → x ≠ P → x ≠ t →
      x ≠ R → s'.get x = s.get x := by
    intro x h1 h2 h3 h4 h5
    exact c13 x h1 h2 h3 (fun hm => h4 (List.mem_singleton.mp hm)) h5
  have hrfr : ∀ r ∈ rest, s'.get r.1 = s.get r.1 ∧
      s'.get r.2.1 = s.get r.2.1 := by
    intro r hr
    have hr1 : r.1 ∈ rest.map (fun r => r.1) := List.mem_map_of_mem _ hr
    have hr2 : r.2.1 ∈ rest.map (fun r => r.2.1) := List.mem_map_of_mem _ hr
    have hlt1 := hltrP r.1 hr1
    have hlt2 := hltrT r.2.1 hr2
    constructor
    · refine hfr r.1 (by omega) (by omega) ?_ ?_ ?_
      · exact fun h => hPrP (h ▸ hr1)
      · intro h
        exact hdisj (List.mem_cons_of_mem _ hr1)
          (by rw [← h]; exact List.mem_cons_self _ _)
      · intro h
        exact hRnm (List.mem_append_left _ (List.mem_cons_of_mem _ (h ▸ hr1)))
    · refine hfr r.2.1 (by omega) (by omega) ?_ ?_ ?_
      · intro h
        exact hdisj (List.mem_cons_self _ _)
          (List.mem_cons_of_mem _ (h ▸ hr2))
      · exact fun h => htrT (h ▸ hr2)
      · intro h
        exact hRnm (List.mem_append_right _
          (List.mem_cons_of_mem _ (h ▸ hr2)))
  refine ⟨s', hbody, ?_, ?_, ?_, ?_, ?_, ?_, ?_, ?_, ?_, ?_, ?_, ?_, ?_, ?_,
    ?_, ?_, ?_, ?_, ?_, ?_, ?_, ?_, ?_, ?_, ?_⟩
  · intro q hq
    rw [c15] at hq
    rw [hfr q (by omega) (by omega) (by omega) (by omega) (by omega)]
    exact hbsem q (by omega)
  · have hmlt : ∀ x ∈ R :: ((P :: rest.map (fun r => r.1))
        ++ (t :: rest.map (fun r => r.2.1))), x < s.nextKey := by
      intro x hx
      rcases List.mem_cons.mp hx with rfl | hx
      · exact hltR
      rcases List.mem_append.mp hx with hx | hx
      · rcases List.mem_cons.mp hx with rfl | hx
        · exact hltP
        · exact hltrP x hx
      · rcases List.mem_cons.mp hx with rfl | hx
        · exact hltt
        · exact hltrT x hx
    exact nodup_first R (s.nextKey + 1) s.nextKey P t _ _ hkeys0
      (fun h => by have := hmlt _ h; omega)
      (fun h => by have := hmlt _ h; omega)
      (by omega)
  · rw [c10]; exact hinv.rootD
  · rw [c11]; exact hinv.rootP
  · exact c12
  · exact c2
  · exact c3
  · exact c4
  · intro d hd
    rcases List.mem_singleton.mp hd with rfl
    simp [isItemK, c5]
  · intro d hd
    rcases List.mem_singleton.mp hd with rfl
    exact c6
  · intro d hd
    rcases List.mem_singleton.mp hd with rfl
    exact c7
  · intro d hd
    rcases List.mem_singleton.mp hd with rfl
    obtain ⟨_, hdt, _⟩ := c8 t (List.mem_singleton.mpr rfl)
    rw [hdt]
    exact htd
  · intro d hd
    rcases List.mem_singleton.mp hd with rfl
    exact (c8 t (List.mem_singleton.mpr rfl)).1
  · intro r hr
    rw [dataK_congr_get (hrfr r hr).1]
    exact hinv.restD r (List.mem_cons_of_mem _ hr)
  · intro r hr
    rw [parentK_congr_get (hrfr r hr).1]
    exact hinv.restP r (List.mem_cons_of_mem _ hr)
  · intro r hr
    rw [childrenK_congr_get (hrfr r hr).1]
    exact hinv.restC r (List.mem_cons_of_mem _ hr)
  · intro r hr
    rw [dataK_congr_get (hrfr r hr).2]
    exact hinv.restT r (List.mem_cons_of_mem _ hr)
  · intro r hr
    rw [parentK_congr_get (hrfr r hr).2]
    exact hinv.restTP r (List.mem_cons_of_mem _ hr)
  · exact c14
  · rw [c15]
    have := hinv.anchLt
    omega
  · rw [c15]
    have := hinv.focLt
    omega
  · have := hinv.anchLt
    omega
  · have := hinv.focLt
    omega
  · intro h
    have h2 : sel0.anchor.key = s.nextKey := by simpa using h
    have := hinv.anchLt
    omega
  · intro h
    have h2 : sel0.focus.key = s.nextKey := by simpa using h
    have := hinv.focLt
    omega

/-- A later `$insertList` iteration: the next flat paragraph is merged as a
fresh Item into the already-built bullet List `L`, preserving the mid-insert
invariant. -/
theorem insertStepNext (s : EditorState) (sel0 : RangeSel) (R L P t : Nat)
    (c : String) (done rest : List (Nat × Nat × String))
    (handled : List Nat)
    (hinv : InsInv s sel0 R L done ((P, t, c) :: rest))
    (hPh : P ∉ handled) :
    ∃ s', insertLoopBody ListType.bullet (some (s, handled)) t
        = some (s', handled ++ [P]) ∧
      InsInv s' sel0 R L (done ++ [(s.nextKey, t, c)]) rest := by
  have hbsem := hinv.bound
  have hPd : dataK s P = some .paragraphData :=
    hinv.restD (P, t, c) (List.mem_cons_self _ _)
  have hPp : parentK s P = some R :=
    hinv.restP (P, t, c) (List.mem_cons_self _ _)
  have hPc : childrenK s P = [t] :=
    hinv.restC (P, t, c) (List.mem_cons_self _ _)
  have htd : dataK s t = some (.textData c) :=
    hinv.restT (P, t, c) (List.mem_cons_self _ _)
  have htp : parentK s t = some P :=
    hinv.restTP (P, t, c) (List.mem_cons_self _ _)
  obtain ⟨nR, hRg, _⟩ := get_of_dataK hinv.rootD
  obtain ⟨nP, hPg, _⟩ := get_of_dataK hPd
  obtain ⟨nt, htg, _⟩ := get_of_dataK htd
  obtain ⟨nL, hLg, _⟩ := get_of_dataK hinv.listD
  have hkeys0 : (R :: L :: (done.map (fun d => d.1)
      ++ done.map (fun d => d.2.1)
      ++ (P :: rest.map (fun r => r.1))
      ++ (t :: rest.map (fun r => r.2.1)))).Nodup := hinv.keys
  obtain ⟨hRnm, hk1⟩ := List.nodup_cons.mp hkeys0
  obtain ⟨hLnm, hk2⟩ := List.nodup_cons.mp hk1
  obtain ⟨hk3, hTnd0, hd1⟩ := List.nodup_append.mp hk2
  obtain ⟨hk4, hPnd0, hd2⟩ := List.nodup_append.mp hk3
  obtain ⟨hPrP, hrPnd⟩ := List.nodup_cons.mp hPnd0
  obtain ⟨htrT, hrTnd⟩ := List.nodup_cons.mp hTnd0
  have hRL : R ≠ L := fun h => hRnm (by simp [h])
  have hRP : R ≠ P := fun h => hRnm (by simp [h])
  have hRt : R ≠ t := fun h => hRnm (by simp [h])
  have hLP : L ≠ P := fun h => hLnm (by simp [h])
  have hLt : L ≠ t := fun h => hLnm (by simp [h])
  have hPt : P ≠ t := fun h =>
    hd1 (List.mem_append_right _ (List.mem_cons_self _ _))
      (by rw [← h]; exact List.mem_cons_self _ _)
  have hrP : ∀ x ∈ rest.map (fun r => r.1),
      dataK s x = some .paragraphData ∧ parentK s x = some R := by
    intro x hx
    obtain ⟨r, hr, rfl⟩ := List.mem_map.mp hx
    exact ⟨hinv.restD r (List.mem_cons_of_mem _ hr),
      hinv.restP r (List.mem_cons_of_mem _ hr)⟩
  have hltP : P < s.nextKey := key_lt_of_get_sem hbsem hPg
  have hltR : R < s.nextKey := key_lt_of_get_sem hbsem hRg
  have hltt : t < s.nextKey := key_lt_of_get_sem hbsem htg
  have hltL : L < s.nextKey := key_lt_of_get_sem hbsem hLg
  have hltrP : ∀ x ∈ rest.map (fun r => r.1), x < s.nextKey := by
    intro x hx
    obtain ⟨n, hn, _⟩ := get_of_dataK (hrP x hx).1
    exact key_lt_of_get_sem hbsem hn
  have hltrT : ∀ x ∈ rest.map (fun r => r.2.1), x < s.nextKey := by
    intro x hx
    obtain ⟨r, hr, rfl⟩ := List.mem_map.mp hx
    obtain ⟨n, hn, _⟩ :=
      get_of_dataK (hinv.restT r (List.mem_cons_of_mem _ hr))
    exact key_lt_of_get_sem hbsem hn
  have hltdI : ∀ x ∈ done.map (fun d => d.1), x < s.nextKey := by
    intro x hx
    obtain ⟨d, hd, rfl⟩ := List.mem_map.mp hx
    obtain ⟨n, hn⟩ := get_of_isItemK (hinv.itemD d hd)
    exact key_lt_of_get_sem hbsem hn
  have hltdT : ∀ x ∈ done.map (fun d => d.2.1), x < s.nextKey := by
    intro x hx
    obtain ⟨d, hd, rfl⟩ := List.mem_map.mp hx
    obtain ⟨n, hn, _⟩ := get_of_dataK (hinv.doneT d hd)
    exact key_lt_of_get_sem hbsem hn
  have hRc : childrenK s R = [] ++ L :: P :: rest.map (fun r => r.1) := by
    rw [hinv.rootC]
    rfl
  have hRnd : (childrenK s R).Nodup := by
    rw [hinv.rootC]
    refine List.nodup_cons.mpr ⟨?_, hPnd0⟩
    intro h
    rcases List.mem_cons.mp h with h | h
    · exact hLP h
    · exact hLnm (by simp [List.mem_append, h])
  have hB : ∀ x ∈ rest.map (fun r => r.1),
      x < s.nextKey ∧ x ∉ [t] ∧ isListK s x = false := by
    intro x hx
    refine ⟨hltrP x hx, ?_, isListK_false_of_paragraph (hrP x hx).1⟩
    intro hmem
    rcases List.mem_singleton.mp hmem with rfl
    exact hd1 (List.mem_append_right _ (List.mem_cons_of_mem _ hx))
      (List.mem_cons_self _ _)
  obtain ⟨s', hclm, c2, c3, c4, c5, c6, c7, c8, c9, c10, c11, c12, c13, c14,
      c15⟩ :=
    createListOrMerge_into_prev s P R L ListType.bullet sel0 []
      (rest.map (fun r => r.1)) [t] hbsem
      (isListK_false_of_paragraph hPd) hPp hRc hRnd hRP hRL
      (fun h => hRt (List.mem_singleton.mp h))
      (fun h => hPt (List.mem_singleton.mp h))
      (fun h => hLt (List.mem_singleton.mp h))
      (by simp) hPc
      (by intro y hy; rcases List.mem_singleton.mp hy with rfl; exact htp)
      (by simp [isListK, hinv.listD])
      (by simp [getListTypeK, hinv.listD])
      hB hinv.selEq hinv.anchNeL hinv.focNeL
  have hbody : insertLoopBody ListType.bullet (some (s, handled)) t
      = some (s', handled ++ [P]) :=
    insertLoopBody_leaf ListType.bullet s handled t P R s' L
      (isElementK_false_of_dataK htd) (isLeafK_of_dataK htd) htp
      (isListK_false_of_paragraph hPd) hPp
      (isRootOrShadow_of_dataK hinv.rootD) hPh hclm
  have hfr : ∀ x, x ≠ s.nextKey → x ≠ P → x ≠ t → x ≠ L → x ≠ R →
      s'.get x = s.get x := by
    intro x h1 h2 h3 h4 h5
    exact c13 x h1 h2 (fun hm => h3 (List.mem_singleton.mp hm)) h4 h5
  have hdfr : ∀ d ∈ done, s'.get d.1 = s.get d.1 ∧
      s'.get d.2.1 = s.get d.2.1 := by
    intro d hd
    have hd1m : d.1 ∈ done.map (fun d => d.1) := List.mem_map_of_mem _ hd
    have hd2m : d.2.1 ∈ done.map (fun d => d.2.1) := List.mem_map_of_mem _ hd
    have hlt1 := hltdI d.1 hd1m
    have hlt2 := hltdT d.2.1 hd2m
    constructor
    · refine hfr d.1 (by omega) ?_ ?_ ?_ ?_
      · intro h
        exact hd2 (List.mem_append_left _ hd1m)
          (by rw [← h]; exact List.mem_cons_self _ _)
      · intro h
        exact hd1 (List.mem_append_left _ (List.mem_append_left _ hd1m))
          (by rw [← h]; exact List.mem_cons_self _ _)
      · exact fun h => hLnm (by simp [List.mem_append, h ▸ hd1m])
      · exact fun h => hRnm (by simp [List.mem_append, List.mem_cons, h ▸ hd1m])
    · refine hfr d.2.1 (by omega) ?_ ?_ ?_ ?_
      · intro h
        exact hd2 (List.mem_append_right _ hd2m)
          (by rw [← h]; exact List.mem_cons_self _ _)
      · intro h
        exact hd1 (List.mem_append_left _ (List.mem_append_right _ hd2m))
          (by rw [← h]; exact List.mem_cons_self _ _)
      · exact fun h => hLnm (by simp [List.mem_append, h ▸ hd2m])
      · exact fun h => hRnm (by simp [List.mem_append, List.mem_cons, h ▸ hd2m])
  have hrfr : ∀ r ∈ rest, s'.get r.1 = s.get r.1 ∧
      s'.get r.2.1 = s.get r.2.1 := by
    intro r hr
    have hr1 : r.1 ∈ rest.map (fun r => r.1) := List.mem_map_of_mem _ hr
    have hr2 : r.2.1 ∈ rest.map (fun r => r.2.1) := List.mem_map_of_mem _ hr
    have hlt1 := hltrP r.1 hr1
    have hlt2 := hltrT r.2.1 hr2
    constructor
    · refine hfr r.1 (by omega) ?_ ?_ ?_ ?_
      · exact fun h => hPrP (h ▸ hr1)
      · intro h
        exact hd1 (List.mem_append_right _ (List.mem_cons_of_mem _ hr1))
          (by rw [← h]; exact List.mem_cons_self _ _)
      · exact fun h => hLnm (by simp [List.mem_append, List.mem_cons, h ▸ hr1])
      · exact fun h => hRnm (by simp [List.mem_append, List.mem_cons, h ▸ hr1])
    · refine hfr r.2.1 (by omega) ?_ ?_ ?_ ?_
      · intro h
        exact hd1
          (List.mem_append_right _ (by rw [← h]; exact List.mem_cons_self _ _))
          (List.mem_cons_of_mem _ hr2)
      · exact fun h => htrT (h ▸ hr2)
      · exact fun h => hLnm (by simp [List.mem_append, List.mem_cons, h ▸ hr2])
      · exact fun h => hRnm (by simp [List.mem_append, List.mem_cons, h ▸ hr2])
  refine ⟨s', hbody, ?_, ?_, ?_, ?_, ?_, ?_, ?_, ?_, ?_, ?_, ?_, ?_, ?_, ?_,
    ?_, ?_, ?_, ?_, ?_, ?_, ?_, ?_, ?_, ?_, ?_⟩
  · intro q hq
    rw [c15] at hq
    rw [hfr q (by omega) (by omega) (by omega) (by omega) (by omega)]
    exact hbsem q (by omega)
  · have hmlt : ∀ x ∈ R :: L :: (done.map (fun d => d.1)
        ++ done.map (fun d => d.2.1)
        ++ (P :: rest.map (fun r => r.1))
        ++ (t :: rest.map (fun r => r.2.1))), x < s.nextKey := by
      intro x hx
      rcases List.mem_cons.mp hx with rfl | hx
      · exact hltR
      rcases List.mem_cons.mp hx with rfl | hx
      · exact hltL
      rcases List.mem_append.mp hx with hx | hx
      · rcases List.mem_append.mp hx with hx | hx
        · rcases List.mem_append.mp hx with hx | hx
          · exact hltdI x hx
          · exact hltdT x hx
        · rcases List.mem_cons.mp hx with rfl | hx
          · exact hltP
          · exact hltrP x hx
      · rcases List.mem_cons.mp hx with rfl | hx
        · exact hltt
        · exact hltrT x hx
    have hnd := nodup_move R L s.nextKey P t (done.map (fun d => d.1))
      (done.map (fun d => d.2.1)) (rest.map (fun r => r.1))
      (rest.map (fun r => r.2.1)) hkeys0
      (fun h => by have := hmlt _ h; omega)
    simpa [List.map_append] using hnd
  · rw [c10]; exact hinv.rootD
  · rw [c11]; exact hinv.rootP
  · rw [c12, hinv.rootC]
    exact filter_ne_head [L] (rest.map (fun r => r.1)) P
      (fun h => hLP (List.mem_singleton.mp h).symm) hPrP
  · rw [c2]; exact hinv.listD
  · rw [c3]; exact hinv.listP
  · rw [c4, hinv.listC, List.map_append]
    rfl
  · intro d hd
    rcases List.mem_append.mp hd with hd | hd
    · rw [isItemK_congr_get (hdfr d hd).1]
      exact hinv.itemD d hd
    · rcases List.mem_singleton.mp hd with rfl
      simp [isItemK, c5]
  · intro d hd
    rcases List.mem_append.mp hd with hd | hd
    · rw [parentK_congr_get (hdfr d hd).1]
      exact hinv.itemP d hd
    · rcases List.mem_singleton.mp hd with rfl
      exact c6
  · intro d hd
    rcases List.mem_append.mp hd with hd | hd
    · rw [childrenK_congr_get (hdfr d hd).1]
      exact hinv.itemC d hd
    · rcases List.mem_singleton.mp hd with rfl
      exact c7
  · intro d hd
    rcases List.mem_append.mp hd with hd | hd
    · rw [dataK_congr_get (hdfr d hd).2]
      exact hinv.doneT d hd
    · rcases List.mem_singleton.mp hd with rfl
      obtain ⟨_, hdt, _⟩ := c8 t (List.mem_singleton.mpr rfl)
      rw [hdt]
      exact htd
  · intro d hd
    rcases List.mem_append.mp hd with hd | hd
    · rw [parentK_congr_get (hdfr d hd).2]
      exact hinv.doneTP d hd
    · rcases List.mem_singleton.mp hd with rfl
      exact (c8 t (List.mem_singleton.mpr rfl)).1
  · intro r hr
    rw [dataK_congr_get (hrfr r hr).1]
    exact hinv.restD r (List.mem_cons_of_mem _ hr)
  · intro r hr
    rw [parentK_congr_get (hrfr r hr).1]
    exact hinv.restP r (List.mem_cons_of_mem _ hr)
  · intro r hr
    rw [childrenK_congr_get (hrfr r hr).1]
    exact hinv.restC r (List.mem_cons_of_mem _ hr)
  · intro r hr
    rw [dataK_congr_get (hrfr r hr).2]
    exact hinv.restT r (List.mem_cons_of_mem _ hr)
  · intro r hr
    rw [parentK_congr_get (hrfr r hr).2]
    exact hinv.restTP r (List.mem_cons_of_mem _ hr)
  · exact c14
  · rw [c15]
    have := hinv.anchLt
    omega
  · rw [c15]
    have := hinv.focLt
    omega
  · exact hinv.anchNeL
  · exact hinv.focNeL
  · intro h
    rw [List.map_append] at h
    rcases List.mem_append.mp h with h | h
    · exact hinv.anchItems h
    · have h2 : sel0.anchor.key = s.nextKey := by simpa using h
      have := hinv.anchLt
      omega
  · intro h
    rw [List.map_append] at h
    rcases List.mem_append.mp h with h | h
    · exact hinv.focItems h
    · have h2 : sel0.focus.key = s.nextKey := by simpa using h
      have := hinv.focLt
      omega

/-- Folding the `$insertList` loop body over the remaining flat paragraphs
absorbs them all into the bullet list `L`, in order. -/
theorem insertFold (sel0 : RangeSel) (R L : Nat) :
    ∀ (rest : List (Nat × Nat × String)) (s : EditorState)
      (done : List (Nat × Nat × String)) (handled : List Nat),
      InsInv s sel0 R L done rest →
      (∀ r ∈ rest, r.1 ∉ handled) →
      ∃ s' done' handled',
        (rest.map (fun r => r.2.1)).foldl (insertLoopBody ListType.bullet)
          (some (s, handled)) = some (s', handled') ∧
        InsInv s' sel0 R L done' [] ∧
        done'.map (fun d => d.2) = done.map (fun d => d.2)
          ++ rest.map (fun r => r.2)
  | [], s, done, handled, hinv, _ =>
    ⟨s, done, handled, rfl, hinv, by simp⟩
  | (P, t, c) :: rest, s, done, handled, hinv, hh => by
    obtain ⟨s1, hbody, hinv1⟩ :=
      insertStepNext s sel0 R L P t c done rest handled hinv
        (hh (P, t, c) (List.mem_cons_self _ _))
    have hkeys0 : (R :: L :: (done.map (fun d => d.1)
        ++ done.map (fun d => d.2.1)
        ++ (P :: rest.map (fun r => r.1))
        ++ (t :: rest.map (fun r => r.2.1)))).Nodup := hinv.keys
    obtain ⟨_, hk1⟩ := List.nodup_cons.mp hkeys0
    obtain ⟨_, hk2⟩ := List.nodup_cons.mp hk1
    obtain ⟨hk3, _, _⟩ := List.nodup_append.mp hk2
    obtain ⟨_, hPnd0, _⟩ := List.nodup_append.mp hk3
    obtain ⟨hPrP, _⟩ := List.nodup_cons.mp hPnd0
    have hh1 : ∀ r ∈ rest, r.1 ∉ handled ++ [P] := by
      intro r hr hmem
      rcases List.mem_append.mp hmem with hmem | hmem
      · exact hh r (List.mem_cons_of_mem _ hr) hmem
      · rcases List.mem_singleton.mp hmem with heq
        exact hPrP (heq ▸ List.mem_map_of_mem (fun r => r.1) hr)
    obtain ⟨s', done', handled', hfold, hinv', hmap⟩ :=
      insertFold sel0 R L rest s1 (done ++ [(s.nextKey, t, c)])
        (handled ++ [P]) hinv1 hh1
    refine ⟨s', done', handled', ?_, hinv', ?_⟩
    · rw [List.map_cons, List.foldl_cons, hbody]
      exact hfold
    · rw [hmap]
      simp

/-- `$insertList('bullet')` on a flat sequence of one-text paragraphs under
the root wraps all of them, in order, as the Items of a single fresh bullet
List. -/
theorem insertList_flat (s : EditorState) (sel0 : RangeSel) (R : Nat)
    (blocks : List (Nat × Nat × String))
    (hinv : FlatInv s sel0 R blocks)
    (hrange : sel0.isRange = true)
    (hnodes : sel0.selNodes = blocks.map (fun b => b.2.1))
    (hstart : sel0.startPoint.key ∈ blocks.map (fun b => b.2.1)) :
    ∃ s' L done', insertList s ListType.bullet = some s' ∧
      InsInv s' sel0 R L done' [] ∧
      done'.map (fun d => d.2) = blocks.map (fun b => b.2) := by
  obtain ⟨b, hb, hbeq⟩ := List.mem_map.mp hstart
  have htdA : dataK s sel0.startPoint.key = some (.textData b.2.2) := by
    rw [← hbeq]
    exact hinv.restT b hb
  have hroot : isRootOrShadowRootK s (some sel0.startPoint.key) = false :=
    isRootOrShadow_false_of_dataK_text htdA
  have hempty : isSelectingEmptyListItemK s sel0.startPoint.key
      sel0.selNodes = false := by
    unfold isSelectingEmptyListItemK
    rw [isItemK_false_of_dataK_text htdA]
    rfl
  have hsel := hinv.selEq
  cases blocks with
  | nil => simp at hstart
  | cons b0 rest =>
    obtain ⟨P, t, c⟩ := b0
    obtain ⟨s1, hbody, hinv1⟩ := insertStepFirst s sel0 R P t c rest hinv
    have hkeys0 : (R :: ((P :: rest.map (fun r => r.1))
        ++ (t :: rest.map (fun r => r.2.1)))).Nodup := hinv.keys
    obtain ⟨_, htail⟩ := List.nodup_cons.mp hkeys0
    obtain ⟨hPnd0, _, _⟩ := List.nodup_append.mp htail
    obtain ⟨hPrP, _⟩ := List.nodup_cons.mp hPnd0
    have hh : ∀ r ∈ rest, r.1 ∉ ([P] : List Nat) := by
      intro r hr hmem
      rcases List.mem_singleton.mp hmem with heq
      exact hPrP (heq ▸ List.mem_map_of_mem (fun r => r.1) hr)
    obtain ⟨s', done', handled', hfold, hinv', hmap⟩ :=
      insertFold sel0 R (s.nextKey + 1) rest s1 [(s.nextKey, t, c)] [P]
        hinv1 hh
    have hrunfold : (((P, t, c) :: rest).map (fun r => r.2.1)).foldl
        (insertLoopBody ListType.bullet) (some (s, []))
        = some (s', handled') := by
      rw [List.map_cons, List.foldl_cons, hbody]
      exact hfold
    refine ⟨s', s.nextKey + 1, done', ?_, hinv', ?_⟩
    · simp only [insertList, hsel, hrange, hroot, hempty, Bool.false_eq_true,
        if_false, if_true, eq_self_iff_true]
      rw [hnodes, hrunfold]
    · rw [hmap]
      simp

theorem rebasePointIfItem_get (s : EditorState) (a b q : Nat) :
    (rebasePointIfItem s a b).get q = s.get q := by
  unfold rebasePointIfItem
  split <;> rfl

theorem rebasePointIfItem_selection_ne (s : EditorState) (a b : Nat)
    (sel : RangeSel) (hsel : s.selection = some sel)
    (hA : sel.anchor.key ≠ a) (hF : sel.focus.key ≠ a) :
    (rebasePointIfItem s a b).selection = some sel := by
  unfold rebasePointIfItem
  rw [hsel]
  simp [hA, hF]

theorem rebasePointIfItem_nextKey (s : EditorState) (a b : Nat) :
    (rebasePointIfItem s a b).nextKey = s.nextKey := by
  unfold rebasePointIfItem
  split <;> rfl

/-- `$getNearestNodeOfType` from a non-item whose parent is an item. -/
theorem getNearestItemK_step (s : EditorState) (fuel t i : Nat)
    (hfuel : 2 ≤ fuel) (hti : isItemK s t = false)
    (hp : parentK s t = some i) (hii : isItemK s i = true) :
    getNearestItemK s fuel t = some i := by
  match fuel, hfuel with
  | f + 2, _ =>
    simp [getNearestItemK, hti, hp, hii]

/-- The top-list climb stops immediately when the list's parent is a
non-list root. -/
theorem topListLoop_direct (s : EditorState) (L R fuel : Nat)
    (h2 : 2 ≤ fuel) (hLp : parentK s L = some R) (hRl : isListK s R = false)
    (hRp : parentK s R = none) : topListLoop s fuel L L = L := by
  match fuel, h2 with
  | f + 2, _ =>
    simp [topListLoop, hLp, hRl, hRp]

/-- `$getTopListNode` resolves to the item's own parent List when that List
sits directly under the non-list root. -/
theorem getTopListNode_direct (s : EditorState) (i L R : Nat)
    (hip : parentK s i = some L) (hLl : isListK s L = true)
    (hLp : parentK s L = some R) (hRl : isListK s R = false)
    (hRp : parentK s R = none) (hlen : 2 ≤ s.nodes.length) :
    getTopListNodeK s i = some L := by
  unfold getTopListNodeK
  rw [hip]
  simp only [hLl, if_true]
  rw [topListLoop_direct s L R s.nodes.length hlen hLp hRl hRp]

theorem two_le_nodes_length {s : EditorState} {a b : Nat} {na nb : Node}
    (ha : s.get a = some na) (hb : s.get b = some nb) (hab : a ≠ b) :
    2 ≤ s.nodes.length := by
  obtain ⟨pa, hpa, hpak⟩ := look_mem s.nodes a na ha
  obtain ⟨pb, hpb, hpbk⟩ := look_mem s.nodes b nb hb
  exact two_le_length_of_mem_ne hpa hpb
    (fun h => hab (by rw [← hpak, ← hpbk, h]))

theorem one_le_nodes_length {s : EditorState} {a : Nat} {na : Node}
    (ha : s.get a = some na) : 1 ≤ s.nodes.length := by
  obtain ⟨pa, hpa, _⟩ := look_mem s.nodes a na ha
  exact List.length_pos_of_mem hpa

theorem flatMap_singleton (f : Nat → List Nat) :
    ∀ l : List Nat, (∀ c ∈ l, f c = [c]) → l.flatMap f = l
  | [], _ => rfl
  | a :: l, h => by
    rw [List.flatMap_cons, h a (List.mem_cons_self _ _),
      flatMap_singleton f l (fun c hc => h c (List.mem_cons_of_mem _ hc))]
    rfl

/-- `$getAllListItems` on a list of flat items (each wrapping a single
non-list child) is just the child list. -/
theorem getAllListItems_flat (s : EditorState) (fuel L : Nat)
    (h : ∀ c ∈ childrenK s L, isItemK s c = true ∧
      ∃ tc, getFirstChildK s c = some tc ∧ isListK s tc = false) :
    getAllListItemsK s (fuel + 1) L = childrenK s L := by
  show (childrenK s L).flatMap _ = childrenK s L
  apply flatMap_singleton
  intro c hc
  obtain ⟨hitem, tc, hfc, htcl⟩ := h c hc
  simp [hitem, hfc, htcl]

/-- One `listNodes`-collection step on a leaf that resolves through its item
to the top list `L`. -/
theorem collectStep_resolves (s : EditorState) (acc : List Nat)
    (x i L : Nat) (hleaf : isLeafK s x = true)
    (hni : getNearestItemK s (s.nodes.length + 1) x = some i)
    (htop : getTopListNodeK s i = some L) :
    collectStep s acc x = if acc.contains L then acc else acc ++ [L] := by
  simp [collectStep, hleaf, hni, htop]

theorem collect_fold_const (s : EditorState) (L : Nat) :
    ∀ texts : List Nat,
      (∀ x ∈ texts, ∃ i, isLeafK s x = true ∧
        getNearestItemK s (s.nodes.length + 1) x = some i ∧
        getTopListNodeK s i = some L) →
      texts.foldl (collectStep s) [L] = [L]
  | [], _ => rfl
  | x :: texts, h => by
    obtain ⟨i, hleaf, hni, htop⟩ := h x (List.mem_cons_self _ _)
    rw [List.foldl_cons, collectStep_resolves s [L] x i L hleaf hni htop]
    have hcont : ([L] : List Nat).contains L = true := by simp
    rw [if_pos hcont]
    exact collect_fold_const s L texts
      (fun y hy => h y (List.mem_cons_of_mem _ hy))

/-- The `listNodes` set of `$removeList` on leaves that all resolve to the
same top list `L` is exactly `[L]`. -/
theorem collectListNodes_const (s : EditorState) (L : Nat)
    (texts : List Nat) (hne : texts ≠ [])
    (h : ∀ x ∈ texts, ∃ i, isLeafK s x = true ∧
      getNearestItemK s (s.nodes.length + 1) x = some i ∧
      getTopListNodeK s i = some L) :
    collectListNodes s texts = [L] := by
  cases texts with
  | nil => exact absurd rfl hne
  | cons x texts =>
    obtain ⟨i, hleaf, hni, htop⟩ := h x (List.mem_cons_self _ _)
    show (x :: texts).foldl (collectStep s) [] = [L]
    rw [List.foldl_cons, collectStep_resolves s [] x i L hleaf hni htop]
    have hcont : ¬(([] : List Nat).contains L = true) := by simp
    rw [if_neg hcont]
    exact collect_fold_const s L texts
      (fun y hy => h y (List.mem_cons_of_mem _ hy))

/-- The mid-`$removeList` unwrap shape: the processed items have become the
paragraphs `qs` sitting after the list `L` under the root, the items of
`rem` are still inside `L`, and `ip` is the moving insertion point (the
last element of `L :: qs`). -/
structure UnwrapInv (s : EditorState) (sel0 : RangeSel) (R L ip : Nat)
    (qs : List (Nat × Nat × String)) (rem : List (Nat × Nat × String)) :
    Prop where
  bound : ∀ q, s.nextKey ≤ q → s.get q = none
  keys : (R :: L :: (qs.map (fun q => q.1) ++ qs.map (fun q => q.2.1)
      ++ rem.map (fun r => r.1) ++ rem.map (fun r => r.2.1))).Nodup
  rootD : dataK s R = some .rootData
  rootP : parentK s R = none
  rootC : childrenK s R = L :: qs.map (fun q => q.1)
  ipSpec : ∃ A, L :: qs.map (fun q => q.1) = A ++ [ip]
  listP : parentK s L = some R
  listC : childrenK s L = rem.map (fun r => r.1)
  qD : ∀ q ∈ qs, dataK s q.1 = some .paragraphData
  qP : ∀ q ∈ qs, parentK s q.1 = some R
  qC : ∀ q ∈ qs, childrenK s q.1 = [q.2.1]
  qT : ∀ q ∈ qs, dataK s q.2.1 = some (.textData q.2.2)
  qTP : ∀ q ∈ qs, parentK s q.2.1 = some q.1
  remI : ∀ r ∈ rem, isItemK s r.1 = true
  remP : ∀ r ∈ rem, parentK s r.1 = some L
  remC : ∀ r ∈ rem, childrenK s r.1 = [r.2.1]
  remT : ∀ r ∈ rem, dataK s r.2.1 = some (.textData r.2.2)
  remTP : ∀ r ∈ rem, parentK s r.2.1 = some r.1
  selEq : s.selection = some sel0
  anchRem : sel0.anchor.key ∉ rem.map (fun r => r.1)
  focRem : sel0.focus.key ∉ rem.map (fun r => r.1)

/-- One `$removeList` unwrap iteration: the next Item of `L` is replaced by
a fresh paragraph carrying its text, inserted after the moving insertion
point; the insertion point advances to the new paragraph. -/
theorem unwrapStep (s : EditorState) (sel0 : RangeSel) (R L ip kJ t : Nat)
    (c : String) (qs rem : List (Nat × Nat × String))
    (selStyle : String) (selFmt : Nat)
    (hinv : UnwrapInv s sel0 R L ip qs ((kJ, t, c) :: rem)) :
    ∃ s2, unwrapListItem selStyle selFmt (s, ip) kJ = (s2, s.nextKey) ∧
      UnwrapInv s2 sel0 R L s.nextKey (qs ++ [(s.nextKey, t, c)]) rem := by
  have hbsem := hinv.bound
  have hkJi : isItemK s kJ = true :=
    hinv.remI (kJ, t, c) (List.mem_cons_self _ _)
  have hkJp : parentK s kJ = some L :=
    hinv.remP (kJ, t, c) (List.mem_cons_self _ _)
  have hkJc : childrenK s kJ = [t] :=
    hinv.remC (kJ, t, c) (List.mem_cons_self _ _)
  have htd : dataK s t = some (.textData c) :=
    hinv.remT (kJ, t, c) (List.mem_cons_self _ _)
  have htp : parentK s t = some kJ :=
    hinv.remTP (kJ, t, c) (List.mem_cons_self _ _)
  obtain ⟨nR, hRg, hnRd⟩ := get_of_dataK hinv.rootD
  obtain ⟨nt, htg, hntd⟩ := get_of_dataK htd
  obtain ⟨nL, hLg, hnLp⟩ := parentK_elim hinv.listP
  obtain ⟨nkJ, hkJg, hnkJp⟩ := parentK_elim hkJp
  have hkeys0 : (R :: L :: (qs.map (fun q => q.1) ++ qs.map (fun q => q.2.1)
      ++ (kJ :: rem.map (fun r => r.1))
      ++ (t :: rem.map (fun r => r.2.1)))).Nodup := hinv.keys
  obtain ⟨hRnm, hk1⟩ := List.nodup_cons.mp hkeys0
  obtain ⟨hLnm, hk2⟩ := List.nodup_cons.mp hk1
  obtain ⟨hk3, hTnd0, hd1⟩ := List.nodup_append.mp hk2
  obtain ⟨hk4, hRemNd0, hd2⟩ := List.nodup_append.mp hk3
  obtain ⟨hkJrem, hremInd⟩ := List.nodup_cons.mp hRemNd0
  obtain ⟨htremT, hremTnd⟩ := List.nodup_cons.mp hTnd0
  obtain ⟨hqsInd, hqsTnd, hd3⟩ := List.nodup_append.mp hk4
  have hRL : R ≠ L := fun h => hRnm (by simp [h])
  have hRkJ : R ≠ kJ := fun h => hRnm (by simp [h])
  have hRt : R ≠ t := fun h => hRnm (by simp [h])
  have hLkJ : L ≠ kJ := fun h => hLnm (by simp [h])
  have hLt : L ≠ t := fun h => hLnm (by simp [h])
  have hkJt : kJ ≠ t := fun h =>
    hd1 (List.mem_append_right _ (List.mem_cons_self _ _))
      (by rw [← h]; exact List.mem_cons_self _ _)
  have hltR : R < s.nextKey := key_lt_of_get_sem hbsem hRg
  have hltL : L < s.nextKey := key_lt_of_get_sem hbsem hLg
  have hltkJ : kJ < s.nextKey := key_lt_of_get_sem hbsem hkJg
  have hltt : t < s.nextKey := key_lt_of_get_sem hbsem htg
  have hltqI : ∀ x ∈ qs.map (fun q => q.1), x < s.nextKey := by
    intro x hx
    obtain ⟨q, hq, rfl⟩ := List.mem_map.mp hx
    obtain ⟨n, hn, _⟩ := get_of_dataK (hinv.qD q hq)
    exact key_lt_of_get_sem hbsem hn
  have hltqT : ∀ x ∈ qs.map (fun q => q.2.1), x < s.nextKey := by
    intro x hx
    obtain ⟨q, hq, rfl⟩ := List.mem_map.mp hx
    obtain ⟨n, hn, _⟩ := get_of_dataK (hinv.qT q hq)
    exact key_lt_of_get_sem hbsem hn
  have hltrI : ∀ x ∈ rem.map (fun r => r.1), x < s.nextKey := by
    intro x hx
    obtain ⟨r, hr, rfl⟩ := List.mem_map.mp hx
    obtain ⟨n, hn⟩ :=
      get_of_isItemK (hinv.remI r (List.mem_cons_of_mem _ hr))
    exact key_lt_of_get_sem hbsem hn
  have hltrT : ∀ x ∈ rem.map (fun r => r.2.1), x < s.nextKey := by
    intro x hx
    obtain ⟨r, hr, rfl⟩ := List.mem_map.mp hx
    obtain ⟨n, hn, _⟩ :=
      get_of_dataK (hinv.remT r (List.mem_cons_of_mem _ hr))
    exact key_lt_of_get_sem hbsem hn
  obtain ⟨A, hA⟩ := hinv.ipSpec
  have hipmem : ip ∈ L :: qs.map (fun q => q.1) := by
    rw [hA]
    exact List.mem_append_right _ (List.mem_singleton.mpr rfl)
  have hipPar : parentK s ip = some R := by
    rcases List.mem_cons.mp hipmem with rfl | hip
    · exact hinv.listP
    · obtain ⟨q, hq, rfl⟩ := List.mem_map.mp hip
      exact hinv.qP q hq
  obtain ⟨nip, hipg, hnipp⟩ := parentK_elim hipPar
  have hltip : ip < s.nextKey := key_lt_of_get_sem hbsem hipg
  have hipkJ : ip ≠ kJ := by
    rcases List.mem_cons.mp hipmem with rfl | hip
    · exact hLkJ
    · intro h
      exact hd2 (List.mem_append_left _ hip)
        (by rw [← h]; exact List.mem_cons_self _ _)
  have hipt : ip ≠ t := by
    rcases List.mem_cons.mp hipmem with rfl | hip
    · exact hLt
    · intro h
      exact hd1 (List.mem_append_left _ (List.mem_append_left _ hip))
        (by rw [← h]; exact List.mem_cons_self _ _)
  have hLqsnd : (L :: qs.map (fun q => q.1)).Nodup := by
    refine List.nodup_cons.mpr ⟨?_, hqsInd⟩
    intro h
    exact hLnm (by simp [List.mem_append, h])
  have hipA : ip ∉ A := by
    rw [hA] at hLqsnd
    obtain ⟨_, _, hdisjA⟩ := List.nodup_append.mp hLqsnd
    exact fun h => hdisjA h (List.mem_singleton.mpr rfl)
  have hQ : (createParagraphK s).2 = s.nextKey := rfl
  have hT1Q : ((createParagraphK s).1).get s.nextKey = some { data := NodeData.paragraphData } := by
    unfold createParagraphK
    exact get_alloc_self s _
  have hT1x : ∀ x, x ≠ s.nextKey → ((createParagraphK s).1).get x = s.get x :=
    fun x hx => by
      unfold createParagraphK
      exact get_alloc_ne s _ hx
  have hT2Q : ((setTextStyleK (createParagraphK s).1 s.nextKey selStyle)).get s.nextKey = some { data := NodeData.paragraphData, textStyle := selStyle } := by
    rw [setTextStyleK_get_self _ _ _ _ hT1Q]
  have hT3Q : ((setTextFormatK (setTextStyleK (createParagraphK s).1 s.nextKey selStyle) s.nextKey selFmt)).get s.nextKey = some { data := NodeData.paragraphData, textFormat := selFmt, textStyle := selStyle } := by
    rw [setTextFormatK_get_self _ _ _ _ hT2Q]
  have hT3x : ∀ x, x ≠ s.nextKey → ((setTextFormatK (setTextStyleK (createParagraphK s).1 s.nextKey selStyle) s.nextKey selFmt)).get x = s.get x :=
    fun x hx => by
      rw [setTextFormatK_get_ne _ _ _ hx, setTextStyleK_get_ne _ _ _ hx,
        hT1x x hx]
  have hnkJc : nkJ.children = [t] := by
    rw [← childrenK_of_get hkJg]
    exact hkJc
  have hc3 : childrenK (setTextFormatK (setTextStyleK (createParagraphK s).1 s.nextKey selStyle) s.nextKey selFmt) kJ = [t] := by
    rw [childrenK_congr_get (hT3x kJ (Nat.ne_of_lt hltkJ))]
    exact hkJc
  obtain ⟨m1, m2, m3, m4⟩ :=
    appendManyK_move s.nextKey kJ (Ne.symm (Nat.ne_of_lt hltkJ)) [t] (setTextFormatK (setTextStyleK (createParagraphK s).1 s.nextKey selStyle) s.nextKey selFmt)
      { data := NodeData.paragraphData, textFormat := selFmt, textStyle := selStyle } nkJ hT3Q
      (by rw [hT3x kJ (Nat.ne_of_lt hltkJ)]; exact hkJg) hnkJc (by simp)
      (fun h => Nat.ne_of_lt hltt (List.mem_singleton.mp h).symm)
      (fun h => hkJt (List.mem_singleton.mp h))
      (fun y hy => by
        rw [List.mem_singleton.mp hy]
        refine ⟨nt, ?_, ?_⟩
        · rw [hT3x t (Nat.ne_of_lt hltt)]
          exact htg
        · rw [← parentK_of_get htg]
          exact htp)
  have m1a : ((appendManyK (setTextFormatK (setTextStyleK (createParagraphK s).1 s.nextKey selStyle) s.nextKey selFmt) s.nextKey [t])).get s.nextKey = some { data := NodeData.paragraphData, children := [t], textFormat := selFmt, textStyle := selStyle } := by
    rw [m1]
    rfl
  have hT4ip : ((appendManyK (setTextFormatK (setTextStyleK (createParagraphK s).1 s.nextKey selStyle) s.nextKey selFmt) s.nextKey [t])).get ip = some nip := by
    rw [m4 ip (Nat.ne_of_lt hltip) hipkJ
      (fun h => hipt (List.mem_singleton.mp h)),
      hT3x ip (Nat.ne_of_lt hltip)]
    exact hipg
  have hT4R : ((appendManyK (setTextFormatK (setTextStyleK (createParagraphK s).1 s.nextKey selStyle) s.nextKey selFmt) s.nextKey [t])).get R = some nR := by
    rw [m4 R (Nat.ne_of_lt hltR) hRkJ
      (fun h => hRt (List.mem_singleton.mp h)), hT3x R (Nat.ne_of_lt hltR)]
    exact hRg
  obtain ⟨i1, i2, i3⟩ :=
    insertAfterK_get_detached (appendManyK (setTextFormatK (setTextStyleK (createParagraphK s).1 s.nextKey selStyle) s.nextKey selFmt) s.nextKey [t]) ip s.nextKey R nip nR { data := NodeData.paragraphData, children := [t], textFormat := selFmt, textStyle := selStyle }
      hT4ip hnipp hT4R m1a rfl (Ne.symm (Nat.ne_of_lt hltR))
  have i2' : ((insertAfterK (appendManyK (setTextFormatK (setTextStyleK (createParagraphK s).1 s.nextKey selStyle) s.nextKey selFmt) s.nextKey [t]) ip s.nextKey)).get s.nextKey = some { data := NodeData.paragraphData, parent := some R, children := [t], textFormat := selFmt, textStyle := selStyle } := by
    rw [i2]
  have hT6kJ : ((rebasePointIfItem (insertAfterK (appendManyK (setTextFormatK (setTextStyleK (createParagraphK s).1 s.nextKey selStyle) s.nextKey selFmt) s.nextKey [t]) ip s.nextKey) kJ s.nextKey)).get kJ = some { nkJ with children := [] } := by
    rw [rebasePointIfItem_get, i3 kJ (Ne.symm hRkJ) (Nat.ne_of_lt hltkJ)]
    exact m2
  have hT6L : ((rebasePointIfItem (insertAfterK (appendManyK (setTextFormatK (setTextStyleK (createParagraphK s).1 s.nextKey selStyle) s.nextKey selFmt) s.nextKey [t]) ip s.nextKey) kJ s.nextKey)).get L = some nL := by
    rw [rebasePointIfItem_get, i3 L (Ne.symm hRL) (Nat.ne_of_lt hltL),
      m4 L (Nat.ne_of_lt hltL) hLkJ (fun h => hLt (List.mem_singleton.mp h)),
      hT3x L (Nat.ne_of_lt hltL)]
    exact hLg
  obtain ⟨d1, d2, d3⟩ :=
    detach_get (rebasePointIfItem (insertAfterK (appendManyK (setTextFormatK (setTextStyleK (createParagraphK s).1 s.nextKey selStyle) s.nextKey selFmt) s.nextKey [t]) ip s.nextKey) kJ s.nextKey) kJ L { nkJ with children := [] } nL hT6kJ hnkJp hT6L
      (Ne.symm hLkJ)
  have hrem : ∀ (st : EditorState) (k : Nat), removeK st k = detach st k :=
    fun _ _ => rfl
  have hrun : unwrapListItem selStyle selFmt (s, ip) kJ
      = ((removeK (rebasePointIfItem (insertAfterK (appendManyK (setTextFormatK (setTextStyleK (createParagraphK s).1 s.nextKey selStyle) s.nextKey selFmt) s.nextKey [t]) ip s.nextKey) kJ s.nextKey) kJ), s.nextKey) := by
    simp only [unwrapListItem, hQ, hc3]
  have hfr : ∀ x, x ≠ s.nextKey → x ≠ kJ → x ≠ t → x ≠ R → x ≠ L →
      ((removeK (rebasePointIfItem (insertAfterK (appendManyK (setTextFormatK (setTextStyleK (createParagraphK s).1 s.nextKey selStyle) s.nextKey selFmt) s.nextKey [t]) ip s.nextKey) kJ s.nextKey) kJ)).get x = s.get x := by
    intro x h1 h2 h3 h4 h5
    rw [hrem, d3 x h2 h5, rebasePointIfItem_get, i3 x h4 h1,
      m4 x h1 h2 (fun hm => h3 (List.mem_singleton.mp hm)), hT3x x h1]
  have hnk : ((removeK (rebasePointIfItem (insertAfterK (appendManyK (setTextFormatK (setTextStyleK (createParagraphK s).1 s.nextKey selStyle) s.nextKey selFmt) s.nextKey [t]) ip s.nextKey) kJ s.nextKey) kJ)).nextKey = s.nextKey + 1 := by
    rw [hrem, detach_nextKey, rebasePointIfItem_nextKey,
      insertAfterK_nextKey, appendManyK_nextKey, setTextFormatK_nextKey,
      setTextStyleK_nextKey]
    rfl
  have hT7R : ((removeK (rebasePointIfItem (insertAfterK (appendManyK (setTextFormatK (setTextStyleK (createParagraphK s).1 s.nextKey selStyle) s.nextKey selFmt) s.nextKey [t]) ip s.nextKey) kJ s.nextKey) kJ)).get R
      = some { nR with children := insertAfterList nR.children ip s.nextKey } := by
    rw [hrem, d3 R hRkJ hRL, rebasePointIfItem_get]
    exact i1
  have hnRc : nR.children = L :: qs.map (fun q => q.1) := by
    rw [← childrenK_of_get hRg]
    exact hinv.rootC
  have hnRp : nR.parent = none := by
    rw [← parentK_of_get hRg]
    exact hinv.rootP
  have hT7Q : ((removeK (rebasePointIfItem (insertAfterK (appendManyK (setTextFormatK (setTextStyleK (createParagraphK s).1 s.nextKey selStyle) s.nextKey selFmt) s.nextKey [t]) ip s.nextKey) kJ s.nextKey) kJ)).get s.nextKey = some { data := NodeData.paragraphData, parent := some R, children := [t], textFormat := selFmt, textStyle := selStyle } := by
    rw [hrem, d3 s.nextKey (Ne.symm (Nat.ne_of_lt hltkJ))
      (Ne.symm (Nat.ne_of_lt hltL)), rebasePointIfItem_get]
    exact i2'
  have hT7t : ((removeK (rebasePointIfItem (insertAfterK (appendManyK (setTextFormatK (setTextStyleK (createParagraphK s).1 s.nextKey selStyle) s.nextKey selFmt) s.nextKey [t]) ip s.nextKey) kJ s.nextKey) kJ)).get t = some { nt with parent := some s.nextKey } := by
    obtain ⟨ny, hny3, hny4⟩ := m3 t (List.mem_singleton.mpr rfl)
    rw [hT3x t (Nat.ne_of_lt hltt), htg] at hny3
    rw [hrem, d3 t (Ne.symm hkJt) (Ne.symm hLt), rebasePointIfItem_get,
      i3 t (Ne.symm hRt) (Nat.ne_of_lt hltt), hny4,
      Option.some.inj hny3]
  have hanchkJ : sel0.anchor.key ≠ kJ := fun h =>
    hinv.anchRem (by rw [h]; exact List.mem_cons_self _ _)
  have hfockJ : sel0.focus.key ≠ kJ := fun h =>
    hinv.focRem (by rw [h]; exact List.mem_cons_self _ _)
  refine ⟨_, hrun, ?_, ?_, ?_, ?_, ?_, ?_, ?_, ?_, ?_, ?_, ?_, ?_, ?_, ?_,
    ?_, ?_, ?_, ?_, ?_, ?_, ?_⟩
  · intro q hq
    rw [hnk] at hq
    rw [hfr q (by omega) (by omega) (by omega) (by omega) (by omega)]
    exact hbsem q (by omega)
  · have hmlt : ∀ x ∈ R :: L :: (qs.map (fun q => q.1)
        ++ qs.map (fun q => q.2.1) ++ (kJ :: rem.map (fun r => r.1))
        ++ (t :: rem.map (fun r => r.2.1))), x < s.nextKey := by
      intro x hx
      rcases List.mem_cons.mp hx with rfl | hx
      · exact hltR
      rcases List.mem_cons.mp hx with rfl | hx
      · exact hltL
      rcases List.mem_append.mp hx with hx | hx
      · rcases List.mem_append.mp hx with hx | hx
        · rcases List.mem_append.mp hx with hx | hx
          · exact hltqI x hx
          · exact hltqT x hx
        · rcases List.mem_cons.mp hx with rfl | hx
          · exact hltkJ
          · exact hltrI x hx
      · rcases List.mem_cons.mp hx with rfl | hx
        · exact hltt
        · exact hltrT x hx
    have hnd := nodup_move R L s.nextKey kJ t (qs.map (fun q => q.1))
      (qs.map (fun q => q.2.1)) (rem.map (fun r => r.1))
      (rem.map (fun r => r.2.1)) hkeys0
      (fun h => by have := hmlt _ h; omega)
    simpa [List.map_append] using hnd
  · unfold dataK
    rw [hT7R]
    show some nR.data = some NodeData.rootData
    rw [hnRd]
  · rw [parentK_of_get hT7R]
    exact hnRp
  · rw [childrenK_of_get hT7R]
    show insertAfterList nR.children ip s.nextKey = _
    rw [hnRc, hA, insertAfterList_adj A [] ip s.nextKey hipA]
    have : A ++ ip :: s.nextKey :: [] = (A ++ [ip]) ++ [s.nextKey] := by
      simp
    rw [this, ← hA]
    simp [List.map_append]
  · exact ⟨L :: qs.map (fun q => q.1), by simp [List.map_append]⟩
  · rw [hrem, parentK_of_get d2]
    exact hnLp
  · rw [hrem, childrenK_of_get d2]
    show nL.children.filter (fun c => c ≠ kJ) = _
    have hnLc : nL.children = kJ :: rem.map (fun r => r.1) := by
      rw [← childrenK_of_get hLg]
      exact hinv.listC
    rw [hnLc]
    exact filter_ne_head [] (rem.map (fun r => r.1)) kJ (by simp) hkJrem
  · intro q hq
    rcases List.mem_append.mp hq with hq | hq
    · have hq1 : q.1 ∈ qs.map (fun q => q.1) := List.mem_map_of_mem _ hq
      have hlt1 := hltqI q.1 hq1
      rw [dataK_congr_get (hfr q.1 (by omega) ?_ ?_ ?_ ?_)]
      · exact hinv.qD q hq
      · intro h
        exact hd2 (List.mem_append_left _ hq1)
          (by rw [← h]; exact List.mem_cons_self _ _)
      · intro h
        exact hd1 (List.mem_append_left _ (List.mem_append_left _ hq1))
          (by rw [← h]; exact List.mem_cons_self _ _)
      · exact fun h => hRnm (by simp [List.mem_append, List.mem_cons, h ▸ hq1])
      · exact fun h => hLnm (by simp [List.mem_append, List.mem_cons, h ▸ hq1])
    · rcases List.mem_singleton.mp hq with rfl
      unfold dataK
      rw [hT7Q]
      rfl
  · intro q hq
    rcases List.mem_append.mp hq with hq | hq
    · have hq1 : q.1 ∈ qs.map (fun q => q.1) := List.mem_map_of_mem _ hq
      have hlt1 := hltqI q.1 hq1
      rw [parentK_congr_get (hfr q.1 (by omega) ?_ ?_ ?_ ?_)]
      · exact hinv.qP q hq
      · intro h
        exact hd2 (List.mem_append_left _ hq1)
          (by rw [← h]; exact List.mem_cons_self _ _)
      · intro h
        exact hd1 (List.mem_append_left _ (List.mem_append_left _ hq1))
          (by rw [← h]; exact List.mem_cons_self _ _)
      · exact fun h => hRnm (by simp [List.mem_append, List.mem_cons, h ▸ hq1])
      · exact fun h => hLnm (by simp [List.mem_append, List.mem_cons, h ▸ hq1])
    · rcases List.mem_singleton.mp hq with rfl
      rw [parentK_of_get hT7Q]
  · intro q hq
    rcases List.mem_append.mp hq with hq | hq
    · have hq1 : q.1 ∈ qs.map (fun q => q.1) := List.mem_map_of_mem _ hq
      have hlt1 := hltqI q.1 hq1
      rw [childrenK_congr_get (hfr q.1 (by omega) ?_ ?_ ?_ ?_)]
      · exact hinv.qC q hq
      · intro h
        exact hd2 (List.mem_append_left _ hq1)
          (by rw [← h]; exact List.mem_cons_self _ _)
      · intro h
        exact hd1 (List.mem_append_left _ (List.mem_append_left _ hq1))
          (by rw [← h]; exact List.mem_cons_self _ _)
      · exact fun h => hRnm (by simp [List.mem_append, List.mem_cons, h ▸ hq1])
      · exact fun h => hLnm (by simp [List.mem_append, List.mem_cons, h ▸ hq1])
    · rcases List.mem_singleton.mp hq with rfl
      rw [childrenK_of_get hT7Q]
  · intro q hq
    rcases List.mem_append.mp hq with hq | hq
    · have hq2 : q.2.1 ∈ qs.map (fun q => q.2.1) := List.mem_map_of_mem _ hq
      have hlt2 := hltqT q.2.1 hq2
      rw [dataK_congr_get (hfr q.2.1 (by omega) ?_ ?_ ?_ ?_)]
      · exact hinv.qT q hq
      · intro h
        exact hd2 (List.mem_append_right _ hq2)
          (by rw [← h]; exact List.mem_cons_self _ _)
      · intro h
        exact hd1 (List.mem_append_left _ (List.mem_append_right _ hq2))
          (by rw [← h]; exact List.mem_cons_self _ _)
      · exact fun h => hRnm (by simp [List.mem_append, List.mem_cons, h ▸ hq2])
      · exact fun h => hLnm (by simp [List.mem_append, List.mem_cons, h ▸ hq2])
    · rcases List.mem_singleton.mp hq with rfl
      unfold dataK
      rw [hT7t]
      show some nt.data = _
      rw [hntd]
  · intro q hq
    rcases List.mem_append.mp hq with hq | hq
    · have hq2 : q.2.1 ∈ qs.map (fun q => q.2.1) := List.mem_map_of_mem _ hq
      have hlt2 := hltqT q.2.1 hq2
      rw [parentK_congr_get (hfr q.2.1 (by omega) ?_ ?_ ?_ ?_)]
      · exact hinv.qTP q hq
      · intro h
        exact hd2 (List.mem_append_right _ hq2)
          (by rw [← h]; exact List.mem_cons_self _ _)
      · intro h
        exact hd1 (List.mem_append_left _ (List.mem_append_right _ hq2))
          (by rw [← h]; exact List.mem_cons_self _ _)
      · exact fun h => hRnm (by simp [List.mem_append, List.mem_cons, h ▸ hq2])
      · exact fun h => hLnm (by simp [List.mem_append, List.mem_cons, h ▸ hq2])
    · rcases List.mem_singleton.mp hq with rfl
      rw [parentK_of_get hT7t]
  · intro r hr
    have hr1 : r.1 ∈ rem.map (fun r => r.1) := List.mem_map_of_mem _ hr
    have hlt1 := hltrI r.1 hr1
    rw [isItemK_congr_get (hfr r.1 (by omega) (fun h => hkJrem (h ▸ hr1)) ?_
      ?_ ?_)]
    · exact hinv.remI r (List.mem_cons_of_mem _ hr)
    · intro h
      exact hd1 (List.mem_append_right _ (List.mem_cons_of_mem _ hr1))
        (by rw [← h]; exact List.mem_cons_self _ _)
    · exact fun h => hRnm (by
        simp [List.mem_append, List.mem_cons, h ▸ hr1])
    · exact fun h => hLnm (by
        simp [List.mem_append, List.mem_cons, h ▸ hr1])
  · intro r hr
    have hr1 : r.1 ∈ rem.map (fun r => r.1) := List.mem_map_of_mem _ hr
    have hlt1 := hltrI r.1 hr1
    rw [parentK_congr_get (hfr r.1 (by omega) (fun h => hkJrem (h ▸ hr1)) ?_
      ?_ ?_)]
    · exact hinv.remP r (List.mem_cons_of_mem _ hr)
    · intro h
      exact hd1 (List.mem_append_right _ (List.mem_cons_of_mem _ hr1))
        (by rw [← h]; exact List.mem_cons_self _ _)
    · exact fun h => hRnm (by
        simp [List.mem_append, List.mem_cons, h ▸ hr1])
    · exact fun h => hLnm (by
        simp [List.mem_append, List.mem_cons, h ▸ hr1])
  · intro r hr
    have hr1 : r.1 ∈ rem.map (fun r => r.1) := List.mem_map_of_mem _ hr
    have hlt1 := hltrI r.1 hr1
    rw [childrenK_congr_get (hfr r.1 (by omega) (fun h => hkJrem (h ▸ hr1))
      ?_ ?_ ?_)]
    · exact hinv.remC r (List.mem_cons_of_mem _ hr)
    · intro h
      exact hd1 (List.mem_append_right _ (List.mem_cons_of_mem _ hr1))
        (by rw [← h]; exact List.mem_cons_self _ _)
    · exact fun h => hRnm (by
        simp [List.mem_append, List.mem_cons, h ▸ hr1])
    · exact fun h => hLnm (by
        simp [List.mem_append, List.mem_cons, h ▸ hr1])
  · intro r hr
    have hr2 : r.2.1 ∈ rem.map (fun r => r.2.1) := List.mem_map_of_mem _ hr
    have hlt2 := hltrT r.2.1 hr2
    rw [dataK_congr_get (hfr r.2.1 (by omega) ?_
      (fun h => htremT (h ▸ hr2)) ?_ ?_)]
    · exact hinv.remT r (List.mem_cons_of_mem _ hr)
    · intro h
      exact hd1 (List.mem_append_right _
        (by rw [← h]; exact List.mem_cons_self _ _))
        (List.mem_cons_of_mem _ hr2)
    · exact fun h => hRnm (by
        simp [List.mem_append, List.mem_cons, h ▸ hr2])
    · exact fun h => hLnm (by
        simp [List.mem_append, List.mem_cons, h ▸ hr2])
  · intro r hr
    have hr2 : r.2.1 ∈ rem.map (fun r => r.2.1) := List.mem_map_of_mem _ hr
    have hlt2 := hltrT r.2.1 hr2
    rw [parentK_congr_get (hfr r.2.1 (by omega) ?_
      (fun h => htremT (h ▸ hr2)) ?_ ?_)]
    · exact hinv.remTP r (List.mem_cons_of_mem _ hr)
    · intro h
      exact hd1 (List.mem_append_right _
        (by rw [← h]; exact List.mem_cons_self _ _))
        (List.mem_cons_of_mem _ hr2)
    · exact fun h => hRnm (by
        simp [List.mem_append, List.mem_cons, h ▸ hr2])
    · exact fun h => hLnm (by
        simp [List.mem_append, List.mem_cons, h ▸ hr2])
  · rw [hrem, detach_selection,
      rebasePointIfItem_selection_ne _ _ _ sel0 ?_ hanchkJ hfockJ]
    rw [insertAfterK_selection, appendManyK_selection,
      setTextFormatK_selection, setTextStyleK_selection]
    show ((createParagraphK s).1).selection = some sel0
    unfold createParagraphK
    rw [alloc_selection]
    exact hinv.selEq
  · exact fun h => hinv.anchRem (List.mem_cons_of_mem _ h)
  · exact fun h => hinv.focRem (List.mem_cons_of_mem _ h)

/-- Folding the unwrap body over all remaining items of `L` turns each into
a paragraph after `L`, in order. -/
theorem unwrapFold (sel0 : RangeSel) (R L : Nat) (selStyle : String)
    (selFmt : Nat) :
    ∀ (rem : List (Nat × Nat × String)) (s : EditorState) (ip : Nat)
      (qs : List (Nat × Nat × String)),
      UnwrapInv s sel0 R L ip qs rem →
      ∃ s' ip' qs',
        (rem.map (fun r => r.1)).foldl (unwrapListItem selStyle selFmt)
          (s, ip) = (s', ip') ∧
        UnwrapInv s' sel0 R L ip' qs' [] ∧
        qs'.map (fun q => q.2) = qs.map (fun q => q.2)
          ++ rem.map (fun r => r.2)
  | [], s, ip, qs, hinv => ⟨s, ip, qs, rfl, hinv, by simp⟩
  | (kJ, t, c) :: rem, s, ip, qs, hinv => by
    obtain ⟨s2, hstep, hinv2⟩ :=
      unwrapStep s sel0 R L ip kJ t c qs rem selStyle selFmt hinv
    obtain ⟨s', ip', qs', hfold, hinv', hmap⟩ :=
      unwrapFold sel0 R L selStyle selFmt rem s2 s.nextKey
        (qs ++ [(s.nextKey, t, c)]) hinv2
    refine ⟨s', ip', qs', ?_, hinv', ?_⟩
    · rw [List.map_cons, List.foldl_cons, hstep]
      exact hfold
    · rw [hmap]
      simp

/-- `$removeList`'s outer body on the single flat bullet list `L`: every
item is unwrapped into a paragraph and `L` itself is removed. -/
theorem removeListNode_flat (s : EditorState) (sel0 : RangeSel) (R L : Nat)
    (done : List (Nat × Nat × String)) (selStyle : String) (selFmt : Nat)
    (hinv : UnwrapInv s sel0 R L L [] done) :
    ∃ (s2 : EditorState) (qs' : List (Nat × Nat × String)),
      removeListNode selStyle selFmt s L = s2 ∧
      childrenK s2 R = qs'.map (fun q => q.1) ∧
      (∀ q ∈ qs', dataK s2 q.1 = some .paragraphData ∧
        childrenK s2 q.1 = [q.2.1] ∧
        dataK s2 q.2.1 = some (.textData q.2.2)) ∧
      qs'.map (fun q => q.2) = done.map (fun d => d.2) := by
  have hLc := hinv.listC
  have hitems : getAllListItemsK s (s.nodes.length + 1) L
      = done.map (fun d => d.1) := by
    rw [getAllListItems_flat s s.nodes.length L ?_, hLc]
    intro ch hc
    rw [hLc] at hc
    obtain ⟨d, hd, rfl⟩ := List.mem_map.mp hc
    refine ⟨hinv.remI d hd, d.2.1, ?_, ?_⟩
    · unfold getFirstChildK
      rw [hinv.remC d hd]
      rfl
    · simp [isListK, hinv.remT d hd]
  obtain ⟨s', ip', qs', hfold, hinv', hmap⟩ :=
    unwrapFold sel0 R L selStyle selFmt done s L [] hinv
  have hrun : removeListNode selStyle selFmt s L = removeK s' L := by
    simp only [removeListNode, hitems, hfold]
  obtain ⟨nL', hLg', hnLp'⟩ := parentK_elim hinv'.listP
  obtain ⟨nR', hRg', hnRd'⟩ := get_of_dataK hinv'.rootD
  have hkeys' : (R :: L :: (qs'.map (fun q => q.1)
      ++ qs'.map (fun q => q.2.1) ++ [] ++ [])).Nodup := hinv'.keys
  obtain ⟨hRnm', hk1'⟩ := List.nodup_cons.mp hkeys'
  obtain ⟨hLnm', hk2'⟩ := List.nodup_cons.mp hk1'
  have hLR' : L ≠ R := fun h => hRnm' (by simp [h])
  have hLqs' : L ∉ qs'.map (fun q => q.1) := fun h =>
    hLnm' (by simp [List.mem_append, h])
  obtain ⟨f1, f2, f3⟩ := detach_get s' L R nL' nR' hLg' hnLp' hRg' hLR'
  have hrem : ∀ (st : EditorState) (k : Nat), removeK st k = detach st k :=
    fun _ _ => rfl
  have hnR'c : nR'.children = L :: qs'.map (fun q => q.1) := by
    rw [← childrenK_of_get hRg']
    exact hinv'.rootC
  refine ⟨removeK s' L, qs', hrun, ?_, ?_, by simpa using hmap⟩
  · rw [hrem, childrenK_of_get f2]
    show nR'.children.filter (fun c => c ≠ L) = _
    rw [hnR'c]
    exact filter_ne_head [] (qs'.map (fun q => q.1)) L (by simp) hLqs'
  · intro q hq
    have hq1 : q.1 ∈ qs'.map (fun q => q.1) := List.mem_map_of_mem _ hq
    have hq2 : q.2.1 ∈ qs'.map (fun q => q.2.1) := List.mem_map_of_mem _ hq
    have h1L : q.1 ≠ L := fun h => hLnm' (by simp [List.mem_append, h ▸ hq1])
    have h1R : q.1 ≠ R := fun h =>
      hRnm' (by simp [List.mem_append, List.mem_cons, h ▸ hq1])
    have h2L : q.2.1 ≠ L := fun h =>
      hLnm' (by simp [List.mem_append, h ▸ hq2])
    have h2R : q.2.1 ≠ R := fun h =>
      hRnm' (by simp [List.mem_append, List.mem_cons, h ▸ hq2])
    refine ⟨?_, ?_, ?_⟩
    · rw [hrem, dataK_congr_get (f3 q.1 h1L h1R)]
      exact hinv'.qD q hq
    · rw [hrem, childrenK_congr_get (f3 q.1 h1L h1R)]
      exact hinv'.qC q hq
    · rw [hrem, dataK_congr_get (f3 q.2.1 h2L h2R)]
      exact hinv'.qT q hq

/-- C1: For every selection covering a sequence of flat (non-list) sibling
blocks, running `$insertList(kind)` followed by `$removeList()` restores the
original flat block sequence's text content and order exactly: the
resulting top-level blocks carry the same text contents in the same order
as before `$insertList`. -/
theorem c1_insert_remove_roundtrip (s : EditorState) (sel0 : RangeSel)
    (R : Nat) (blocks : List (Nat × Nat × String))
    (hflat : FlatInv s sel0 R blocks)
    (hrange : sel0.isRange = true)
    (hnodes : sel0.selNodes = blocks.map (fun b => b.2.1))
    (hanch : sel0.anchor.key ∈ blocks.map (fun b => b.2.1))
    (hfoc : sel0.focus.key ∈ blocks.map (fun b => b.2.1)) :
    ∃ s1, insertList s ListType.bullet = some s1 ∧
      (childrenK (removeList s1) R).map
        (fun p => (childrenK (removeList s1) p).map (dataK (removeList s1)))
      = blocks.map (fun b => [some (NodeData.textData b.2.2)]) := by
  have hstart : sel0.startPoint.key ∈ blocks.map (fun b => b.2.1) := by
    unfold RangeSel.startPoint
    split
    · exact hfoc
    · exact hanch
  obtain ⟨s1, L, done, hins, hIns, hmap⟩ :=
    insertList_flat s sel0 R blocks hflat hrange hnodes hstart
  have hmap1 : done.map (fun d => d.2.1) = blocks.map (fun b => b.2.1) := by
    have := congrArg (List.map (fun p : Nat × String => p.1)) hmap
    simpa [List.map_map, Function.comp] using this
  have hU : UnwrapInv s1 sel0 R L L [] done :=
    { bound := hIns.bound
      keys := by simpa using hIns.keys
      rootD := hIns.rootD
      rootP := hIns.rootP
      rootC := by simpa using hIns.rootC
      ipSpec := ⟨[], by simp⟩
      listP := hIns.listP
      listC := hIns.listC
      qD := by intro q hq; exact absurd hq (List.not_mem_nil q)
      qP := by intro q hq; exact absurd hq (List.not_mem_nil q)
      qC := by intro q hq; exact absurd hq (List.not_mem_nil q)
      qT := by intro q hq; exact absurd hq (List.not_mem_nil q)
      qTP := by intro q hq; exact absurd hq (List.not_mem_nil q)
      remI := hIns.itemD
      remP := hIns.itemP
      remC := hIns.itemC
      remT := hIns.doneT
      remTP := hIns.doneTP
      selEq := hIns.selEq
      anchRem := hIns.anchItems
      focRem := hIns.focItems }
  obtain ⟨nR1, hRg1, hnRd1⟩ := get_of_dataK hIns.rootD
  obtain ⟨nL1, hLg1, _⟩ := get_of_dataK hIns.listD
  have hkeys1 : (R :: L :: (done.map (fun d => d.1)
      ++ done.map (fun d => d.2.1) ++ [] ++ [])).Nodup := hIns.keys
  obtain ⟨hRnm1, hk11⟩ := List.nodup_cons.mp hkeys1
  have hRL1 : R ≠ L := fun h => hRnm1 (by simp [h])
  have hlen2 : 2 ≤ s1.nodes.length := two_le_nodes_length hRg1 hLg1 hRL1
  have hnodes1 : sel0.selNodes = done.map (fun d => d.2.1) := by
    rw [hnodes, ← hmap1]
  have hanchD : ∃ d ∈ done, sel0.anchor.key = d.2.1 := by
    have hmem : sel0.anchor.key ∈ done.map (fun d => d.2.1) := by
      rw [hmap1]; exact hanch
    obtain ⟨d, hd, hdeq⟩ := List.mem_map.mp hmem
    exact ⟨d, hd, hdeq.symm⟩
  obtain ⟨dA, hdA, hdAeq⟩ := hanchD
  have hanchT : dataK s1 sel0.anchor.key = some (.textData dA.2.2) := by
    rw [hdAeq]; exact hIns.doneT dA hdA
  have hempty1 : isSelectingEmptyListItemK s1 sel0.anchor.key sel0.selNodes
      = false := by
    unfold isSelectingEmptyListItemK
    rw [isItemK_false_of_dataK_text hanchT]
    rfl
  have hres : ∀ x ∈ done.map (fun d => d.2.1), ∃ i, isLeafK s1 x = true ∧
      getNearestItemK s1 (s1.nodes.length + 1) x = some i ∧
      getTopListNodeK s1 i = some L := by
    intro x hx
    obtain ⟨d, hd, rfl⟩ := List.mem_map.mp hx
    refine ⟨d.1, isLeafK_of_dataK (hIns.doneT d hd), ?_, ?_⟩
    · exact getNearestItemK_step s1 (s1.nodes.length + 1) d.2.1 d.1
        (by omega)
        (isItemK_false_of_dataK_text (hIns.doneT d hd))
        (hIns.doneTP d hd) (hIns.itemD d hd)
    · exact getTopListNode_direct s1 d.1 L R (hIns.itemP d hd)
        (by simp [isListK, hIns.listD]) hIns.listP
        (by simp [isListK, hIns.rootD]) hIns.rootP hlen2
  have hcollect : collectListNodes s1 (done.map (fun d => d.2.1)) = [L] :=
    collectListNodes_const s1 L _
      (by
        intro h
        rw [hmap1] at h
        rw [h] at hanch
        exact absurd hanch (List.not_mem_nil _)) hres
  obtain ⟨s2, qs', hrmn, hrootC2, hqfacts, hq2⟩ :=
    removeListNode_flat s1 sel0 R L done sel0.style sel0.fmt hU
  have hrl : removeList s1 = s2 := by
    simp only [removeList, hIns.selEq, hrange, if_true, hempty1,
      Bool.false_eq_true, if_false, eq_self_iff_true]
    rw [hnodes1, hcollect]
    simp only [List.foldl_cons, List.foldl_nil]
    exact hrmn
  refine ⟨s1, hins, ?_⟩
  rw [hrl, hrootC2, List.map_map]
  have hptwise : ∀ q ∈ qs',
      ((fun p => (childrenK s2 p).map (dataK s2)) ∘ fun q => q.1) q
        = [some (NodeData.textData q.2.2)] := by
    intro q hq
    obtain ⟨_, hqc, hqt⟩ := hqfacts q hq
    show (childrenK s2 q.1).map (dataK s2) = _
    rw [hqc]
    simp [hqt]
  rw [List.map_congr_left hptwise]
  have hfin := congrArg (List.map (fun p : Nat × String =>
    [some (NodeData.textData p.2)])) (hq2.trans hmap)
  simpa [List.map_map, Function.comp] using hfin

/-- Witness selection for C1: a forward range over the two texts. -/
def c1WitSel : RangeSel :=
  { anchor := { key := 2, offset := 0, isElement := false }
    focus := { key := 4, offset := 1, isElement := false }
    selNodes := [2, 4] }

/-- Witness state for C1: root `0` holding two flat paragraphs `1` and `3`
with texts `2` ("a") and `4` ("b"). -/
def c1WitState : EditorState :=
  { nodes := [
      (0, { data := .rootData, children := [1, 3] }),
      (1, { data := .paragraphData, parent := some 0, children := [2] }),
      (2, { data := .textData "a", parent := some 1 }),
      (3, { data := .paragraphData, parent := some 0, children := [4] }),
      (4, { data := .textData "b", parent := some 3 })],
    nextKey := 5,
    selection := some c1WitSel }

/-- Witness for C1 at the concrete two-paragraph document. -/
theorem c1_insert_remove_roundtrip_witness :
    ∃ s1, insertList c1WitState ListType.bullet = some s1 ∧
      (childrenK (removeList s1) 0).map
        (fun p => (childrenK (removeList s1) p).map (dataK (removeList s1)))
      = [(1, 2, "a"), (3, 4, "b")].map
          (fun b => [some (NodeData.textData b.2.2)]) :=
  c1_insert_remove_roundtrip c1WitState c1WitSel 0 [(1, 2, "a"), (3, 4, "b")]
    ⟨by decide, by decide, by decide, by decide, by decide, by decide,
      by decide, by decide, by decide, by decide, by decide, by decide,
      by decide⟩
    (by decide) (by decide) (by decide) (by decide)

end LexList
